import Mathlib

/-!
# whisper-jni: the native handle registries and the VAD audio compactor

A shallow embedding of `io_github_jaffe2718_whisperjni_WhisperJNI.cpp`.

* The three global `std::map<int, T*>` tables are association tables (`StdMap`).
* `rand()` is an arbitrary stream `rand : Nat → Int`; the world counts the draws made.
* A C++ exception leaving a function is an `Except.error`; a Java exception raised with
  `ThrowNew` is the `thrown` field of the value a JNI entry point returns.
* Calls into whisper.cpp (external collaborators) are recorded in the world's `trace`.
* An `int` is an unbounded `Int`. Overflow of `int` arithmetic and a conversion to `int` of
  a value outside its range are undefined in C++; `fitsInt` tests the range, and the
  results on the compactor that depend on it assume that the `int` computations are defined
  (`copyRangeDefined`, `compactDefined`).
* `double` arithmetic is exact rational arithmetic; the product of two `float`s is the exact
  product rounded to `float` (`roundToFloat`); a conversion to `int` truncates toward zero.
* Audio samples are only copied and zero-filled, never computed with.
-/

namespace WhisperJNI

/-! ## Basic types -/

/-- C++ exceptions that the wrapper lets escape: `std::map::at` throws `std::out_of_range`,
the id generators throw `std::runtime_error`. -/
inductive CppError where
  | out_of_range
  | runtime_error (what : String)
  deriving DecidableEq, Repr

/-- A Java exception raised through `env->ThrowNew(FindClass(cls), msg)`. -/
structure JavaExc where
  cls : String
  msg : String
  deriving DecidableEq, Repr

/-- A native pointer (`whisper_context *`, `whisper_state *`, ...); `0` is the null pointer. -/
abbrev Ptr := Nat

/-- A `float` sample, identified by its bit pattern. The wrapper only moves samples with
`memcpy` and writes all-zero bytes with `memset`, so no floating-point arithmetic touches
them; the pattern `0` is `+0.0f`. -/
abbrev Sample := Nat

/-- The part of `grammar_parser::parse_state` the wrapper reads: `rules` and `symbol_ids`. -/
structure ParseState where
  rules : List (List Nat)
  symbol_ids : List (String × Nat)
  deriving DecidableEq, Repr

/-- The fields of the Java object `WhisperFullParams` that matter to the claims. `grammar` is
the `ref` of the attached `WhisperGrammar` (`none` when the field is null); `scalars` stands
for the remaining numeric and boolean fields, which are copied one by one. -/
structure JParams where
  language : Option String
  initialPrompt : Option String
  vad_model_path : Option String
  samples_overlap : ℚ
  grammar : Option Int
  grammarPenalty : ℚ
  scalars : List Int
  deriving DecidableEq, Repr

/-- The native struct `whisper_full_params`. String fields are `none` for `nullptr`;
`grammar_rules` is `none` for a null rule array; `samples_overlap` is the field
`vad_params.samples_overlap` (seconds). -/
structure FullParams where
  language : Option String
  initial_prompt : Option String
  vad_model_path : Option String
  samples_overlap : ℚ
  scalars : List Int
  grammar_rules : Option (List (List Nat))
  n_grammar_rules : Nat
  i_start_rule : Nat
  grammar_penalty : ℚ
  deriving DecidableEq, Repr

/-- What a JNI entry point hands back to Java: the returned value and the Java exception
left pending by `ThrowNew`, if any. -/
structure Jni (ρ : Type) where
  value : ρ
  thrown : Option JavaExc
  deriving DecidableEq, Repr

/-! ## `std::map<int, V>` -/

/-- A `std::map<int, V>`: a table of key/value entries. -/
structure StdMap (V : Type) where
  entries : List (Int × V)
  deriving DecidableEq, Repr

namespace StdMap

variable {V : Type}

/-- The empty table, the initial value of the three global maps. -/
def empty : StdMap V := ⟨[]⟩

/-- Lookup of the first entry with key `k`. -/
def find? (m : StdMap V) (k : Int) : Option V :=
  match m.entries.find? (fun e => e.1 == k) with
  | some e => some e.2
  | none => none

/-- The method `count(k)`: 1 when the key is present, else 0. -/
def count (m : StdMap V) (k : Int) : Nat :=
  if (m.find? k).isSome then 1 else 0

/-- The method `at(k)`: the mapped value, or `std::out_of_range`. -/
def at_ (m : StdMap V) (k : Int) : Except CppError V :=
  match m.find? k with
  | some v => .ok v
  | none => .error .out_of_range

/-- The method `insert({k, v})`: inserts only when the key is not present yet. -/
def insert (m : StdMap V) (k : Int) (v : V) : StdMap V :=
  if (m.find? k).isSome then m else ⟨(k, v) :: m.entries⟩

/-- The method `erase(k)`: removes the entry with key `k`, if any. -/
def erase (m : StdMap V) (k : Int) : StdMap V :=
  ⟨m.entries.filter (fun e => !(e.1 == k))⟩

end StdMap

/-! ## The world: global tables, random source, native calls -/

/-- Calls into the native library and the JNI environment that the claims observe. -/
inductive Event where
  | whisper_free (ctx : Ptr)
  | whisper_free_state (state : Ptr)
  | free (grammar : ParseState)
  | GetStringUTFChars (field : String)
  | ReleaseStringUTFChars (field : String)
  | GetFloatArrayElements
  | ReleaseFloatArrayElements
  | whisper_vad_init (path : Option String)
  | whisper_vad_segments_from_samples (result : Option (List (Int × Int)))
  | whisper_vad_free_segments
  | whisper_vad_free
  | whisper_full (ctx : Ptr) (params : FullParams) (samples : List Sample) (nSamples : Int)
  | whisper_full_with_state (ctx state : Ptr) (params : FullParams)
      (samples : Option (List Sample)) (nSamples : Int)
  | whisper_full_get_segment_t0 (ctx : Ptr) (index : Int)
  | whisper_full_get_segment_t1 (ctx : Ptr) (index : Int)
  | whisper_full_get_segment_text (ctx : Ptr) (index : Int)
  | whisper_full_get_segment_t0_from_state (state : Ptr) (index : Int)
  | whisper_full_get_segment_t1_from_state (state : Ptr) (index : Int)
  | whisper_full_get_segment_text_from_state (state : Ptr) (index : Int)
  | whisper_full_n_tokens (ctx : Ptr) (segment : Int)
  | whisper_full_n_tokens_from_state (state : Ptr) (segment : Int)
  | whisper_full_get_token_data (ctx : Ptr) (segment token : Int)
  | whisper_full_get_token_text (ctx : Ptr) (segment token : Int)
  | whisper_full_get_token_data_from_state (state : Ptr) (segment token : Int)
  | whisper_full_get_token_text_from_state (ctx state : Ptr) (segment token : Int)
  | whisper_init_from_file_with_params (path : String)
  | whisper_init_from_file_with_params_no_state (path : String)
  | whisper_init_with_params (model : List Nat)
  | whisper_init_with_params_no_state (model : List Nat)
  deriving DecidableEq, Repr

/-- The process state the wrapper works on: the three global maps (lines 11-13), the number
of `rand()` calls made so far, and the native calls made so far. -/
structure World where
  contextMap : StdMap Ptr
  stateMap : StdMap Ptr
  grammarMap : StdMap ParseState
  drawn : Nat
  trace : List Event
  deriving DecidableEq, Repr

/-- The world at library load: empty maps, no draw made, no native call made. -/
def World.init : World :=
  { contextMap := .empty, stateMap := .empty, grammarMap := .empty, drawn := 0, trace := [] }

/-- Record a native call. -/
def World.emit (w : World) (e : Event) : World :=
  { w with trace := w.trace ++ [e] }

/-! ## Id generation (lines 15-53) -/

/-- The loop shared by the three id generators,
`int i = 0; while (i++ < 1000) { int id = rand(); if (!m.count(id)) return id; }`,
with `fuel = 1000 - i` iterations left and `drawn` calls of `rand()` made so far. Returns the
id found (`none` when the loop runs out) and the number of draws made afterwards. -/
def probe {V : Type} (rand : Nat → Int) (m : StdMap V) : Nat → Nat → Option Int × Nat
  | 0, drawn => (none, drawn)
  | fuel + 1, drawn =>
    let id := rand drawn
    if m.count id = 0 then (some id, drawn + 1) else probe rand m fuel (drawn + 1)

/-- Function `getContextId` (lines 15-27). -/
def getContextId (rand : Nat → Int) (w : World) : Except CppError Int × World :=
  match probe rand w.contextMap 1000 w.drawn with
  | (some id, d) => (.ok id, { w with drawn := d })
  | (none, d) =>
    (.error (.runtime_error "Wrapper error: Unable to get config id"), { w with drawn := d })

/-- Function `getStateId` (lines 28-40). -/
def getStateId (rand : Nat → Int) (w : World) : Except CppError Int × World :=
  match probe rand w.stateMap 1000 w.drawn with
  | (some id, d) => (.ok id, { w with drawn := d })
  | (none, d) =>
    (.error (.runtime_error "Wrapper error: Unable to get state id"), { w with drawn := d })

/-- Function `getGrammarId` (lines 41-53). -/
def getGrammarId (rand : Nat → Int) (w : World) : Except CppError Int × World :=
  match probe rand w.grammarMap 1000 w.drawn with
  | (some id, d) => (.ok id, { w with drawn := d })
  | (none, d) =>
    (.error (.runtime_error "Wrapper error: Unable to get grammar id"), { w with drawn := d })

/-! ## Allocation and release of handles -/

/-- Function `insertModel` (lines 54-59). -/
def insertModel (rand : Nat → Int) (w : World) (ctx : Ptr) : Except CppError Int × World :=
  match getContextId rand w with
  | (.error e, w1) => (.error e, w1)
  | (.ok ref, w1) => (.ok ref, { w1 with contextMap := w1.contextMap.insert ref ctx })

/-- JNI `initState` (lines 268-278). `created` is the pointer `whisper_init_state` returns
for this call (`0` for null). -/
def initState (rand : Nat → Int) (w : World) (created : Ptr) (ctxRef : Int) :
    Except CppError Int × World :=
  match getStateId rand w with
  | (.error e, w1) => (.error e, w1)
  | (.ok stateRef, w1) =>
    match w1.contextMap.at_ ctxRef with
    | .error e => (.error e, w1)
    | .ok _ctx =>
      let state := created
      if state = 0 then (.ok (-1), w1)
      else (.ok stateRef, { w1 with stateMap := w1.stateMap.insert stateRef state })

/-- JNI `loadGrammar` (lines 638-657). `parsed` is what `grammar_parser::parse` does on the
grammar text: the parse state, or the message of the exception it throws. The second
component is the Java exception raised, if any. -/
def loadGrammar (rand : Nat → Int) (w : World) (parsed : Except String ParseState) :
    Except CppError Int × Option JavaExc × World :=
  let w0 := w.emit (.GetStringUTFChars "grammarText")
  match parsed with
  | .error what =>
    (.ok (-1), some ⟨"java/io/IOException", what⟩, w0.emit (.ReleaseStringUTFChars "grammarText"))
  | .ok grammarPointer =>
    let w1 := w0.emit (.ReleaseStringUTFChars "grammarText")
    match getGrammarId rand w1 with
    | (.error e, w2) => (.error e, none, w2)
    | (.ok grammarRef, w2) =>
      (.ok grammarRef, none, { w2 with grammarMap := w2.grammarMap.insert grammarRef grammarPointer })

/-- JNI `freeContext` (lines 664-668). -/
def freeContext (w : World) (ctxRef : Int) : Except CppError Unit × World :=
  match w.contextMap.at_ ctxRef with
  | .error e => (.error e, w)
  | .ok ctx =>
    let w1 := w.emit (.whisper_free ctx)
    (.ok (), { w1 with contextMap := w1.contextMap.erase ctxRef })

/-- JNI `freeState` (lines 670-674). -/
def freeState (w : World) (stateRef : Int) : Except CppError Unit × World :=
  match w.stateMap.at_ stateRef with
  | .error e => (.error e, w)
  | .ok state =>
    let w1 := w.emit (.whisper_free_state state)
    (.ok (), { w1 with stateMap := w1.stateMap.erase stateRef })

/-- JNI `freeGrammar` (lines 675-679): frees the grammar found in `grammarMap`, then erases
the key from `stateMap`. -/
def freeGrammar (w : World) (grammarRef : Int) : Except CppError Unit × World :=
  match w.grammarMap.at_ grammarRef with
  | .error e => (.error e, w)
  | .ok grammar =>
    let w1 := w.emit (.free grammar)
    (.ok (), { w1 with stateMap := w1.stateMap.erase grammarRef })

/-! ## The external collaborators -/

/-- The functions of whisper.cpp the wrapper calls, as far as their results matter.
The two decoders return the result code together with the texts of the segments the
context or state holds afterwards; `whisper_vad_segments_from_samples` returns `none` for a
null segment list, else the `(t0, t1)` pairs in centiseconds, as the integer that reaches
the `int64_t` parameter of `cs_to_samples`; its `vad_params` argument is carried by the
whole parameter struct. -/
structure Native where
  whisper_full : Ptr → FullParams → List Sample → Int → Int
  whisper_full_with_state :
    Ptr → Ptr → FullParams → Option (List Sample) → Int → Int × List String
  whisper_vad_init_from_file_with_params : Option String → Ptr
  whisper_vad_segments_from_samples :
    Ptr → FullParams → List Sample → Int → Option (List (Int × Int))
  whisper_full_n_segments : Ptr → Int
  whisper_full_n_segments_from_state : Ptr → Int
  whisper_full_get_segment_t0 : Ptr → Int → Int
  whisper_full_get_segment_t1 : Ptr → Int → Int
  whisper_full_get_segment_text : Ptr → Int → String
  whisper_full_get_segment_t0_from_state : Ptr → Int → Int
  whisper_full_get_segment_t1_from_state : Ptr → Int → Int
  whisper_full_get_segment_text_from_state : Ptr → Int → String

/-! ## Parameter translation (lines 69-172) -/

/-- Emit `GetStringUTFChars` for a Java string field that is not null. -/
def acquireString (w : World) (field : String) (s : Option String) : World :=
  match s with
  | some _ => w.emit (.GetStringUTFChars field)
  | none => w

/-- Emit `ReleaseStringUTFChars` for a Java string field that is not null. -/
def releaseString (w : World) (field : String) (s : Option String) : World :=
  match s with
  | some _ => w.emit (.ReleaseStringUTFChars field)
  | none => w

/-- Function `newWhisperFullParams` (lines 89-172). `defaults` is the struct returned by
`whisper_full_default_params`; the grammar fields are not written here. -/
def newWhisperFullParams (defaults : FullParams) (w : World) (jParams : JParams) :
    FullParams × World :=
  let w1 := acquireString w "language" jParams.language
  let w2 := acquireString w1 "initialPrompt" jParams.initialPrompt
  let w3 := acquireString w2 "vad_model_path" jParams.vad_model_path
  ({ defaults with
      language := jParams.language
      initial_prompt := jParams.initialPrompt
      vad_model_path := jParams.vad_model_path
      samples_overlap := jParams.samples_overlap
      scalars := jParams.scalars }, w3)

/-- Function `freeWhisperFullParams` (lines 69-87). -/
def freeWhisperFullParams (w : World) (jParams : JParams) : World :=
  let w1 := releaseString w "language" jParams.language
  let w2 := releaseString w1 "initialPrompt" jParams.initialPrompt
  releaseString w2 "vad_model_path" jParams.vad_model_path

/-! ## `full` and `fullWithState` (lines 292-321, 460-488) -/

/-- The grammar block of `full` (lines 297-314) and of `fullWithState` (lines 465-482),
which are the same text: the parameter struct after the block, or the `std::out_of_range`
of `grammarMap.at`. -/
def attachGrammar (w : World) (jParams : JParams) (params : FullParams) :
    Except CppError FullParams :=
  match jParams.grammar with
  | none => .ok params
  | some grammarRef =>
    match w.grammarMap.at_ grammarRef with
    | .error e => .error e
    | .ok grammar_parsed =>
      let grammar_rules := grammar_parsed.rules
      match grammar_parsed.rules.isEmpty, grammar_parsed.symbol_ids.lookup "root" with
      | false, some root =>
        .ok { params with
                grammar_rules := some grammar_rules
                n_grammar_rules := grammar_rules.length
                i_start_rule := root
                grammar_penalty := jParams.grammarPenalty }
      | _, _ => .ok params

/-- JNI `full` (lines 292-321). -/
def full (nat : Native) (defaults : FullParams) (w : World) (ctxRef : Int)
    (jParams : JParams) (samples : List Sample) (jNumSamples : Int) :
    Except CppError Int × World :=
  let numSamples := jNumSamples
  let (params0, w1) := newWhisperFullParams defaults w jParams
  match attachGrammar w1 jParams params0 with
  | .error e => (.error e, w1)
  | .ok params =>
    let w2 := w1.emit .GetFloatArrayElements
    match w2.contextMap.at_ ctxRef with
    | .error e => (.error e, w2)
    | .ok ctx =>
      let result := nat.whisper_full ctx params samples numSamples
      let w3 := w2.emit (.whisper_full ctx params samples numSamples)
      let w4 := freeWhisperFullParams w3 jParams
      (.ok result, w4.emit .ReleaseFloatArrayElements)

/-- JNI `fullWithState` (lines 460-488). -/
def fullWithState (nat : Native) (defaults : FullParams) (w : World) (ctxRef stateRef : Int)
    (jParams : JParams) (samples : List Sample) (jNumSamples : Int) :
    Except CppError Int × World :=
  let numSamples := jNumSamples
  let (params0, w1) := newWhisperFullParams defaults w jParams
  match attachGrammar w1 jParams params0 with
  | .error e => (.error e, w1)
  | .ok params =>
    let w2 := w1.emit .GetFloatArrayElements
    match w2.contextMap.at_ ctxRef with
    | .error e => (.error e, w2)
    | .ok ctx =>
      match w2.stateMap.at_ stateRef with
      | .error e => (.error e, w2)
      | .ok state =>
        let result := (nat.whisper_full_with_state ctx state params (some samples) numSamples).1
        let w3 := w2.emit (.whisper_full_with_state ctx state params (some samples) numSamples)
        let w4 := freeWhisperFullParams w3 jParams
        (.ok result, w4.emit .ReleaseFloatArrayElements)

/-! ## The audio compactor of `vadState` (lines 323-432) -/

/-- Modelled from the spec: the macro `WHISPER_SAMPLE_RATE` of `whisper.h`, which is not part
of the sources; the sample rate is fixed at 16000 samples per second. The functions below
take the rate as a parameter. -/
def WHISPER_SAMPLE_RATE : Nat := 16000

/-- The least value of an `int` (32 bits). -/
def INT_MIN : Int := -2147483648

/-- The largest value of an `int` (32 bits). -/
def INT_MAX : Int := 2147483647

/-- The value is representable as an `int`. A conversion of a floating value to `int` and an
arithmetic operation on `int`s are defined in C++ only when their result is; the functions
below compute with unbounded integers, and they give the values of the code on the runs in
which every `int` computed passes this test (`copyRangeDefined`, `compactDefined`). -/
def fitsInt (x : Int) : Bool :=
  decide (INT_MIN ≤ x) && decide (x ≤ INT_MAX)

/-- The conversion `(int) x` / `static_cast<int>(x)` of a real number: truncation toward
zero. Reals are exact rationals here. The conversion is defined when the result fits in an
`int` (`fitsInt`). -/
def truncToInt (q : ℚ) : Int :=
  if 0 ≤ q then ⌊q⌋ else ⌈q⌉

/-- Function `cs_to_samples` (lines 325-328): `(int)((cs / 100.0) * WHISPER_SAMPLE_RATE + 0.5)`,
the value of the expression over the reals, truncated. It is the value the code returns when
it fits in an `int`; beyond that range the conversion `(int)` is undefined in C++. The
`double` operations are taken exact: at the rate 16000 the exact value is `160 * cs + 1/2`,
half a unit away from the nearest integers, and for a result in the range of an `int` the
rounding errors of the three `double` operations stay below 2^-20. -/
def cs_to_samples (rate : Nat) (cs : Int) : Int :=
  truncToInt (((cs : ℚ) / 100) * (rate : ℚ) + 1 / 2)

/-- Rounding of a real to the nearest integer, ties to the even one. -/
def roundHalfEven (m : ℚ) : Int :=
  let f := ⌊m⌋
  if m - f < 1 / 2 then f
  else if 1 / 2 < m - f then f + 1
  else if f % 2 = 0 then f else f + 1

/-- Scaling of a positive real `a` by a power of two into the range of the 24-bit significand
of a `float`: the result is `(a * 2^k, k)` with `2^23 ≤ a * 2^k < 2^24`, except that `k` stops
at 149, the exponent of the smallest subnormal. `fuel` bounds the number of steps, one for
each doubling or halving. -/
def floatScale : Nat → ℚ → Int → ℚ × Int
  | 0, a, k => (a, k)
  | fuel + 1, a, k =>
    if a < 8388608 then
      if k < 149 then floatScale fuel (2 * a) (k + 1) else (a, k)
    else if 16777216 ≤ a then floatScale fuel (a / 2) (k - 1)
    else (a, k)

/-- The `float` (IEEE binary32) nearest to the real `x`, ties to even: the result of a `float`
operation whose exact result is `x`, every `float` operation being rounded to `float`. The
significand `x * 2^k` is rounded to an integer `m` and the result is `m / 2^k`. The 512 steps
of the scaling are enough below 2^536. A result beyond the largest finite `float` is not
turned into an infinity; such a value is far outside the range of an `int`. -/
def roundToFloat (x : ℚ) : ℚ :=
  if x = 0 then 0
  else
    let a := if x < 0 then -x else x
    let r := floatScale 512 a 0
    let m : ℚ := roundHalfEven r.1
    let v :=
      if 0 ≤ r.2 then m / ((2 ^ r.2.toNat : Nat) : ℚ)
      else m * ((2 ^ (-r.2).toNat : Nat) : ℚ)
    if x < 0 then -v else v

/-- Line 380: `int silence_samples = static_cast<int>(0.1f * WHISPER_SAMPLE_RATE)`. The
literal `0.1f` is the `float` nearest to one tenth, 13421773 / 2^27, and the product is a
`float` product. -/
def silence_samples (rate : Nat) : Int :=
  truncToInt (roundToFloat ((13421773 / 134217728 : ℚ) * (rate : ℚ)))

/-- Line 412: `int overlap_samples = static_cast<int>(overlap_seconds * WHISPER_SAMPLE_RATE)`.
The product of the `float` and the rate (converted to `float`, which is exact for 16000) is a
`float` product: the exact product rounded to `float`. -/
def overlap_samples (rate : Nat) (overlap_seconds : ℚ) : Int :=
  truncToInt (roundToFloat (overlap_seconds * (rate : ℚ)))

/-- The sizing loop (lines 383-398), at loop index `i` with the segments `i, i+1, ...` still
to visit and the running `total_samples`. -/
def sizingPass (rate : Nat) (numSegments : Int) : Int → List (Int × Int) → Int → Int
  | _, [], total_samples => total_samples
  | i, (t0, t1) :: rest, total_samples =>
    let start := cs_to_samples rate t0
    let end0 := cs_to_samples rate t1
    let end1 := if i < numSegments - 1 then end0 + silence_samples rate else end0
    let total1 := total_samples + max 0 (end1 - start)
    let total2 := if i < numSegments - 1 then total1 + silence_samples rate else total1
    sizingPass rate numSegments (i + 1) rest total2

/-- `memcpy(dst + offset, src + start, len * sizeof(float))`: the new content of `dst`, or
`none` when the copy reads outside `src` or writes outside `dst` (undefined behaviour). -/
def memcpyAt (dst : List Sample) (offset : Int) (src : List Sample) (start len : Int) :
    Option (List Sample) :=
  if 0 ≤ offset ∧ 0 ≤ len ∧ offset + len ≤ dst.length ∧ 0 ≤ start ∧ start + len ≤ src.length then
    some (dst.take offset.toNat ++ (src.drop start.toNat).take len.toNat
      ++ dst.drop (offset + len).toNat)
  else none

/-- `memset(dst + offset, 0, n * sizeof(float))`: the new content of `dst`, or `none` when
the write leaves `dst` (undefined behaviour). -/
def memsetZeroAt (dst : List Sample) (offset n : Int) : Option (List Sample) :=
  if 0 ≤ offset ∧ 0 ≤ n ∧ offset + n ≤ dst.length then
    some (dst.take offset.toNat ++ List.replicate n.toNat 0 ++ dst.drop (offset + n).toNat)
  else none

/-- The copy loop (lines 403-432), at loop index `i` with the segments `i, i+1, ...` still to
visit. The state is the content of `filtered_samples` (`none` once an access has left a
buffer) and the write `offset`. -/
def copyPass (rate : Nat) (nativeSamples : List Sample) (numSamples : Int)
    (overlap_seconds : ℚ) (numSegments : Int) :
    Int → List (Int × Int) → Option (List Sample) → Int → Option (List Sample) × Int
  | _, [], filtered, offset => (filtered, offset)
  | i, (t0, t1) :: rest, filtered, offset =>
    let start := min (cs_to_samples rate t0) (numSamples - 1)
    let end0 := min (cs_to_samples rate t1) numSamples
    let end1 :=
      if i < numSegments - 1 then min (end0 + overlap_samples rate overlap_seconds) numSamples
      else end0
    let len := max 0 (end1 - start)
    let filtered1 :=
      if len > 0 then filtered.bind (fun dst => memcpyAt dst offset nativeSamples start len)
      else filtered
    let offset1 := if len > 0 then offset + len else offset
    let filtered2 :=
      if i < numSegments - 1 then
        filtered1.bind (fun dst => memsetZeroAt dst offset1 (silence_samples rate))
      else filtered1
    let offset2 := if i < numSegments - 1 then offset1 + silence_samples rate else offset1
    copyPass rate nativeSamples numSamples overlap_seconds numSegments (i + 1) rest
      filtered2 offset2

/-- Lines 379-432 of `vadState`: size `filtered_samples` with the first loop, fill it with the
second. Returns the buffer content, the final write offset and the capacity `total_samples`. -/
def compact (rate : Nat) (nativeSamples : List Sample) (numSamples : Int)
    (overlap_seconds : ℚ) (segments : List (Int × Int)) : Option (List Sample) × Int × Int :=
  let numSegments : Int := segments.length
  let total_samples := sizingPass rate numSegments 0 segments 0
  let filtered_samples : List Sample := List.replicate total_samples.toNat 0
  let r := copyPass rate nativeSamples numSamples overlap_seconds numSegments 0 segments
    (some filtered_samples) 0
  (r.1, r.2, total_samples)

/-! ## The `int` computations of the compactor

The loops compute with `int`s. The predicates below hold when every `int` the code computes
is representable, so that no conversion and no sum or difference is undefined. -/

/-- The `int` computations of the sizing loop (lines 383-398) are defined, at loop index `i`
with the running `total_samples`: the two conversions of `cs_to_samples`, `numSegments - 1`,
`end += silence_samples`, `end - start` and the two additions to `total_samples`. -/
def sizingPassDefined (rate : Nat) (numSegments : Int) : Int → List (Int × Int) → Int → Bool
  | _, [], _ => true
  | i, (t0, t1) :: rest, total_samples =>
    let start := cs_to_samples rate t0
    let end0 := cs_to_samples rate t1
    let end1 := if i < numSegments - 1 then end0 + silence_samples rate else end0
    let total1 := total_samples + max 0 (end1 - start)
    let total2 := if i < numSegments - 1 then total1 + silence_samples rate else total1
    fitsInt start && fitsInt end0 && fitsInt (numSegments - 1) && fitsInt end1 &&
      fitsInt (end1 - start) && fitsInt total1 && fitsInt total2 &&
      sizingPassDefined rate numSegments (i + 1) rest total2

/-- The `int` computations that give the range of iteration `i` of the copy loop
(lines 405-419) are defined: the conversions `cs_to_samples(t0)` and `cs_to_samples(t1)`,
`numSamples - 1`, the conversion of the overlap, `numSegments - 1`, `end + overlap_samples`
(made for every interval but the last) and `end - start`. -/
def copyRangeDefined (rate : Nat) (numSamples : Int) (overlap_seconds : ℚ)
    (numSegments i : Int) (seg : Int × Int) : Bool :=
  let start := min (cs_to_samples rate seg.1) (numSamples - 1)
  let end0 := min (cs_to_samples rate seg.2) numSamples
  let end1 :=
    if i < numSegments - 1 then min (end0 + overlap_samples rate overlap_seconds) numSamples
    else end0
  fitsInt (cs_to_samples rate seg.1) && fitsInt (numSamples - 1) &&
    fitsInt (cs_to_samples rate seg.2) && fitsInt (overlap_samples rate overlap_seconds) &&
    fitsInt (numSegments - 1) &&
    (if i < numSegments - 1 then fitsInt (end0 + overlap_samples rate overlap_seconds)
      else true) &&
    fitsInt (end1 - start)

/-- The `int` computations of the copy loop (lines 403-432) are defined, at loop index `i`
with the write `offset`: those of the range (`copyRangeDefined`), `offset += len` and
`offset += silence_samples`. -/
def copyPassDefined (rate : Nat) (numSamples : Int) (overlap_seconds : ℚ) (numSegments : Int) :
    Int → List (Int × Int) → Int → Bool
  | _, [], _ => true
  | i, (t0, t1) :: rest, offset =>
    let start := min (cs_to_samples rate t0) (numSamples - 1)
    let end0 := min (cs_to_samples rate t1) numSamples
    let end1 :=
      if i < numSegments - 1 then min (end0 + overlap_samples rate overlap_seconds) numSamples
      else end0
    let len := max 0 (end1 - start)
    let offset1 := if len > 0 then offset + len else offset
    let offset2 := if i < numSegments - 1 then offset1 + silence_samples rate else offset1
    copyRangeDefined rate numSamples overlap_seconds numSegments i (t0, t1) &&
      fitsInt offset1 && fitsInt offset2 &&
      copyPassDefined rate numSamples overlap_seconds numSegments (i + 1) rest offset2

/-- The `int` computations of lines 379-432 are defined: `numSamples` and the number of
segments are `int`s, the conversion that gives `silence_samples` is defined, and so are the
computations of the two loops. -/
def compactDefined (rate : Nat) (numSamples : Int) (overlap_seconds : ℚ)
    (segments : List (Int × Int)) : Bool :=
  let numSegments : Int := segments.length
  fitsInt numSamples && fitsInt numSegments && fitsInt (silence_samples rate) &&
    sizingPassDefined rate numSegments 0 segments 0 &&
    copyPassDefined rate numSamples overlap_seconds numSegments 0 segments 0

/-- JNI `vadState` (lines 330-458), with the sample rate as a parameter. -/
def vadState (nat : Native) (defaults : FullParams) (rate : Nat) (w : World)
    (ctxRef stateRef : Int) (jParams : JParams) (samples : List Sample) (jNumSamples : Int) :
    Except CppError (Jni (Option String)) × World :=
  let (params, w1) := newWhisperFullParams defaults w jParams
  match w1.contextMap.at_ ctxRef with
  | .error e => (.error e, w1)
  | .ok whisper_ctx =>
    match w1.stateMap.at_ stateRef with
    | .error e => (.error e, w1)
    | .ok state =>
      let vadCtx := nat.whisper_vad_init_from_file_with_params params.vad_model_path
      let w2 := w1.emit (.whisper_vad_init params.vad_model_path)
      let nativeSamples := samples
      let w3 := w2.emit .GetFloatArrayElements
      let numSamples := jNumSamples
      let segments :=
        nat.whisper_vad_segments_from_samples vadCtx params nativeSamples numSamples
      let w4 := w3.emit (.whisper_vad_segments_from_samples segments)
      match segments with
      | none =>
        let w5 := (w4.emit .ReleaseFloatArrayElements).emit .whisper_vad_free
        (.ok ⟨none, some ⟨"java/lang/RuntimeException", "Transcription failed"⟩⟩, w5)
      | some segs =>
        let numSegments : Int := segs.length
        if numSegments = 0 then
          let w5 := ((w4.emit .ReleaseFloatArrayElements).emit .whisper_vad_free_segments).emit
            .whisper_vad_free
          (.ok ⟨none, none⟩, w5)
        else
          let c := compact rate nativeSamples numSamples params.samples_overlap segs
          let filtered_samples := c.1
          let offset := c.2.1
          let decoded := nat.whisper_full_with_state whisper_ctx state params filtered_samples offset
          let w5 := w4.emit (.whisper_full_with_state whisper_ctx state params filtered_samples offset)
          let result := decoded.1
          let output := if result = 0 then String.join decoded.2 else ""
          let thrown : Option JavaExc :=
            if result = 0 then none
            else some ⟨"java/lang/RuntimeException", "Transcription failed"⟩
          let w6 := ((w5.emit .ReleaseFloatArrayElements).emit .whisper_vad_free_segments).emit
            .whisper_vad_free
          (.ok ⟨if output.isEmpty then none else some output, thrown⟩, w6)

/-! ## Segment accessors (lines 558-636)

The bounds check `nSegments < index + 1` is taken over the integers. In C++ the sum is an
`int`: it equals the integer sum for every index below the largest `int`; at
`index = 2147483647` the signed overflow is undefined, and the compiled code evaluates the
test as `nSegments <= index`, without wrapping the sum, which is the value of the test over
the integers. -/

/-- The Java exception the accessors raise on a failed bounds check. -/
def indexOutOfRange : JavaExc :=
  ⟨"java/lang/IndexOutOfBoundsException", "Index out of range"⟩

/-- JNI `fullGetSegmentTimestamp0` (lines 558-569). -/
def fullGetSegmentTimestamp0 (nat : Native) (w : World) (ctxRef index : Int) :
    Except CppError (Jni Int) × World :=
  match w.contextMap.at_ ctxRef with
  | .error e => (.error e, w)
  | .ok whisper_ctx =>
    let nSegments := nat.whisper_full_n_segments whisper_ctx
    if nSegments < index + 1 then (.ok ⟨0, some indexOutOfRange⟩, w)
    else
      (.ok ⟨nat.whisper_full_get_segment_t0 whisper_ctx index, none⟩,
        w.emit (.whisper_full_get_segment_t0 whisper_ctx index))

/-- JNI `fullGetSegmentTimestamp1` (lines 571-582). -/
def fullGetSegmentTimestamp1 (nat : Native) (w : World) (ctxRef index : Int) :
    Except CppError (Jni Int) × World :=
  match w.contextMap.at_ ctxRef with
  | .error e => (.error e, w)
  | .ok whisper_ctx =>
    let nSegments := nat.whisper_full_n_segments whisper_ctx
    if nSegments < index + 1 then (.ok ⟨0, some indexOutOfRange⟩, w)
    else
      (.ok ⟨nat.whisper_full_get_segment_t1 whisper_ctx index, none⟩,
        w.emit (.whisper_full_get_segment_t1 whisper_ctx index))

/-- JNI `fullGetSegmentText` (lines 584-596). -/
def fullGetSegmentText (nat : Native) (w : World) (ctxRef index : Int) :
    Except CppError (Jni (Option String)) × World :=
  match w.contextMap.at_ ctxRef with
  | .error e => (.error e, w)
  | .ok whisper_ctx =>
    let nSegments := nat.whisper_full_n_segments whisper_ctx
    if nSegments < index + 1 then (.ok ⟨none, some indexOutOfRange⟩, w)
    else
      (.ok ⟨some (nat.whisper_full_get_segment_text whisper_ctx index), none⟩,
        w.emit (.whisper_full_get_segment_text whisper_ctx index))

/-- JNI `fullGetSegmentTimestamp0FromState` (lines 598-609). -/
def fullGetSegmentTimestamp0FromState (nat : Native) (w : World) (stateRef index : Int) :
    Except CppError (Jni Int) × World :=
  match w.stateMap.at_ stateRef with
  | .error e => (.error e, w)
  | .ok state =>
    let nSegments := nat.whisper_full_n_segments_from_state state
    if nSegments < index + 1 then (.ok ⟨0, some indexOutOfRange⟩, w)
    else
      (.ok ⟨nat.whisper_full_get_segment_t0_from_state state index, none⟩,
        w.emit (.whisper_full_get_segment_t0_from_state state index))

/-- JNI `fullGetSegmentTimestamp1FromState` (lines 611-622). -/
def fullGetSegmentTimestamp1FromState (nat : Native) (w : World) (stateRef index : Int) :
    Except CppError (Jni Int) × World :=
  match w.stateMap.at_ stateRef with
  | .error e => (.error e, w)
  | .ok state =>
    let nSegments := nat.whisper_full_n_segments_from_state state
    if nSegments < index + 1 then (.ok ⟨0, some indexOutOfRange⟩, w)
    else
      (.ok ⟨nat.whisper_full_get_segment_t1_from_state state index, none⟩,
        w.emit (.whisper_full_get_segment_t1_from_state state index))

/-- JNI `fullGetSegmentTextFromState` (lines 624-636). -/
def fullGetSegmentTextFromState (nat : Native) (w : World) (stateRef index : Int) :
    Except CppError (Jni (Option String)) × World :=
  match w.stateMap.at_ stateRef with
  | .error e => (.error e, w)
  | .ok state =>
    let nSegments := nat.whisper_full_n_segments_from_state state
    if nSegments < index + 1 then (.ok ⟨none, some indexOutOfRange⟩, w)
    else
      (.ok ⟨some (nat.whisper_full_get_segment_text_from_state state index), none⟩,
        w.emit (.whisper_full_get_segment_text_from_state state index))

/-! ## Token accessors (lines 491-544) -/

/-- The native struct `whisper_token_data`. -/
structure WhisperTokenData where
  id : Int
  tid : Int
  p : ℚ
  plog : ℚ
  pt : ℚ
  ptsum : ℚ
  t0 : Int
  t1 : Int
  t_dtw : Int
  vlen : ℚ
  deriving DecidableEq, Repr

/-- The Java object `TokenData` built by the constructor `(Ljava/lang/String;IIFFFFJJJF)V`. -/
structure TokenData where
  token : String
  id : Int
  tid : Int
  p : ℚ
  plog : ℚ
  pt : ℚ
  ptsum : ℚ
  t0 : Int
  t1 : Int
  t_dtw : Int
  vlen : ℚ
  deriving DecidableEq, Repr

/-- The token functions of whisper.cpp the wrapper calls. -/
structure TokenNative where
  whisper_full_n_tokens : Ptr → Int → Int
  whisper_full_n_tokens_from_state : Ptr → Int → Int
  whisper_full_get_token_data : Ptr → Int → Int → WhisperTokenData
  whisper_full_get_token_text : Ptr → Int → Int → String
  whisper_full_get_token_data_from_state : Ptr → Int → Int → WhisperTokenData
  whisper_full_get_token_text_from_state : Ptr → Ptr → Int → Int → String

/-- JNI `fullNTokens` (lines 491-495). -/
def fullNTokens (tnat : TokenNative) (w : World) (ctxRef segment : Int) :
    Except CppError (Jni Int) × World :=
  match w.contextMap.at_ ctxRef with
  | .error e => (.error e, w)
  | .ok whisper_ctx =>
    (.ok ⟨tnat.whisper_full_n_tokens whisper_ctx segment, none⟩,
      w.emit (.whisper_full_n_tokens whisper_ctx segment))

/-- JNI `fullNTokensFromState` (lines 497-501). -/
def fullNTokensFromState (tnat : TokenNative) (w : World) (stateRef segment : Int) :
    Except CppError (Jni Int) × World :=
  match w.stateMap.at_ stateRef with
  | .error e => (.error e, w)
  | .ok state =>
    (.ok ⟨tnat.whisper_full_n_tokens_from_state state segment, none⟩,
      w.emit (.whisper_full_n_tokens_from_state state segment))

/-- Function `createTokenData` (lines 503-524). -/
def createTokenData (tokenText : String) (td : WhisperTokenData) : TokenData :=
  { token := tokenText, id := td.id, tid := td.tid, p := td.p, plog := td.plog, pt := td.pt,
    ptsum := td.ptsum, t0 := td.t0, t1 := td.t1, t_dtw := td.t_dtw, vlen := td.vlen }

/-- JNI `getTokenData` (lines 526-533). -/
def getTokenData (tnat : TokenNative) (w : World) (ctxRef segment token : Int) :
    Except CppError (Jni TokenData) × World :=
  match w.contextMap.at_ ctxRef with
  | .error e => (.error e, w)
  | .ok whisper_ctx =>
    let td := tnat.whisper_full_get_token_data whisper_ctx segment token
    let w1 := w.emit (.whisper_full_get_token_data whisper_ctx segment token)
    let tokenText := tnat.whisper_full_get_token_text whisper_ctx segment token
    let w2 := w1.emit (.whisper_full_get_token_text whisper_ctx segment token)
    (.ok ⟨createTokenData tokenText td, none⟩, w2)

/-- JNI `getTokenDataFromState` (lines 535-544). -/
def getTokenDataFromState (tnat : TokenNative) (w : World) (ctxRef stateRef segment token : Int) :
    Except CppError (Jni TokenData) × World :=
  match w.contextMap.at_ ctxRef with
  | .error e => (.error e, w)
  | .ok whisper_ctx =>
    match w.stateMap.at_ stateRef with
    | .error e => (.error e, w)
    | .ok state =>
      let td := tnat.whisper_full_get_token_data_from_state state segment token
      let w1 := w.emit (.whisper_full_get_token_data_from_state state segment token)
      let tokenText :=
        tnat.whisper_full_get_token_text_from_state whisper_ctx state segment token
      let w2 := w1.emit (.whisper_full_get_token_text_from_state whisper_ctx state segment token)
      (.ok ⟨createTokenData tokenText td, none⟩, w2)

/-! ## Opening a context (lines 61-67, 187-266) -/

/-- The native struct `whisper_context_params`: the field the wrapper writes, and the rest. -/
structure ContextParams where
  use_gpu : Bool
  rest : List Int
  deriving DecidableEq, Repr

/-- The initializers of whisper.cpp; each returns the new context, `0` for null. The stream
variants receive the bytes their loader can read. -/
structure InitNative where
  whisper_init_from_file_with_params : String → ContextParams → Ptr
  whisper_init_from_file_with_params_no_state : String → ContextParams → Ptr
  whisper_init_with_params : List Nat → ContextParams → Ptr
  whisper_init_with_params_no_state : List Nat → ContextParams → Ptr

/-- Function `newWhisperContextParams` (lines 61-67). `defaults` is the struct returned by
`whisper_context_default_params`, `useGPU` the field of the Java object. -/
def newWhisperContextParams (defaults : ContextParams) (useGPU : Bool) : ContextParams :=
  { defaults with use_gpu := useGPU }

/-- JNI `init` (lines 187-197). -/
def init (inat : InitNative) (defaults : ContextParams) (rand : Nat → Int) (w : World)
    (modelPath : String) (useGPU : Bool) : Except CppError Int × World :=
  let w1 := w.emit (.GetStringUTFChars "modelPath")
  let context :=
    inat.whisper_init_from_file_with_params modelPath (newWhisperContextParams defaults useGPU)
  let w2 := w1.emit (.whisper_init_from_file_with_params modelPath)
  let w3 := w2.emit (.ReleaseStringUTFChars "modelPath")
  if context = 0 then (.ok (-1), w3) else insertModel rand w3 context

/-- JNI `initNoState` (lines 256-266). -/
def initNoState (inat : InitNative) (defaults : ContextParams) (rand : Nat → Int) (w : World)
    (modelPath : String) (useGPU : Bool) : Except CppError Int × World :=
  let w1 := w.emit (.GetStringUTFChars "modelPath")
  let context := inat.whisper_init_from_file_with_params_no_state modelPath
    (newWhisperContextParams defaults useGPU)
  let w2 := w1.emit (.whisper_init_from_file_with_params_no_state modelPath)
  let w3 := w2.emit (.ReleaseStringUTFChars "modelPath")
  if context = 0 then (.ok (-1), w3) else insertModel rand w3 context

/-- The read loop of `initFromInputStream` (lines 210-220) on a stream that answers the
successive `read(buffer)` calls with the chunks of `reads` and then with -1: the bytes pushed
to `model_data`. A chunk of length 0 is a `read` that returns 0. -/
def readStream : List (List Nat) → List Nat
  | [] => []
  | chunk :: rest => if (chunk.length : Int) > 0 then chunk ++ readStream rest else readStream rest

/-- JNI `initFromInputStream` (lines 199-254). -/
def initFromInputStream (inat : InitNative) (defaults : ContextParams) (rand : Nat → Int)
    (w : World) (reads : List (List Nat)) (useGPU : Bool) (initState : Bool) :
    Except CppError Int × World :=
  let model_data := readStream reads
  if model_data.isEmpty then (.ok (-1), w)
  else
    let context :=
      if initState then
        inat.whisper_init_with_params model_data (newWhisperContextParams defaults useGPU)
      else
        inat.whisper_init_with_params_no_state model_data
          (newWhisperContextParams defaults useGPU)
    let w1 :=
      if initState then w.emit (.whisper_init_with_params model_data)
      else w.emit (.whisper_init_with_params_no_state model_data)
    if context ≠ 0 then insertModel rand w1 context else (.ok (-1), w1)

/-! # Specification-side definitions -/

/-- The keys of a table. -/
def StdMap.keys {V : Type} (m : StdMap V) : List Int :=
  m.entries.map Prod.fst

/-- The contract of an id generator, in the words of the registry's `allocate`: started
after `drawn` draws on a table with keys `keys`, it ends after `drawn'` draws with `r`. -/
def IdContract (rand : Nat → Int) (keys : List Int) (drawn : Nat) (what : String)
    (r : Except CppError Int) (drawn' : Nat) : Prop :=
  (drawn ≤ drawn' ∧ drawn' ≤ drawn + 1000) ∧
  (∀ k, k < 1000 → rand (drawn + k) ∉ keys → (∀ j, j < k → rand (drawn + j) ∈ keys) →
    r = .ok (rand (drawn + k)) ∧ drawn' = drawn + k + 1) ∧
  (∀ id, r = .ok id → id ∉ keys) ∧
  (r = .error (.runtime_error what) ↔ ∀ k, k < 1000 → rand (drawn + k) ∈ keys) ∧
  (∀ e, r = .error e → e = .runtime_error what ∧ drawn' = drawn + 1000)

/-- One call on the context registry, with what it returned. -/
inductive CtxEntry where
  | insertModel (ctx : Ptr) (result : Except CppError Int)
  | freeContext (ctxRef : Int) (result : Except CppError Unit)

/-- A call on the context registry. -/
inductive CtxCall where
  | insertModel (ctx : Ptr)
  | freeContext (ctxRef : Int)
  deriving DecidableEq, Repr

/-- Run a sequence of calls on the context registry; returns the final world and the log
of the calls with their results. -/
def runCtxCalls (rand : Nat → Int) : World → List CtxCall → World × List CtxEntry
  | w, [] => (w, [])
  | w, .insertModel ctx :: rest =>
    let r := insertModel rand w ctx
    let out := runCtxCalls rand r.2 rest
    (out.1, .insertModel ctx r.1 :: out.2)
  | w, .freeContext ctxRef :: rest =>
    let r := freeContext w ctxRef
    let out := runCtxCalls rand r.2 rest
    (out.1, .freeContext ctxRef r.1 :: out.2)

/-- In the log, handle `h` was returned by an allocate that stored `r`, and `h` has not
been freed since: no `freeContext` call on `h` follows that allocate, whatever the call
returned. -/
def CtxLive (log : List CtxEntry) (h : Int) (r : Ptr) : Prop :=
  ∃ pre post, log = pre ++ CtxEntry.insertModel r (.ok h) :: post ∧
    ∀ res, CtxEntry.freeContext h res ∉ post

/-- One call on the decode-state registry, with what it returned. -/
inductive StateEntry where
  | initState (ctxRef : Int) (created : Ptr) (result : Except CppError Int)
  | freeState (stateRef : Int) (result : Except CppError Unit)

/-- A call on the decode-state registry; `created` is the pointer the native
`whisper_init_state` returns for that call. -/
inductive StateCall where
  | initState (ctxRef : Int) (created : Ptr)
  | freeState (stateRef : Int)
  deriving DecidableEq, Repr

/-- Run a sequence of calls on the decode-state registry. -/
def runStateCalls (rand : Nat → Int) : World → List StateCall → World × List StateEntry
  | w, [] => (w, [])
  | w, .initState ctxRef created :: rest =>
    let r := initState rand w created ctxRef
    let out := runStateCalls rand r.2 rest
    (out.1, .initState ctxRef created r.1 :: out.2)
  | w, .freeState stateRef :: rest =>
    let r := freeState w stateRef
    let out := runStateCalls rand r.2 rest
    (out.1, .freeState stateRef r.1 :: out.2)

/-- In the log, handle `h` was returned by an `initState` that stored the (non-null) state
`r`, and `h` has not been freed since: no `freeState` call on `h` follows that `initState`,
whatever the call returned. -/
def StateLive (log : List StateEntry) (h : Int) (r : Ptr) : Prop :=
  ∃ pre post ctxRef, log = pre ++ StateEntry.initState ctxRef r (.ok h) :: post ∧ r ≠ 0 ∧
    ∀ res, StateEntry.freeState h res ∉ post

/-- The native calls made between world `w` and the later world `w'`. -/
def newEvents (w w' : World) : List Event :=
  w'.trace.drop w.trace.length

/-- The `GetStringUTFChars` calls of `newWhisperFullParams`: one per non-null string field. -/
def paramEvents (jParams : JParams) : List Event :=
  (if jParams.language.isSome then [Event.GetStringUTFChars "language"] else []) ++
  (if jParams.initialPrompt.isSome then [Event.GetStringUTFChars "initialPrompt"] else []) ++
  (if jParams.vad_model_path.isSome then [Event.GetStringUTFChars "vad_model_path"] else [])

/-- The `ReleaseStringUTFChars` calls of `freeWhisperFullParams`: one per non-null string
field. -/
def releaseEvents (jParams : JParams) : List Event :=
  (if jParams.language.isSome then [Event.ReleaseStringUTFChars "language"] else []) ++
  (if jParams.initialPrompt.isSome then [Event.ReleaseStringUTFChars "initialPrompt"] else []) ++
  (if jParams.vad_model_path.isSome then [Event.ReleaseStringUTFChars "vad_model_path"] else [])

/-- The event is a call of one of the two decoders. -/
def Event.isDecode : Event → Bool
  | .whisper_full _ _ _ _ => true
  | .whisper_full_with_state _ _ _ _ _ => true
  | _ => false

/-- The parameter structs handed to the decoders in a trace, in call order. -/
def decoderParams : List Event → List FullParams
  | [] => []
  | .whisper_full _ p _ _ :: rest => p :: decoderParams rest
  | .whisper_full_with_state _ _ p _ _ :: rest => p :: decoderParams rest
  | _ :: rest => decoderParams rest

/-- The grammar attached to a call constrains decoding: the handle resolves to a grammar
with a non-empty rule set whose symbol table defines `root`. -/
def GrammarApplies (w : World) (jParams : JParams) : Prop :=
  ∃ ref g root, jParams.grammar = some ref ∧ w.grammarMap.at_ ref = .ok g ∧ g.rules ≠ [] ∧
    g.symbol_ids.lookup "root" = some root

/-- A parameter struct carrying the constraints of grammar `g`: its rules, their number, the
id of the symbol `root` and the penalty. -/
def FullParams.withGrammar (p : FullParams) (g : ParseState) (root : Nat) (penalty : ℚ) :
    FullParams :=
  { p with
      grammar_rules := some g.rules
      n_grammar_rules := g.rules.length
      i_start_rule := root
      grammar_penalty := penalty }

/-- The speech intervals as the VAD collaborator is specified to produce them: each has
`0 ≤ t0 ≤ t1`, and they are ordered by start time without overlap (an interval ends no later
than every later one starts). -/
def SpeechIntervals (segments : List (Int × Int)) : Prop :=
  (∀ seg ∈ segments, 0 ≤ seg.1 ∧ seg.1 ≤ seg.2) ∧ segments.Pairwise (fun a b => a.2 ≤ b.1)

/-- The number of intervals whose converted start index lies at or beyond the end of a
buffer of `numSamples` samples. -/
def startsBeyond (rate : Nat) (numSamples : Int) (segments : List (Int × Int)) : Nat :=
  segments.countP (fun seg => decide (numSamples ≤ cs_to_samples rate seg.1))

/-- The slice `input[s:e]`. -/
def slice (input : List Sample) (s e : Int) : List Sample :=
  (input.drop s.toNat).take (e - s).toNat

/-- The range of the input that iteration `i` of the copy loop hands to `memcpy` for the
interval `seg`, as `(start, len)`: the expressions of lines 405-419, which `copyPass` uses
(`copyPass_cons`). The range read is `[start, start + len)`. -/
def copyRange (rate : Nat) (numSamples : Int) (overlap_seconds : ℚ) (numSegments i : Int)
    (seg : Int × Int) : Int × Int :=
  let start := min (cs_to_samples rate seg.1) (numSamples - 1)
  let end0 := min (cs_to_samples rate seg.2) numSamples
  let end1 :=
    if i < numSegments - 1 then min (end0 + overlap_samples rate overlap_seconds) numSamples
    else end0
  (start, max 0 (end1 - start))

/-- Every acquisition recorded in a trace is matched by exactly one release: each string got
with `GetStringUTFChars` is released as often as it was got, and so is the sample buffer. A
call acquires each of them at most once. -/
def ReleasedExactlyOnce (trace : List Event) : Prop :=
  (∀ field, trace.count (.ReleaseStringUTFChars field) =
    trace.count (.GetStringUTFChars field)) ∧
  trace.count .ReleaseFloatArrayElements = trace.count .GetFloatArrayElements

/-- The conversion in the words of the spec: `round(centiseconds / 100 * sample_rate)`. -/
def specSamples (rate : Nat) (cs : Int) : Int :=
  round (((cs : ℚ) / 100) * (rate : ℚ))

/-- The outcomes of opening a context from world `w`, where `created` is the pointer the
native initializer returned and `out` what the call returned with the world it left:
* `created` null: the call returns -1 and the context table is as before;
* `created` not null and the first 1000 draws all live handles: the exhaustion error of
  `getContextId` escapes and the context table is as before;
* otherwise: the call returns a handle `h ≥ 0` that was not live, which afterwards resolves
  to `created`, every other handle resolving as before.
The call returns -1 exactly when `created` is null, and -1 does not become a live handle. -/
def OpenOutcome (rand : Nat → Int) (w : World) (created : Ptr)
    (out : Except CppError Int × World) : Prop :=
  (created = 0 → out.1 = .ok (-1) ∧ out.2.contextMap = w.contextMap) ∧
  (created ≠ 0 → (∀ k, k < 1000 → rand (w.drawn + k) ∈ w.contextMap.keys) →
    out.1 = .error (.runtime_error "Wrapper error: Unable to get config id") ∧
      out.2.contextMap = w.contextMap) ∧
  (created ≠ 0 → (∃ k, k < 1000 ∧ rand (w.drawn + k) ∉ w.contextMap.keys) →
    ∃ h, out.1 = .ok h ∧ 0 ≤ h ∧ h ∉ w.contextMap.keys ∧
      out.2.contextMap.at_ h = .ok created ∧
      ∀ h', h' ≠ h → out.2.contextMap.at_ h' = w.contextMap.at_ h') ∧
  (out.1 = .ok (-1) ↔ created = 0) ∧
  (-1 ∉ w.contextMap.keys → -1 ∉ out.2.contextMap.keys)

/-- The Java exception `vadState` raises. -/
def transcriptionFailed : JavaExc :=
  ⟨"java/lang/RuntimeException", "Transcription failed"⟩

/-! ## Example values -/

/-- A grammar with one rule and a `root` symbol. -/
def demoGrammar : ParseState :=
  ⟨[[1, 2]], [("root", 0)]⟩

/-- A grammar with one rule and no `root` symbol. -/
def demoGrammarNoRoot : ParseState :=
  ⟨[[1, 2]], [("main", 0)]⟩

/-- A world with a live context (handle 1), a live state (handle 5) and two live grammars
(handles 5 and 6). -/
def demoWorld : World :=
  { contextMap := ⟨[(1, 10)]⟩
    stateMap := ⟨[(5, 77)]⟩
    grammarMap := ⟨[(5, demoGrammar), (6, demoGrammarNoRoot)]⟩
    drawn := 0
    trace := [] }

/-- Default parameters without grammar. -/
def demoDefaults : FullParams :=
  { language := none, initial_prompt := none, vad_model_path := none, samples_overlap := 0,
    scalars := [], grammar_rules := none, n_grammar_rules := 0, i_start_rule := 0,
    grammar_penalty := 100 }

/-- Java parameters with a language and a VAD model path, and the given grammar. -/
def demoParams (grammar : Option Int) : JParams :=
  { language := some "en", initialPrompt := none, vad_model_path := some "vad.bin",
    samples_overlap := 0, grammar := grammar, grammarPenalty := 50, scalars := [] }

/-- Collaborators with fixed answers: the VAD detector returns `segments`, the decoders
return `code` (and one segment text), every context and state holds `nSegments` segments. -/
def demoNative (segments : Option (List (Int × Int))) (code nSegments : Int) : Native :=
  { whisper_full := fun _ _ _ _ => code
    whisper_full_with_state := fun _ _ _ _ _ => (code, ["hello"])
    whisper_vad_init_from_file_with_params := fun _ => 1
    whisper_vad_segments_from_samples := fun _ _ _ _ => segments
    whisper_full_n_segments := fun _ => nSegments
    whisper_full_n_segments_from_state := fun _ => nSegments
    whisper_full_get_segment_t0 := fun _ i => i
    whisper_full_get_segment_t1 := fun _ i => i + 1
    whisper_full_get_segment_text := fun _ _ => "text"
    whisper_full_get_segment_t0_from_state := fun _ i => i
    whisper_full_get_segment_t1_from_state := fun _ i => i + 1
    whisper_full_get_segment_text_from_state := fun _ _ => "text" }

/-- Token collaborators with fixed answers. -/
def demoTokenNative : TokenNative :=
  { whisper_full_n_tokens := fun _ _ => 4
    whisper_full_n_tokens_from_state := fun _ _ => 4
    whisper_full_get_token_data := fun _ _ _ => ⟨1, 2, 0, 0, 0, 0, 0, 0, 0, 0⟩
    whisper_full_get_token_text := fun _ _ _ => "tok"
    whisper_full_get_token_data_from_state := fun _ _ _ => ⟨1, 2, 0, 0, 0, 0, 0, 0, 0, 0⟩
    whisper_full_get_token_text_from_state := fun _ _ _ _ => "tok" }

/-- Initializers that all return the pointer `created`. -/
def demoInitNative (created : Ptr) : InitNative :=
  { whisper_init_from_file_with_params := fun _ _ => created
    whisper_init_from_file_with_params_no_state := fun _ _ => created
    whisper_init_with_params := fun _ _ => created
    whisper_init_with_params_no_state := fun _ _ => created }

/-- Default context parameters. -/
def demoContextDefaults : ContextParams :=
  ⟨false, []⟩

/-- A world whose only live context handle is 7. -/
def demoWorld7 : World :=
  { demoWorld with contextMap := ⟨[(7, 10)]⟩ }

/-- A run of `vadState` that decodes one interval with success. -/
def demoVadSuccess : Except CppError (Jni (Option String)) × World :=
  vadState (demoNative (some [(0, 1)]) 0 0) demoDefaults 16000 demoWorld 1 5 (demoParams none)
    [1, 2, 3] 3

/-- A run of `vadState` in which the VAD detector fails (returns no segment list). -/
def demoVadFailure : Except CppError (Jni (Option String)) × World :=
  vadState (demoNative none 0 0) demoDefaults 16000 demoWorld 1 5 (demoParams none) [1, 2, 3] 3

/-- A run of `vadState` in which the detector finds one interval and the decoder fails with
result code 1. -/
def demoDecodeFailure : Except CppError (Jni (Option String)) × World :=
  vadState (demoNative (some [(0, 1)]) 1 0) demoDefaults 16000 demoWorld 1 5 (demoParams none)
    [1, 2, 3] 3

/-! # Lemmas on tables -/

namespace StdMap

variable {V : Type}

theorem find?_empty (k : Int) : (empty : StdMap V).find? k = none := rfl

theorem find?_cons (e : Int × V) (l : List (Int × V)) (k : Int) :
    (StdMap.mk (e :: l)).find? k = if e.1 = k then some e.2 else (StdMap.mk l).find? k := by
  unfold find?
  by_cases h : e.1 = k <;> simp [List.find?_cons, h]

theorem find?_insert (m : StdMap V) (k : Int) (v : V) (hk : m.find? k = none) (h : Int) :
    (m.insert k v).find? h = if k = h then some v else m.find? h := by
  unfold insert
  simp only [hk, Option.isSome_none, Bool.false_eq_true, ↓reduceIte]
  exact find?_cons (k, v) m.entries h

theorem find?_erase (m : StdMap V) (k h : Int) :
    (m.erase k).find? h = if k = h then none else m.find? h := by
  obtain ⟨l⟩ := m
  induction l with
  | nil => simp [erase, find?]
  | cons e l ih =>
    by_cases hek : e.1 = k
    · have : erase ⟨e :: l⟩ k = erase ⟨l⟩ k := by simp [erase, List.filter_cons, hek]
      rw [this, ih, find?_cons]
      by_cases hkh : k = h
      · simp [hkh]
      · have : e.1 ≠ h := fun hh => hkh (hek ▸ hh)
        simp [hkh, this]
    · have : erase ⟨e :: l⟩ k = ⟨e :: (erase ⟨l⟩ k).entries⟩ := by
        simp [erase, List.filter_cons, hek]
      rw [this, find?_cons, find?_cons]
      by_cases heh : e.1 = h
      · have : k ≠ h := fun hh => hek (hh ▸ heh)
        simp [heh, this]
      · simp only [heh, ↓reduceIte]
        exact ih

theorem find?_eq_none_iff (m : StdMap V) (k : Int) : m.find? k = none ↔ k ∉ m.keys := by
  obtain ⟨l⟩ := m
  induction l with
  | nil => simp [find?, keys]
  | cons e l ih =>
    rw [find?_cons]
    by_cases h : e.1 = k
    · simp [h, keys]
    · simp only [h, ↓reduceIte, ih]
      simp only [keys, List.map_cons, List.mem_cons, not_or]
      exact ⟨fun hh => ⟨fun hk => h hk.symm, hh⟩, fun hh => hh.2⟩

theorem count_eq_zero_iff (m : StdMap V) (k : Int) : m.count k = 0 ↔ k ∉ m.keys := by
  rw [← find?_eq_none_iff]
  unfold count
  cases m.find? k <;> simp

theorem at_ok_iff (m : StdMap V) (k : Int) (v : V) : m.at_ k = .ok v ↔ m.find? k = some v := by
  unfold at_
  cases m.find? k <;> simp

theorem at_error_iff (m : StdMap V) (k : Int) (e : CppError) :
    m.at_ k = .error e ↔ m.find? k = none ∧ e = .out_of_range := by
  unfold at_
  cases m.find? k <;> simp [eq_comm]

end StdMap

/-! # Id generation -/

theorem probe_drawn {V : Type} (rand : Nat → Int) (m : StdMap V) (fuel drawn : Nat) :
    drawn ≤ (probe rand m fuel drawn).2 ∧ (probe rand m fuel drawn).2 ≤ drawn + fuel := by
  induction fuel generalizing drawn with
  | zero => simp [probe]
  | succ n ih =>
    simp only [probe]
    split
    · simp
    · have := ih (drawn + 1)
      omega

theorem probe_first {V : Type} (rand : Nat → Int) (m : StdMap V) (fuel drawn k : Nat)
    (hk : k < fuel) (hfree : rand (drawn + k) ∉ m.keys)
    (hbusy : ∀ j, j < k → rand (drawn + j) ∈ m.keys) :
    probe rand m fuel drawn = (some (rand (drawn + k)), drawn + k + 1) := by
  induction fuel generalizing drawn k with
  | zero => omega
  | succ n ih =>
    simp only [probe]
    cases k with
    | zero =>
      have : m.count (rand drawn) = 0 := (StdMap.count_eq_zero_iff _ _).2 (by simpa using hfree)
      simp [this]
    | succ k =>
      have h0 : m.count (rand drawn) ≠ 0 := by
        rw [Ne, StdMap.count_eq_zero_iff, not_not]
        simpa using hbusy 0 (by omega)
      simp only [h0, ↓reduceIte]
      have := ih (drawn + 1) k (by omega) (by rwa [show drawn + 1 + k = drawn + (k + 1) by omega])
        (fun j hj => by
          have := hbusy (j + 1) (by omega)
          rwa [show drawn + 1 + j = drawn + (j + 1) by omega])
      rw [this]
      congr 2
      · rw [show drawn + 1 + k = drawn + (k + 1) by omega]
      · omega

theorem probe_some {V : Type} (rand : Nat → Int) (m : StdMap V) (fuel drawn : Nat) (id : Int)
    (h : (probe rand m fuel drawn).1 = some id) : id ∉ m.keys := by
  induction fuel generalizing drawn with
  | zero => simp [probe] at h
  | succ n ih =>
    simp only [probe] at h
    split at h
    · rename_i hc
      simp at h
      rw [← h]
      exact (StdMap.count_eq_zero_iff _ _).1 hc
    · exact ih _ h

theorem probe_none_iff {V : Type} (rand : Nat → Int) (m : StdMap V) (fuel drawn : Nat) :
    (probe rand m fuel drawn).1 = none ↔ ∀ k, k < fuel → rand (drawn + k) ∈ m.keys := by
  induction fuel generalizing drawn with
  | zero => simp [probe]
  | succ n ih =>
    simp only [probe]
    split
    · rename_i hc
      simp only [reduceCtorEq, false_iff, not_forall]
      exact ⟨0, by omega, by simpa using (StdMap.count_eq_zero_iff _ _).1 hc⟩
    · rename_i hc
      rw [StdMap.count_eq_zero_iff, not_not] at hc
      rw [ih]
      constructor
      · intro h k hk
        cases k with
        | zero => simpa using hc
        | succ k =>
          have := h k (by omega)
          rwa [show drawn + 1 + k = drawn + (k + 1) by omega] at this
      · intro h k hk
        have := h (k + 1) (by omega)
        rwa [show drawn + 1 + k = drawn + (k + 1) by omega]

theorem probe_none_drawn {V : Type} (rand : Nat → Int) (m : StdMap V) (fuel drawn : Nat)
    (h : (probe rand m fuel drawn).1 = none) : (probe rand m fuel drawn).2 = drawn + fuel := by
  induction fuel generalizing drawn with
  | zero => simp [probe]
  | succ n ih =>
    simp only [probe] at h ⊢
    split
    · rename_i hc
      simp [hc] at h
    · rename_i hc
      simp only [hc, ↓reduceIte] at h
      rw [ih _ h]; omega

/-- The loop of the id generators meets the allocation contract, whatever the error text. -/
theorem probe_contract {V : Type} (rand : Nat → Int) (m : StdMap V) (drawn : Nat)
    (what : String) :
    IdContract rand m.keys drawn what
      (match (probe rand m 1000 drawn).1 with
        | some id => .ok id
        | none => .error (.runtime_error what))
      (probe rand m 1000 drawn).2 := by
  refine ⟨probe_drawn rand m 1000 drawn, ?_, ?_, ?_, ?_⟩
  · intro k hk hfree hbusy
    rw [probe_first rand m 1000 drawn k hk hfree hbusy]
    exact ⟨rfl, rfl⟩
  · intro id h
    cases hp : (probe rand m 1000 drawn).1 with
    | none => rw [hp] at h; simp at h
    | some id' =>
      rw [hp] at h
      simp at h
      exact h ▸ probe_some rand m 1000 drawn id' hp
  · rw [← probe_none_iff]
    cases hp : (probe rand m 1000 drawn).1 <;> simp
  · intro e h
    cases hp : (probe rand m 1000 drawn).1 with
    | none =>
      rw [hp] at h
      simp at h
      exact ⟨h.symm, probe_none_drawn rand m 1000 drawn hp⟩
    | some id' => rw [hp] at h; simp at h

theorem getContextId_eq (rand : Nat → Int) (w : World) :
    getContextId rand w =
      ((match (probe rand w.contextMap 1000 w.drawn).1 with
        | some id => .ok id
        | none => .error (.runtime_error "Wrapper error: Unable to get config id")),
       { w with drawn := (probe rand w.contextMap 1000 w.drawn).2 }) := by
  unfold getContextId
  rcases hp : probe rand w.contextMap 1000 w.drawn with ⟨_ | id, d⟩ <;> rfl

theorem getStateId_eq (rand : Nat → Int) (w : World) :
    getStateId rand w =
      ((match (probe rand w.stateMap 1000 w.drawn).1 with
        | some id => .ok id
        | none => .error (.runtime_error "Wrapper error: Unable to get state id")),
       { w with drawn := (probe rand w.stateMap 1000 w.drawn).2 }) := by
  unfold getStateId
  rcases hp : probe rand w.stateMap 1000 w.drawn with ⟨_ | id, d⟩ <;> rfl

theorem getGrammarId_eq (rand : Nat → Int) (w : World) :
    getGrammarId rand w =
      ((match (probe rand w.grammarMap 1000 w.drawn).1 with
        | some id => .ok id
        | none => .error (.runtime_error "Wrapper error: Unable to get grammar id")),
       { w with drawn := (probe rand w.grammarMap 1000 w.drawn).2 }) := by
  unfold getGrammarId
  rcases hp : probe rand w.grammarMap 1000 w.drawn with ⟨_ | id, d⟩ <;> rfl

/-- C4: each of `getContextId`, `getStateId`, `getGrammarId` makes at most 1000 draws,
returns the first draw that is not a key of its table (so never a key), and throws its
exhaustion error exactly when all of the first 1000 draws are keys; none of them changes
a table. -/
theorem id_generators_contract (rand : Nat → Int) (w : World) :
    (IdContract rand w.contextMap.keys w.drawn "Wrapper error: Unable to get config id"
        (getContextId rand w).1 (getContextId rand w).2.drawn ∧
      (getContextId rand w).2 = { w with drawn := (getContextId rand w).2.drawn }) ∧
    (IdContract rand w.stateMap.keys w.drawn "Wrapper error: Unable to get state id"
        (getStateId rand w).1 (getStateId rand w).2.drawn ∧
      (getStateId rand w).2 = { w with drawn := (getStateId rand w).2.drawn }) ∧
    (IdContract rand w.grammarMap.keys w.drawn "Wrapper error: Unable to get grammar id"
        (getGrammarId rand w).1 (getGrammarId rand w).2.drawn ∧
      (getGrammarId rand w).2 = { w with drawn := (getGrammarId rand w).2.drawn }) := by
  refine ⟨⟨?_, ?_⟩, ⟨?_, ?_⟩, ⟨?_, ?_⟩⟩
  · rw [getContextId_eq]; exact probe_contract rand w.contextMap w.drawn _
  · rw [getContextId_eq]
  · rw [getStateId_eq]; exact probe_contract rand w.stateMap w.drawn _
  · rw [getStateId_eq]
  · rw [getGrammarId_eq]; exact probe_contract rand w.grammarMap w.drawn _
  · rw [getGrammarId_eq]

/-! # The registries: lookup against the call log -/

theorem World.emit_contextMap (w : World) (e : Event) : (w.emit e).contextMap = w.contextMap := rfl

theorem World.emit_stateMap (w : World) (e : Event) : (w.emit e).stateMap = w.stateMap := rfl

theorem World.emit_grammarMap (w : World) (e : Event) : (w.emit e).grammarMap = w.grammarMap := rfl

theorem insertModel_find (rand : Nat → Int) (w : World) (ctx : Ptr) (h : Int) (v : Ptr) :
    (insertModel rand w ctx).2.contextMap.find? h = some v ↔
      ((insertModel rand w ctx).1 = .ok h ∧ ctx = v) ∨ w.contextMap.find? h = some v := by
  unfold insertModel
  rw [getContextId_eq]
  cases hp : (probe rand w.contextMap 1000 w.drawn).1 with
  | none => simp
  | some id =>
    have hfree : w.contextMap.find? id = none :=
      (StdMap.find?_eq_none_iff _ _).2 (probe_some rand _ _ _ id hp)
    simp only [StdMap.find?_insert _ _ _ hfree]
    by_cases hid : id = h
    · subst hid
      simp [hfree]
    · simp [hid]

theorem freeContext_find (w : World) (ctxRef h : Int) (v : Ptr) :
    (freeContext w ctxRef).2.contextMap.find? h = some v ↔
      w.contextMap.find? h = some v ∧ ¬ (ctxRef = h ∧ (freeContext w ctxRef).1 = .ok ()) := by
  unfold freeContext StdMap.at_
  cases hf : w.contextMap.find? ctxRef with
  | none =>
    simp only [reduceCtorEq, and_false, not_false_eq_true, and_true]
  | some c =>
    simp only [World.emit_contextMap, StdMap.find?_erase, and_true]
    by_cases hk : ctxRef = h <;> simp [hk]

/-- After `freeContext ctxRef`, whatever it returned, the handle `ctxRef` does not resolve
any more, and every other handle resolves as before. -/
theorem freeContext_find_call (w : World) (ctxRef h : Int) (v : Ptr) :
    (freeContext w ctxRef).2.contextMap.find? h = some v ↔
      w.contextMap.find? h = some v ∧ ctxRef ≠ h := by
  unfold freeContext StdMap.at_
  cases hf : w.contextMap.find? ctxRef with
  | none =>
    simp only
    constructor
    · intro hh
      refine ⟨hh, ?_⟩
      rintro rfl
      rw [hf] at hh
      cases hh
    · exact fun hh => hh.1
  | some c =>
    simp only [World.emit_contextMap, StdMap.find?_erase]
    by_cases hk : ctxRef = h <;> simp [hk]

theorem ctxLive_cons (e : CtxEntry) (log : List CtxEntry) (h : Int) (v : Ptr) :
    CtxLive (e :: log) h v ↔
      (e = .insertModel v (.ok h) ∧ ∀ res, CtxEntry.freeContext h res ∉ log) ∨
        CtxLive log h v := by
  constructor
  · rintro ⟨pre, post, heq, hfree⟩
    cases pre with
    | nil =>
      simp only [List.nil_append, List.cons.injEq] at heq
      exact Or.inl ⟨heq.1, heq.2 ▸ hfree⟩
    | cons a pre =>
      simp only [List.cons_append, List.cons.injEq] at heq
      exact Or.inr ⟨pre, post, heq.2, hfree⟩
  · rintro (⟨he, hfree⟩ | ⟨pre, post, heq, hfree⟩)
    · exact ⟨[], log, by simp [he], hfree⟩
    · exact ⟨e :: pre, post, by simp [heq], hfree⟩

theorem runCtxCalls_find (rand : Nat → Int) (calls : List CtxCall) (w : World) (h : Int)
    (v : Ptr) :
    (runCtxCalls rand w calls).1.contextMap.find? h = some v ↔
      CtxLive (runCtxCalls rand w calls).2 h v ∨
        (w.contextMap.find? h = some v ∧
          ∀ res, CtxEntry.freeContext h res ∉ (runCtxCalls rand w calls).2) := by
  induction calls generalizing w with
  | nil =>
    simp only [runCtxCalls, List.not_mem_nil, not_false_eq_true, implies_true, and_true]
    constructor
    · exact Or.inr
    · rintro (⟨pre, post, heq, _⟩ | hh)
      · simp at heq
      · exact hh
  | cons c rest ih =>
    cases c with
    | insertModel ctx =>
      simp only [runCtxCalls]
      rw [ih, ctxLive_cons, insertModel_find]
      simp only [List.mem_cons, reduceCtorEq, false_or, CtxEntry.insertModel.injEq]
      tauto
    | freeContext ctxRef =>
      simp only [runCtxCalls]
      rw [ih, ctxLive_cons, freeContext_find_call]
      simp only [List.mem_cons, reduceCtorEq, false_and, false_or, CtxEntry.freeContext.injEq]
      constructor
      · rintro (hl | ⟨⟨hf, hne⟩, hnot⟩)
        · exact Or.inl hl
        · refine Or.inr ⟨hf, ?_⟩
          rintro res (⟨h1, _⟩ | h3)
          · exact hne h1.symm
          · exact hnot res h3
      · rintro (hl | ⟨hf, hnot⟩)
        · exact Or.inl hl
        · refine Or.inr ⟨⟨hf, ?_⟩, fun res h3 => hnot res (Or.inr h3)⟩
          intro h1
          exact hnot (freeContext w ctxRef).1 (Or.inl ⟨h1.symm, rfl⟩)

theorem initState_find (rand : Nat → Int) (w : World) (created : Ptr) (ctxRef h : Int)
    (v : Ptr) :
    (initState rand w created ctxRef).2.stateMap.find? h = some v ↔
      ((initState rand w created ctxRef).1 = .ok h ∧ created = v ∧ v ≠ 0) ∨
        w.stateMap.find? h = some v := by
  unfold initState
  rw [getStateId_eq]
  cases hp : (probe rand w.stateMap 1000 w.drawn).1 with
  | none => simp
  | some id =>
    have hfree : w.stateMap.find? id = none :=
      (StdMap.find?_eq_none_iff _ _).2 (probe_some rand _ _ _ id hp)
    simp only
    cases hc : w.contextMap.at_ ctxRef with
    | error e => simp
    | ok c =>
      simp only
      by_cases h0 : created = 0
      · subst h0
        simp only [↓reduceIte]
        constructor
        · exact Or.inr
        · rintro (⟨_, h2, h3⟩ | hh)
          · exact absurd h2.symm h3
          · exact hh
      · simp only [h0, ↓reduceIte, StdMap.find?_insert _ _ _ hfree]
        by_cases hid : id = h
        · subst hid
          simp only [↓reduceIte, Option.some.injEq, hfree, reduceCtorEq, or_false, true_and]
          constructor
          · intro hv; exact ⟨hv, hv ▸ h0⟩
          · exact fun hv => hv.1
        · simp [hid]

theorem freeState_find (w : World) (stateRef h : Int) (v : Ptr) :
    (freeState w stateRef).2.stateMap.find? h = some v ↔
      w.stateMap.find? h = some v ∧ ¬ (stateRef = h ∧ (freeState w stateRef).1 = .ok ()) := by
  unfold freeState StdMap.at_
  cases hf : w.stateMap.find? stateRef with
  | none =>
    simp only [reduceCtorEq, and_false, not_false_eq_true, and_true]
  | some c =>
    simp only [World.emit_stateMap, StdMap.find?_erase, and_true]
    by_cases hk : stateRef = h <;> simp [hk]

/-- After `freeState stateRef`, whatever it returned, the handle `stateRef` does not resolve
any more, and every other handle resolves as before. -/
theorem freeState_find_call (w : World) (stateRef h : Int) (v : Ptr) :
    (freeState w stateRef).2.stateMap.find? h = some v ↔
      w.stateMap.find? h = some v ∧ stateRef ≠ h := by
  unfold freeState StdMap.at_
  cases hf : w.stateMap.find? stateRef with
  | none =>
    simp only
    constructor
    · intro hh
      refine ⟨hh, ?_⟩
      rintro rfl
      rw [hf] at hh
      cases hh
    · exact fun hh => hh.1
  | some c =>
    simp only [World.emit_stateMap, StdMap.find?_erase]
    by_cases hk : stateRef = h <;> simp [hk]

theorem stateLive_cons (e : StateEntry) (log : List StateEntry) (h : Int) (v : Ptr) :
    StateLive (e :: log) h v ↔
      ((∃ ctxRef, e = .initState ctxRef v (.ok h)) ∧ v ≠ 0 ∧
        ∀ res, StateEntry.freeState h res ∉ log) ∨ StateLive log h v := by
  constructor
  · rintro ⟨pre, post, ctxRef, heq, hv, hfree⟩
    cases pre with
    | nil =>
      simp only [List.nil_append, List.cons.injEq] at heq
      exact Or.inl ⟨⟨ctxRef, heq.1⟩, hv, heq.2 ▸ hfree⟩
    | cons a pre =>
      simp only [List.cons_append, List.cons.injEq] at heq
      exact Or.inr ⟨pre, post, ctxRef, heq.2, hv, hfree⟩
  · rintro (⟨⟨ctxRef, he⟩, hv, hfree⟩ | ⟨pre, post, ctxRef, heq, hv, hfree⟩)
    · exact ⟨[], log, ctxRef, by simp [he], hv, hfree⟩
    · exact ⟨e :: pre, post, ctxRef, by simp [heq], hv, hfree⟩

theorem runStateCalls_find (rand : Nat → Int) (calls : List StateCall) (w : World) (h : Int)
    (v : Ptr) :
    (runStateCalls rand w calls).1.stateMap.find? h = some v ↔
      StateLive (runStateCalls rand w calls).2 h v ∨
        (w.stateMap.find? h = some v ∧
          ∀ res, StateEntry.freeState h res ∉ (runStateCalls rand w calls).2) := by
  induction calls generalizing w with
  | nil =>
    simp only [runStateCalls, List.not_mem_nil, not_false_eq_true, implies_true, and_true]
    constructor
    · exact Or.inr
    · rintro (⟨pre, post, ctxRef, heq, _⟩ | hh)
      · simp at heq
      · exact hh
  | cons c rest ih =>
    cases c with
    | initState ctxRef created =>
      simp only [runStateCalls]
      rw [ih, stateLive_cons, initState_find]
      simp only [List.mem_cons, reduceCtorEq, false_or, StateEntry.initState.injEq]
      constructor
      · rintro (hl | ⟨(⟨h1, h2, h3⟩ | hf), hnot⟩)
        · exact Or.inl (Or.inr hl)
        · exact Or.inl (Or.inl ⟨⟨ctxRef, rfl, h2, h1⟩, h3, hnot⟩)
        · exact Or.inr ⟨hf, hnot⟩
      · rintro ((⟨⟨c, _, h2, h1⟩, h3, hnot⟩ | hl) | ⟨hf, hnot⟩)
        · exact Or.inr ⟨Or.inl ⟨h1, h2, h3⟩, hnot⟩
        · exact Or.inl hl
        · exact Or.inr ⟨Or.inr hf, hnot⟩
    | freeState stateRef =>
      simp only [runStateCalls]
      rw [ih, stateLive_cons, freeState_find_call]
      simp only [List.mem_cons, reduceCtorEq, false_and, false_or, StateEntry.freeState.injEq,
        exists_false]
      constructor
      · rintro (hl | ⟨⟨hf, hne⟩, hnot⟩)
        · exact Or.inl hl
        · refine Or.inr ⟨hf, ?_⟩
          rintro res (⟨h1, _⟩ | h3)
          · exact hne h1.symm
          · exact hnot res h3
      · rintro (hl | ⟨hf, hnot⟩)
        · exact Or.inl hl
        · refine Or.inr ⟨⟨hf, ?_⟩, fun res h3 => hnot res (Or.inr h3)⟩
          intro h1
          exact hnot (freeState w stateRef).1 (Or.inl ⟨h1.symm, rfl⟩)

/-- C1: started on an empty context table, after any sequence of `insertModel` and
`freeContext` calls a handle `h` looks up to `v` exactly when an earlier `insertModel`
returned `h` for `v` and no `freeContext` call on `h` was made since; the same holds for the
decode-state table with `initState` and `freeState` (over any context table). In particular
a handle does not resolve after it was freed: in every world, after `freeContext h`
(`freeState h`) the lookup of `h` throws `std::out_of_range`. -/
theorem registry_lookup_iff_live (rand : Nat → Int) (w : World) (ctxCalls : List CtxCall)
    (stateCalls : List StateCall) (h : Int) (v : Ptr) :
    ((runCtxCalls rand { w with contextMap := .empty } ctxCalls).1.contextMap.at_ h = .ok v ↔
      CtxLive (runCtxCalls rand { w with contextMap := .empty } ctxCalls).2 h v) ∧
    ((runStateCalls rand { w with stateMap := .empty } stateCalls).1.stateMap.at_ h = .ok v ↔
      StateLive (runStateCalls rand { w with stateMap := .empty } stateCalls).2 h v) ∧
    (freeContext w h).2.contextMap.at_ h = .error .out_of_range ∧
    (freeState w h).2.stateMap.at_ h = .error .out_of_range := by
  refine ⟨?_, ?_, ?_, ?_⟩
  · rw [StdMap.at_ok_iff, runCtxCalls_find]
    simp [StdMap.find?_empty]
  · rw [StdMap.at_ok_iff, runStateCalls_find]
    simp [StdMap.find?_empty]
  · rw [StdMap.at_error_iff]
    refine ⟨?_, rfl⟩
    cases hf : (freeContext w h).2.contextMap.find? h with
    | none => rfl
    | some c => exact absurd rfl ((freeContext_find_call w h h c).1 hf).2
  · rw [StdMap.at_error_iff]
    refine ⟨?_, rfl⟩
    cases hf : (freeState w h).2.stateMap.find? h with
    | none => rfl
    | some c => exact absurd rfl ((freeState_find_call w h h c).1 hf).2

/-! # Release of handles -/

/-- A second `freeContext` on the same handle throws `std::out_of_range` before it reaches
`whisper_free`. -/
theorem freeContext_twice (w : World) (ctxRef : Int) (ctx : Ptr)
    (h : w.contextMap.at_ ctxRef = .ok ctx) :
    (freeContext w ctxRef).1 = .ok () ∧
    freeContext (freeContext w ctxRef).2 ctxRef =
      (.error .out_of_range, (freeContext w ctxRef).2) ∧
    (freeContext w ctxRef).2.trace = w.trace ++ [.whisper_free ctx] := by
  have h1 : freeContext w ctxRef =
      (.ok (), { w.emit (.whisper_free ctx) with
                  contextMap := (w.emit (.whisper_free ctx)).contextMap.erase ctxRef }) := by
    unfold freeContext; rw [h]
  rw [h1]
  refine ⟨rfl, ?_, rfl⟩
  unfold freeContext StdMap.at_
  simp [World.emit_contextMap, StdMap.find?_erase]

/-- A second `freeState` on the same handle throws `std::out_of_range` before it reaches
`whisper_free_state`. -/
theorem freeState_twice (w : World) (stateRef : Int) (state : Ptr)
    (h : w.stateMap.at_ stateRef = .ok state) :
    (freeState w stateRef).1 = .ok () ∧
    freeState (freeState w stateRef).2 stateRef =
      (.error .out_of_range, (freeState w stateRef).2) ∧
    (freeState w stateRef).2.trace = w.trace ++ [.whisper_free_state state] := by
  have h1 : freeState w stateRef =
      (.ok (), { w.emit (.whisper_free_state state) with
                  stateMap := (w.emit (.whisper_free_state state)).stateMap.erase stateRef }) := by
    unfold freeState; rw [h]
  rw [h1]
  refine ⟨rfl, ?_, rfl⟩
  unfold freeState StdMap.at_
  simp [World.emit_stateMap, StdMap.find?_erase]

/-- What `freeGrammar` does on a live handle: it frees the grammar, leaves `grammarMap` as it
was and erases the key from `stateMap`. -/
theorem freeGrammar_live (w : World) (grammarRef : Int) (g : ParseState)
    (h : w.grammarMap.at_ grammarRef = .ok g) :
    freeGrammar w grammarRef =
      (.ok (), { w with trace := w.trace ++ [.free g]
                        stateMap := w.stateMap.erase grammarRef }) := by
  unfold freeGrammar; rw [h]; rfl

/-- C2 (`freeGrammar`): on the live grammar handle 5 the second `freeGrammar` does not throw
and reaches `free` on the same grammar again. -/
theorem freeGrammar_twice_frees_twice :
    demoWorld.grammarMap.at_ 5 = .ok demoGrammar ∧
    (freeGrammar demoWorld 5).1 = .ok () ∧
    (freeGrammar (freeGrammar demoWorld 5).2 5).1 = .ok () ∧
    (freeGrammar (freeGrammar demoWorld 5).2 5).2.trace =
      [.free demoGrammar, .free demoGrammar] := by
  refine ⟨rfl, rfl, rfl, rfl⟩

/-- C3 (`freeGrammar`): 5 is a live grammar handle and a live state handle; after
`freeGrammar 5` the state handle 5 no longer resolves, while the grammar table still holds
the freed grammar. -/
theorem freeGrammar_erases_state :
    demoWorld.grammarMap.at_ 5 = .ok demoGrammar ∧
    demoWorld.stateMap.at_ 5 = .ok 77 ∧
    (freeGrammar demoWorld 5).2.stateMap.at_ 5 = .error .out_of_range ∧
    (freeGrammar demoWorld 5).2.stateMap ≠ demoWorld.stateMap ∧
    (freeGrammar demoWorld 5).2.grammarMap = demoWorld.grammarMap ∧
    (freeGrammar demoWorld 5).2.contextMap = demoWorld.contextMap := by
  refine ⟨rfl, rfl, rfl, by decide, rfl, rfl⟩

/-- The other allocate and free operations leave the two tables they do not own as they
were. -/
theorem registries_frame (rand : Nat → Int) (w : World) (ctx created : Ptr)
    (parsed : Except String ParseState) (ref : Int) :
    ((insertModel rand w ctx).2.stateMap = w.stateMap ∧
      (insertModel rand w ctx).2.grammarMap = w.grammarMap) ∧
    ((initState rand w created ref).2.contextMap = w.contextMap ∧
      (initState rand w created ref).2.grammarMap = w.grammarMap) ∧
    ((loadGrammar rand w parsed).2.2.contextMap = w.contextMap ∧
      (loadGrammar rand w parsed).2.2.stateMap = w.stateMap) ∧
    ((freeContext w ref).2.stateMap = w.stateMap ∧
      (freeContext w ref).2.grammarMap = w.grammarMap) ∧
    ((freeState w ref).2.contextMap = w.contextMap ∧
      (freeState w ref).2.grammarMap = w.grammarMap) ∧
    (freeGrammar w ref).2.contextMap = w.contextMap := by
  refine ⟨?_, ?_, ?_, ?_, ?_, ?_⟩
  · unfold insertModel; rw [getContextId_eq]
    cases (probe rand w.contextMap 1000 w.drawn).1 <;> exact ⟨rfl, rfl⟩
  · unfold initState; rw [getStateId_eq]
    cases (probe rand w.stateMap 1000 w.drawn).1 with
    | none => exact ⟨rfl, rfl⟩
    | some id =>
      simp only
      cases w.contextMap.at_ ref with
      | error e => exact ⟨rfl, rfl⟩
      | ok c =>
        simp only
        split <;> exact ⟨rfl, rfl⟩
  · unfold loadGrammar
    cases parsed with
    | error e => exact ⟨rfl, rfl⟩
    | ok g =>
      simp only
      rw [getGrammarId_eq]
      cases (probe rand _ 1000 _).1 <;> exact ⟨rfl, rfl⟩
  · unfold freeContext
    cases w.contextMap.at_ ref <;> exact ⟨rfl, rfl⟩
  · unfold freeState
    cases w.stateMap.at_ ref <;> exact ⟨rfl, rfl⟩
  · unfold freeGrammar
    cases w.grammarMap.at_ ref <;> rfl

/-! # Segment accessors -/

theorem newEvents_append (w : World) (w' : World) (l : List Event)
    (h : w'.trace = w.trace ++ l) : newEvents w w' = l := by
  unfold newEvents; rw [h]; exact List.drop_left _ _

theorem newWhisperFullParams_world (defaults : FullParams) (w : World) (jParams : JParams) :
    (newWhisperFullParams defaults w jParams).2 =
      { w with trace := w.trace ++ paramEvents jParams } := by
  unfold newWhisperFullParams paramEvents
  cases jParams.language <;> cases jParams.initialPrompt <;> cases jParams.vad_model_path <;>
    simp [acquireString, World.emit]

theorem freeWhisperFullParams_world (w : World) (jParams : JParams) :
    freeWhisperFullParams w jParams = { w with trace := w.trace ++ releaseEvents jParams } := by
  unfold freeWhisperFullParams releaseEvents
  cases jParams.language <;> cases jParams.initialPrompt <;> cases jParams.vad_model_path <;>
    simp [releaseString, World.emit]

theorem mem_paramEvents (jParams : JParams) (e : Event) (h : e ∈ paramEvents jParams) :
    ∃ field, e = .GetStringUTFChars field := by
  unfold paramEvents at h
  simp only [List.mem_append] at h
  rcases h with (h | h) | h <;> split at h <;> simp at h <;> exact ⟨_, h⟩

theorem mem_releaseEvents (jParams : JParams) (e : Event) (h : e ∈ releaseEvents jParams) :
    ∃ field, e = .ReleaseStringUTFChars field := by
  unfold releaseEvents at h
  simp only [List.mem_append] at h
  rcases h with (h | h) | h <;> split at h <;> simp at h <;> exact ⟨_, h⟩

/-! # `vadState`: outcomes -/

/-- The three ways `vadState` ends once both handles resolve, by what the VAD detector
returns: its result and the native calls it makes. -/
theorem vadState_resolved (nat : Native) (defaults : FullParams) (rate : Nat) (w : World)
    (ctxRef stateRef : Int) (jParams : JParams) (samples : List Sample) (n : Int)
    (ctx state : Ptr) (hc : w.contextMap.at_ ctxRef = .ok ctx)
    (hs : w.stateMap.at_ stateRef = .ok state) :
    let params := (newWhisperFullParams defaults w jParams).1
    let out := vadState nat defaults rate w ctxRef stateRef jParams samples n
    let segments := nat.whisper_vad_segments_from_samples
      (nat.whisper_vad_init_from_file_with_params params.vad_model_path) params samples n
    let pre := paramEvents jParams ++ [.whisper_vad_init params.vad_model_path,
      .GetFloatArrayElements, .whisper_vad_segments_from_samples segments]
    (segments = none →
      out.1 = .ok ⟨none, some transcriptionFailed⟩ ∧
      newEvents w out.2 = pre ++ [.ReleaseFloatArrayElements, .whisper_vad_free]) ∧
    (segments = some [] →
      out.1 = .ok ⟨none, none⟩ ∧
      newEvents w out.2 = pre ++
        [.ReleaseFloatArrayElements, .whisper_vad_free_segments, .whisper_vad_free]) ∧
    (∀ segs, segments = some segs → segs ≠ [] →
      let c := compact rate samples n params.samples_overlap segs
      let decoded := nat.whisper_full_with_state ctx state params c.1 c.2.1
      out.1 = .ok ⟨if (if decoded.1 = 0 then String.join decoded.2 else "").isEmpty then none
                    else some (if decoded.1 = 0 then String.join decoded.2 else ""),
                  if decoded.1 = 0 then none else some transcriptionFailed⟩ ∧
      newEvents w out.2 = pre ++ [.whisper_full_with_state ctx state params c.1 c.2.1,
        .ReleaseFloatArrayElements, .whisper_vad_free_segments, .whisper_vad_free]) := by
  intro params out segments pre
  have hw1 := newWhisperFullParams_world defaults w jParams
  have hc1 : (newWhisperFullParams defaults w jParams).2.contextMap.at_ ctxRef = .ok ctx := by
    rw [hw1]; exact hc
  have hs1 : (newWhisperFullParams defaults w jParams).2.stateMap.at_ stateRef = .ok state := by
    rw [hw1]; exact hs
  refine ⟨?_, ?_, ?_⟩
  · intro hseg
    have hseg' : nat.whisper_vad_segments_from_samples
      (nat.whisper_vad_init_from_file_with_params
        (newWhisperFullParams defaults w jParams).1.vad_model_path)
      (newWhisperFullParams defaults w jParams).1 samples n = none := hseg
    have : out = (.ok ⟨none, some transcriptionFailed⟩,
        { w with trace := w.trace ++ (pre ++ [.ReleaseFloatArrayElements, .whisper_vad_free]) }) := by
      show vadState nat defaults rate w ctxRef stateRef jParams samples n = _
      unfold vadState
      simp only [hc1, hs1, hseg']
      simp only [hw1, World.emit, pre, segments, params, hseg', transcriptionFailed,
        List.append_assoc, List.cons_append, List.nil_append]
    rw [this]
    exact ⟨rfl, newEvents_append _ _ _ rfl⟩
  · intro hseg
    have hseg' : nat.whisper_vad_segments_from_samples
      (nat.whisper_vad_init_from_file_with_params
        (newWhisperFullParams defaults w jParams).1.vad_model_path)
      (newWhisperFullParams defaults w jParams).1 samples n = some [] := hseg
    have : out = (.ok ⟨none, none⟩,
        { w with trace := w.trace ++ (pre ++
          [.ReleaseFloatArrayElements, .whisper_vad_free_segments, .whisper_vad_free]) }) := by
      show vadState nat defaults rate w ctxRef stateRef jParams samples n = _
      unfold vadState
      simp only [hc1, hs1, hseg']
      simp only [hw1, World.emit, pre, segments, params, hseg', List.length_nil,
        Nat.cast_zero, ↓reduceIte, List.append_assoc, List.cons_append, List.nil_append]
    rw [this]
    exact ⟨rfl, newEvents_append _ _ _ rfl⟩
  · intro segs hseg hne c decoded
    have hseg' : nat.whisper_vad_segments_from_samples
      (nat.whisper_vad_init_from_file_with_params
        (newWhisperFullParams defaults w jParams).1.vad_model_path)
      (newWhisperFullParams defaults w jParams).1 samples n = some segs := hseg
    have hlen : ¬ ((segs.length : Int) = 0) := by
      intro h0
      exact hne (List.length_eq_zero.1 (by exact_mod_cast h0))
    have : out = (.ok ⟨if (if decoded.1 = 0 then String.join decoded.2 else "").isEmpty then none
                    else some (if decoded.1 = 0 then String.join decoded.2 else ""),
                  if decoded.1 = 0 then none else some transcriptionFailed⟩,
        { w with trace := w.trace ++ (pre ++ [.whisper_full_with_state ctx state params c.1 c.2.1,
          .ReleaseFloatArrayElements, .whisper_vad_free_segments, .whisper_vad_free]) }) := by
      show vadState nat defaults rate w ctxRef stateRef jParams samples n = _
      unfold vadState
      simp only [hc1, hs1, hseg']
      simp only [hw1, World.emit, pre, segments, params, hseg', hlen, ↓reduceIte,
        transcriptionFailed, List.append_assoc, List.cons_append, List.nil_append, decoded, c]
    rw [this]
    exact ⟨rfl, newEvents_append _ _ _ rfl⟩

/-- How `vadState` ends when the context or the state handle does not resolve: the
`std::out_of_range` escapes after the parameter strings were acquired. -/
theorem vadState_unresolved (nat : Native) (defaults : FullParams) (rate : Nat) (w : World)
    (ctxRef stateRef : Int) (jParams : JParams) (samples : List Sample) (n : Int)
    (h : (∃ e, w.contextMap.at_ ctxRef = .error e) ∨ (∃ e, w.stateMap.at_ stateRef = .error e)) :
    (vadState nat defaults rate w ctxRef stateRef jParams samples n).1 = .error .out_of_range ∧
    newEvents w (vadState nat defaults rate w ctxRef stateRef jParams samples n).2 =
      paramEvents jParams := by
  have hw1 := newWhisperFullParams_world defaults w jParams
  have key : vadState nat defaults rate w ctxRef stateRef jParams samples n =
      (.error .out_of_range, { w with trace := w.trace ++ paramEvents jParams }) := by
    unfold vadState
    simp only [hw1]
    cases hc : w.contextMap.at_ ctxRef with
    | error e =>
      have := ((StdMap.at_error_iff _ _ _).1 hc).2
      subst this
      rfl
    | ok c =>
      rcases h with ⟨e, he⟩ | ⟨e, he⟩
      · rw [hc] at he; cases he
      · have := ((StdMap.at_error_iff _ _ _).1 he).2
        subst this
        simp only [he]
  rw [key]
  exact ⟨rfl, newEvents_append _ _ _ rfl⟩

/-- C7: whenever the VAD detector returns a list of zero intervals, `vadState` returns null
with no exception raised, and no decoder is called. -/
theorem vadState_no_speech (nat : Native) (defaults : FullParams) (rate : Nat) (w : World)
    (ctxRef stateRef : Int) (jParams : JParams) (samples : List Sample) (n : Int)
    (h : Event.whisper_vad_segments_from_samples (some []) ∈
      newEvents w (vadState nat defaults rate w ctxRef stateRef jParams samples n).2) :
    (vadState nat defaults rate w ctxRef stateRef jParams samples n).1 = .ok ⟨none, none⟩ ∧
    ∀ e ∈ newEvents w (vadState nat defaults rate w ctxRef stateRef jParams samples n).2,
      e.isDecode = false := by
  cases hc : w.contextMap.at_ ctxRef with
  | error e =>
    rw [(vadState_unresolved nat defaults rate w ctxRef stateRef jParams samples n
      (Or.inl ⟨e, hc⟩)).2] at h
    obtain ⟨f, hf⟩ := mem_paramEvents _ _ h
    cases hf
  | ok ctx =>
    cases hs : w.stateMap.at_ stateRef with
    | error e =>
      rw [(vadState_unresolved nat defaults rate w ctxRef stateRef jParams samples n
        (Or.inr ⟨e, hs⟩)).2] at h
      obtain ⟨f, hf⟩ := mem_paramEvents _ _ h
      cases hf
    | ok state =>
      have hr := vadState_resolved nat defaults rate w ctxRef stateRef jParams samples n
        ctx state hc hs
      simp only at hr
      obtain ⟨h1, h2, h3⟩ := hr
      cases hseg : nat.whisper_vad_segments_from_samples
        (nat.whisper_vad_init_from_file_with_params
          (newWhisperFullParams defaults w jParams).1.vad_model_path)
        (newWhisperFullParams defaults w jParams).1 samples n with
      | none =>
        rw [(h1 hseg).2, hseg] at h
        simp only [List.mem_append, List.mem_cons, reduceCtorEq, List.mem_singleton,
          Event.whisper_vad_segments_from_samples.injEq, or_false, false_or,
          List.not_mem_nil] at h
        obtain ⟨f, hf⟩ := mem_paramEvents _ _ h
        cases hf
      | some segs =>
        cases segs with
        | nil =>
          refine ⟨(h2 hseg).1, ?_⟩
          rw [(h2 hseg).2]
          intro e he
          simp only [List.mem_append, List.mem_cons, List.mem_singleton, List.not_mem_nil,
            or_false] at he
          rcases he with (he | he | he | he) | he | he | he
          · obtain ⟨f, hf⟩ := mem_paramEvents _ _ he
            rw [hf]; rfl
          all_goals rw [he]; rfl
        | cons a rest =>
          rw [(h3 _ hseg (by simp)).2, hseg] at h
          simp only [List.mem_append, List.mem_cons, reduceCtorEq, List.mem_singleton,
            Event.whisper_vad_segments_from_samples.injEq, or_false, false_or,
            List.not_mem_nil] at h
          rcases h with h | h
          · obtain ⟨f, hf⟩ := mem_paramEvents _ _ h
            cases hf
          · cases h

/-- Witness of `vadState_no_speech`: a detector that finds no interval. -/
theorem vadState_no_speech_witness :
    (vadState (demoNative (some []) 0 0) demoDefaults 16000 demoWorld 1 5 (demoParams none)
      [1, 2, 3] 3).1 = .ok ⟨none, none⟩ ∧
    ∀ e ∈ newEvents demoWorld (vadState (demoNative (some []) 0 0) demoDefaults 16000
      demoWorld 1 5 (demoParams none) [1, 2, 3] 3).2, e.isDecode = false :=
  vadState_no_speech (demoNative (some []) 0 0) demoDefaults 16000 demoWorld 1 5
    (demoParams none) [1, 2, 3] 3 (by decide)

/-- C9 as stated fails: a run whose VAD detector fails and a run whose decoder fails hand
the caller the same value, null with `RuntimeException("Transcription failed")`. -/
theorem vadState_failures_indistinguishable :
    Event.whisper_vad_segments_from_samples none ∈ newEvents demoWorld demoVadFailure.2 ∧
    (newEvents demoWorld demoDecodeFailure.2).any Event.isDecode = true ∧
    ((demoNative (some [(0, 1)]) 1 0).whisper_full_with_state 10 77 demoDefaults none 0).1 ≠ 0 ∧
    demoVadFailure.1 = .ok ⟨none, some transcriptionFailed⟩ ∧
    demoDecodeFailure.1 = .ok ⟨none, some transcriptionFailed⟩ ∧
    ¬ (demoVadFailure.1 ≠ demoDecodeFailure.1) := by
  refine ⟨by decide, by decide, by decide, rfl, rfl, fun h => h rfl⟩

/-- C9, amended: a failure of the VAD detector and a failure of the decoder are reported
alike, by returning null with `RuntimeException("Transcription failed")` pending. -/
theorem vadState_failures_same_error (nat : Native) (defaults : FullParams) (rate : Nat)
    (w : World) (ctxRef stateRef : Int) (jParams : JParams) (samples : List Sample) (n : Int) :
    (Event.whisper_vad_segments_from_samples none ∈
        newEvents w (vadState nat defaults rate w ctxRef stateRef jParams samples n).2 →
      (vadState nat defaults rate w ctxRef stateRef jParams samples n).1 =
        .ok ⟨none, some transcriptionFailed⟩) ∧
    (∀ c s p b k, Event.whisper_full_with_state c s p b k ∈
        newEvents w (vadState nat defaults rate w ctxRef stateRef jParams samples n).2 →
      (nat.whisper_full_with_state c s p b k).1 ≠ 0 →
      (vadState nat defaults rate w ctxRef stateRef jParams samples n).1 =
        .ok ⟨none, some transcriptionFailed⟩) := by
  cases hc : w.contextMap.at_ ctxRef with
  | error e =>
    have hu := (vadState_unresolved nat defaults rate w ctxRef stateRef jParams samples n
      (Or.inl ⟨e, hc⟩)).2
    rw [hu]
    constructor
    · intro h; obtain ⟨f, hf⟩ := mem_paramEvents _ _ h; cases hf
    · intro c s p b k h; obtain ⟨f, hf⟩ := mem_paramEvents _ _ h; cases hf
  | ok ctx =>
    cases hs : w.stateMap.at_ stateRef with
    | error e =>
      have hu := (vadState_unresolved nat defaults rate w ctxRef stateRef jParams samples n
        (Or.inr ⟨e, hs⟩)).2
      rw [hu]
      constructor
      · intro h; obtain ⟨f, hf⟩ := mem_paramEvents _ _ h; cases hf
      · intro c s p b k h; obtain ⟨f, hf⟩ := mem_paramEvents _ _ h; cases hf
    | ok state =>
      have hr := vadState_resolved nat defaults rate w ctxRef stateRef jParams samples n
        ctx state hc hs
      simp only at hr
      obtain ⟨h1, h2, h3⟩ := hr
      cases hseg : nat.whisper_vad_segments_from_samples
        (nat.whisper_vad_init_from_file_with_params
          (newWhisperFullParams defaults w jParams).1.vad_model_path)
        (newWhisperFullParams defaults w jParams).1 samples n with
      | none =>
        exact ⟨fun _ => (h1 hseg).1, fun c s p b k _ _ => (h1 hseg).1⟩
      | some segs =>
        cases segs with
        | nil =>
          rw [(h2 hseg).2, hseg]
          constructor
          · intro h
            simp only [List.mem_append, List.mem_cons, reduceCtorEq, List.mem_singleton,
              Event.whisper_vad_segments_from_samples.injEq, or_false, false_or,
              List.not_mem_nil] at h
            obtain ⟨f, hf⟩ := mem_paramEvents _ _ h; cases hf
          · intro c s p b k h
            simp only [List.mem_append, List.mem_cons, reduceCtorEq, List.mem_singleton,
              or_false, false_or, List.not_mem_nil] at h
            obtain ⟨f, hf⟩ := mem_paramEvents _ _ h; cases hf
        | cons a rest =>
          have h3' := h3 _ hseg (by simp)
          simp only at h3'
          rw [h3'.2, hseg]
          constructor
          · intro h
            simp only [List.mem_append, List.mem_cons, reduceCtorEq, List.mem_singleton,
              Event.whisper_vad_segments_from_samples.injEq, or_false, false_or,
              List.not_mem_nil] at h
            obtain ⟨f, hf⟩ := mem_paramEvents _ _ h; cases hf
          · intro c s p b k h hcode
            simp only [List.mem_append, List.mem_cons, reduceCtorEq, List.mem_singleton,
              Event.whisper_full_with_state.injEq, or_false, false_or,
              List.not_mem_nil] at h
            rcases h with h | h
            · obtain ⟨f, hf⟩ := mem_paramEvents _ _ h; cases hf
            · obtain ⟨rfl, rfl, rfl, rfl, rfl⟩ := h
              rw [h3'.1]
              simp only [hcode, ↓reduceIte, String.isEmpty]
              rfl

/-- Witness of `vadState_failures_same_error`: the detector fails. -/
theorem vadState_failures_same_error_witness :
    (vadState (demoNative none 0 0) demoDefaults 16000 demoWorld 1 5 (demoParams none)
      [1, 2, 3] 3).1 = .ok ⟨none, some transcriptionFailed⟩ :=
  (vadState_failures_same_error (demoNative none 0 0) demoDefaults 16000 demoWorld 1 5
    (demoParams none) [1, 2, 3] 3).1 (by decide)

/-! # Grammar attachment in `full` and `fullWithState` -/

theorem decoderParams_append (l₁ l₂ : List Event) :
    decoderParams (l₁ ++ l₂) = decoderParams l₁ ++ decoderParams l₂ := by
  induction l₁ with
  | nil => rfl
  | cons e l ih => cases e <;> simp [decoderParams, ih]

theorem decoderParams_paramEvents (jParams : JParams) :
    decoderParams (paramEvents jParams) = [] := by
  unfold paramEvents
  cases jParams.language <;> cases jParams.initialPrompt <;> cases jParams.vad_model_path <;> rfl

theorem decoderParams_releaseEvents (jParams : JParams) :
    decoderParams (releaseEvents jParams) = [] := by
  unfold releaseEvents
  cases jParams.language <;> cases jParams.initialPrompt <;> cases jParams.vad_model_path <;> rfl

theorem attachGrammar_applies (w : World) (jParams : JParams) (params : FullParams) (ref : Int)
    (g : ParseState) (root : Nat) (h : jParams.grammar = some ref)
    (hg : w.grammarMap.at_ ref = .ok g) (hr : g.rules ≠ [])
    (hroot : g.symbol_ids.lookup "root" = some root) :
    attachGrammar w jParams params =
      .ok (params.withGrammar g root jParams.grammarPenalty) := by
  unfold attachGrammar FullParams.withGrammar
  have he : g.rules.isEmpty = false := by
    cases hrules : g.rules with
    | nil => exact absurd hrules hr
    | cons a l => rfl
  simp only [h, hg, he, hroot]

theorem attachGrammar_not_applies (w : World) (jParams : JParams) (params : FullParams)
    (hres : ∀ ref, jParams.grammar = some ref → ∃ g, w.grammarMap.at_ ref = .ok g)
    (hn : ¬ GrammarApplies w jParams) :
    attachGrammar w jParams params = .ok params := by
  unfold attachGrammar
  cases hgr : jParams.grammar with
  | none => rfl
  | some ref =>
    obtain ⟨g, hg⟩ := hres ref hgr
    simp only [hg]
    split
    · rename_i he hroot
      exfalso
      apply hn
      refine ⟨ref, g, _, hgr, hg, ?_, hroot⟩
      intro h0
      rw [h0] at he
      simp at he
    · rfl

theorem full_resolved (nat : Native) (defaults : FullParams) (w : World) (ctxRef : Int)
    (jParams : JParams) (samples : List Sample) (n : Int) (ctx : Ptr) (p : FullParams)
    (hc : w.contextMap.at_ ctxRef = .ok ctx)
    (ha : attachGrammar w jParams (newWhisperFullParams defaults w jParams).1 = .ok p) :
    full nat defaults w ctxRef jParams samples n =
      (.ok (nat.whisper_full ctx p samples n),
        { w with trace := w.trace ++ (paramEvents jParams ++
            [.GetFloatArrayElements, .whisper_full ctx p samples n] ++ releaseEvents jParams ++
            [.ReleaseFloatArrayElements]) }) := by
  have hw1 := newWhisperFullParams_world defaults w jParams
  have ha1 : attachGrammar (newWhisperFullParams defaults w jParams).2 jParams
      (newWhisperFullParams defaults w jParams).1 = .ok p := by
    rw [← ha, hw1]; rfl
  have hc1 : ((newWhisperFullParams defaults w jParams).2.emit
      .GetFloatArrayElements).contextMap.at_ ctxRef = .ok ctx := by
    rw [hw1]; exact hc
  unfold full
  simp only [ha1, hc1, freeWhisperFullParams_world]
  simp only [hw1, World.emit, List.append_assoc, List.cons_append, List.nil_append]

theorem fullWithState_resolved (nat : Native) (defaults : FullParams) (w : World)
    (ctxRef stateRef : Int) (jParams : JParams) (samples : List Sample) (n : Int)
    (ctx state : Ptr) (p : FullParams) (hc : w.contextMap.at_ ctxRef = .ok ctx)
    (hs : w.stateMap.at_ stateRef = .ok state)
    (ha : attachGrammar w jParams (newWhisperFullParams defaults w jParams).1 = .ok p) :
    fullWithState nat defaults w ctxRef stateRef jParams samples n =
      (.ok (nat.whisper_full_with_state ctx state p (some samples) n).1,
        { w with trace := w.trace ++ (paramEvents jParams ++
            [.GetFloatArrayElements, .whisper_full_with_state ctx state p (some samples) n] ++
            releaseEvents jParams ++ [.ReleaseFloatArrayElements]) }) := by
  have hw1 := newWhisperFullParams_world defaults w jParams
  have ha1 : attachGrammar (newWhisperFullParams defaults w jParams).2 jParams
      (newWhisperFullParams defaults w jParams).1 = .ok p := by
    rw [← ha, hw1]; rfl
  have hc1 : ((newWhisperFullParams defaults w jParams).2.emit
      .GetFloatArrayElements).contextMap.at_ ctxRef = .ok ctx := by
    rw [hw1]; exact hc
  have hs1 : ((newWhisperFullParams defaults w jParams).2.emit
      .GetFloatArrayElements).stateMap.at_ stateRef = .ok state := by
    rw [hw1]; exact hs
  unfold fullWithState
  simp only [ha1, hc1, hs1, freeWhisperFullParams_world]
  simp only [hw1, World.emit, List.append_assoc, List.cons_append, List.nil_append]

/-- C8: when the handles of a `full` / `fullWithState` call resolve, one parameter struct `p`
is handed to the decoder. It carries grammar constraints exactly when a grammar is attached
whose rule set is non-empty and whose symbols define `root`; then it holds the rules, their
number, the id of `root` and the call's penalty. Otherwise `p` is the struct built without
a grammar and the whole call equals the call with no grammar attached. -/
theorem grammar_attachment (nat : Native) (defaults : FullParams) (w : World)
    (ctxRef stateRef : Int) (jParams : JParams) (samples : List Sample) (n : Int)
    (ctx : Ptr) (hd : defaults.grammar_rules = none)
    (hc : w.contextMap.at_ ctxRef = .ok ctx)
    (hres : ∀ ref, jParams.grammar = some ref → ∃ g, w.grammarMap.at_ ref = .ok g) :
    ∃ p : FullParams,
      (decoderParams (newEvents w (full nat defaults w ctxRef jParams samples n).2) = [p] ∧
        (full nat defaults w ctxRef jParams samples n).1 =
          .ok (nat.whisper_full ctx p samples n)) ∧
      (∀ state, w.stateMap.at_ stateRef = .ok state →
        decoderParams
          (newEvents w (fullWithState nat defaults w ctxRef stateRef jParams samples n).2) = [p] ∧
        (fullWithState nat defaults w ctxRef stateRef jParams samples n).1 =
          .ok (nat.whisper_full_with_state ctx state p (some samples) n).1) ∧
      (p.grammar_rules ≠ none ↔ GrammarApplies w jParams) ∧
      (∀ ref g root, jParams.grammar = some ref → w.grammarMap.at_ ref = .ok g →
        g.rules ≠ [] → g.symbol_ids.lookup "root" = some root →
        p.grammar_rules = some g.rules ∧ p.n_grammar_rules = g.rules.length ∧
        p.i_start_rule = root ∧ p.grammar_penalty = jParams.grammarPenalty) ∧
      (¬ GrammarApplies w jParams →
        p = (newWhisperFullParams defaults w { jParams with grammar := none }).1 ∧
        full nat defaults w ctxRef jParams samples n =
          full nat defaults w ctxRef { jParams with grammar := none } samples n ∧
        (∀ state, w.stateMap.at_ stateRef = .ok state →
          fullWithState nat defaults w ctxRef stateRef jParams samples n =
            fullWithState nat defaults w ctxRef stateRef { jParams with grammar := none }
              samples n)) := by
  have hdec : ∀ (e : Event) (p : FullParams), decoderParams [e] = [p] →
      decoderParams (paramEvents jParams ++ [Event.GetFloatArrayElements, e] ++
        releaseEvents jParams ++ [Event.ReleaseFloatArrayElements]) = [p] := by
    intro e p he
    have h2 : decoderParams [Event.GetFloatArrayElements, e] = [p] := he
    have h3 : decoderParams [Event.ReleaseFloatArrayElements] = [] := rfl
    rw [decoderParams_append, decoderParams_append, decoderParams_append,
      decoderParams_paramEvents, decoderParams_releaseEvents, h2, h3]
    rfl
  by_cases happ : GrammarApplies w jParams
  · obtain ⟨ref, g, root, hgr, hg, hr, hroot⟩ := happ
    have ha := attachGrammar_applies w jParams (newWhisperFullParams defaults w jParams).1
      ref g root hgr hg hr hroot
    refine ⟨(newWhisperFullParams defaults w jParams).1.withGrammar g root
      jParams.grammarPenalty, ⟨?_, ?_⟩, ?_, ?_, ?_, ?_⟩
    · rw [full_resolved nat defaults w ctxRef jParams samples n ctx _ hc ha,
        newEvents_append _ _ _ rfl]
      exact hdec _ _ rfl
    · rw [full_resolved nat defaults w ctxRef jParams samples n ctx _ hc ha]
    · intro state hs
      rw [fullWithState_resolved nat defaults w ctxRef stateRef jParams samples n ctx state _
        hc hs ha, newEvents_append _ _ _ rfl]
      exact ⟨hdec _ _ rfl, rfl⟩
    · exact ⟨fun _ => ⟨ref, g, root, hgr, hg, hr, hroot⟩,
        fun _ => by simp [FullParams.withGrammar]⟩
    · intro ref' g' root' hgr' hg' _ hroot'
      rw [hgr] at hgr'
      cases hgr'
      rw [hg] at hg'
      cases hg'
      rw [hroot] at hroot'
      cases hroot'
      exact ⟨rfl, rfl, rfl, rfl⟩
    · intro hn
      exact absurd ⟨ref, g, root, hgr, hg, hr, hroot⟩ hn
  · have ha := attachGrammar_not_applies w jParams (newWhisperFullParams defaults w jParams).1
      hres happ
    have ha' : attachGrammar w { jParams with grammar := none }
        (newWhisperFullParams defaults w { jParams with grammar := none }).1 =
        .ok (newWhisperFullParams defaults w jParams).1 := rfl
    refine ⟨(newWhisperFullParams defaults w jParams).1, ⟨?_, ?_⟩, ?_, ?_, ?_, ?_⟩
    · rw [full_resolved nat defaults w ctxRef jParams samples n ctx _ hc ha,
        newEvents_append _ _ _ rfl]
      exact hdec _ _ rfl
    · rw [full_resolved nat defaults w ctxRef jParams samples n ctx _ hc ha]
    · intro state hs
      rw [fullWithState_resolved nat defaults w ctxRef stateRef jParams samples n ctx state _
        hc hs ha, newEvents_append _ _ _ rfl]
      exact ⟨hdec _ _ rfl, rfl⟩
    · constructor
      · intro h
        exact absurd hd h
      · intro h
        exact absurd h happ
    · intro ref g root hgr hg hr hroot
      exact absurd ⟨ref, g, root, hgr, hg, hr, hroot⟩ happ
    · intro _
      refine ⟨rfl, ?_, ?_⟩
      · rw [full_resolved nat defaults w ctxRef jParams samples n ctx _ hc ha,
          full_resolved nat defaults w ctxRef { jParams with grammar := none } samples n ctx _
            hc ha']
        rfl
      · intro state hs
        rw [fullWithState_resolved nat defaults w ctxRef stateRef jParams samples n ctx state _
          hc hs ha,
          fullWithState_resolved nat defaults w ctxRef stateRef { jParams with grammar := none }
            samples n ctx state _ hc hs ha']
        rfl

/-- Witness of `grammar_attachment`: the grammar with handle 5 has a rule and a `root`, the
grammar with handle 6 has no `root`. -/
theorem grammar_attachment_witness :
    ((decoderParams (newEvents demoWorld (full (demoNative none 0 0) demoDefaults demoWorld 1
        (demoParams (some 5)) [1, 2, 3] 3).2)).map FullParams.grammar_rules = [some [[1, 2]]] ∧
      (decoderParams (newEvents demoWorld (full (demoNative none 0 0) demoDefaults demoWorld 1
        (demoParams (some 5)) [1, 2, 3] 3).2)).map FullParams.i_start_rule = [0]) ∧
    fullWithState (demoNative none 0 0) demoDefaults demoWorld 1 5 (demoParams (some 6))
        [1, 2, 3] 3 =
      fullWithState (demoNative none 0 0) demoDefaults demoWorld 1 5 (demoParams none)
        [1, 2, 3] 3 := by
  constructor
  · obtain ⟨p, h1, _, _, h6, _⟩ := grammar_attachment (demoNative none 0 0) demoDefaults
      demoWorld 1 5 (demoParams (some 5)) [1, 2, 3] 3 10 rfl rfl
      (by intro ref h; cases h; exact ⟨demoGrammar, rfl⟩)
    have h := h6 5 demoGrammar 0 rfl rfl (by decide) rfl
    rw [h1.1]
    exact ⟨by rw [List.map_singleton, h.1]; rfl, by rw [List.map_singleton, h.2.2.1]⟩
  · obtain ⟨p, _, _, _, _, h7⟩ := grammar_attachment (demoNative none 0 0) demoDefaults
      demoWorld 1 5 (demoParams (some 6)) [1, 2, 3] 3 10 rfl rfl
      (by intro ref h; cases h; exact ⟨demoGrammarNoRoot, rfl⟩)
    refine (h7 ?_).2.2 77 rfl
    rintro ⟨ref, g, root, hgr, hg, _, hroot⟩
    cases hgr
    cases hg
    cases hroot

/-! # The audio compactor: conversions -/

theorem truncToInt_mono (q r : ℚ) (h : q ≤ r) : truncToInt q ≤ truncToInt r := by
  unfold truncToInt
  split_ifs with h1 h2 h2
  · exact Int.floor_le_floor h
  · exact absurd (le_trans h1 h) h2
  · exact le_trans (Int.ceil_le.2 (by push_cast; linarith)) (Int.floor_nonneg.2 h2)
  · exact Int.ceil_le_ceil h

theorem truncToInt_nonneg (q : ℚ) (h : 0 ≤ q) : 0 ≤ truncToInt q := by
  unfold truncToInt
  rw [if_pos h]
  exact Int.floor_nonneg.2 h

theorem cs_to_samples_mono (rate : Nat) (a b : Int) (h : a ≤ b) :
    cs_to_samples rate a ≤ cs_to_samples rate b := by
  unfold cs_to_samples
  apply truncToInt_mono
  have h1 : (a : ℚ) ≤ (b : ℚ) := by exact_mod_cast h
  have h2 : (0 : ℚ) ≤ (rate : ℚ) := by positivity
  have h3 : (a : ℚ) / 100 ≤ (b : ℚ) / 100 := by linarith
  nlinarith [mul_le_mul_of_nonneg_right h3 h2]

theorem cs_to_samples_zero (rate : Nat) : cs_to_samples rate 0 = 0 := by
  unfold cs_to_samples truncToInt
  norm_num

theorem roundHalfEven_nonneg (m : ℚ) (h : 0 ≤ m) : 0 ≤ roundHalfEven m := by
  have hf : 0 ≤ ⌊m⌋ := Int.floor_nonneg.2 h
  unfold roundHalfEven
  simp only
  split_ifs <;> omega

theorem floatScale_nonneg (fuel : Nat) : ∀ (a : ℚ) (k : Int), 0 ≤ a →
    0 ≤ (floatScale fuel a k).1 := by
  induction fuel with
  | zero => intro a k h; exact h
  | succ n ih =>
    intro a k h
    unfold floatScale
    split_ifs
    · exact ih _ _ (by linarith)
    · exact h
    · exact ih _ _ (by linarith)
    · exact h

theorem roundToFloat_nonneg (x : ℚ) (h : 0 ≤ x) : 0 ≤ roundToFloat x := by
  unfold roundToFloat
  have hx : ¬ x < 0 := not_lt.2 h
  simp only [hx, ↓reduceIte]
  have hm : (0 : ℚ) ≤ ((roundHalfEven (floatScale 512 x 0).1 : Int) : ℚ) := by
    exact_mod_cast roundHalfEven_nonneg _ (floatScale_nonneg 512 x 0 h)
  split_ifs
  · exact le_refl 0
  · exact div_nonneg hm (by positivity)
  · exact mul_nonneg hm (by positivity)

theorem silence_samples_nonneg (rate : Nat) : 0 ≤ silence_samples rate := by
  unfold silence_samples
  apply truncToInt_nonneg
  apply roundToFloat_nonneg
  positivity

/-- The room the copy loop may use beyond the samples of the buffer: for each interval but
the last one silence gap and one overlap extension, and one sample for each interval that
starts at or beyond the end of the buffer. -/
theorem copyPass_offset_le (rate : Nat) (nativeSamples : List Sample) (numSamples : Int)
    (overlap_seconds : ℚ) (numSegments : Int)
    (hov : 0 ≤ overlap_samples rate overlap_seconds) (segs : List (Int × Int)) :
    ∀ (i : Int) (filtered : Option (List Sample)) (offset L : Int),
      i + segs.length = numSegments → 0 ≤ L →
      (∀ seg ∈ segs, L ≤ seg.1 ∧ seg.1 ≤ seg.2) → segs.Pairwise (fun a b => a.2 ≤ b.1) →
      (copyPass rate nativeSamples numSamples overlap_seconds numSegments i segs filtered
          offset).2 ≤
        offset + max 0 (numSamples - cs_to_samples rate L) +
          ((segs.length - 1 : Nat) : Int) *
            (silence_samples rate + overlap_samples rate overlap_seconds) +
          startsBeyond rate numSamples segs := by
  induction segs with
  | nil =>
    intro i filtered offset L _ _ _ _
    simp only [copyPass, startsBeyond, List.countP_nil, List.length_nil]
    have : 0 ≤ max 0 (numSamples - cs_to_samples rate L) := le_max_left _ _
    simp only [Nat.zero_sub, Nat.cast_zero, zero_mul, add_zero]
    omega
  | cons seg rest ih =>
    intro i filtered offset L hi hL hseg hpair
    obtain ⟨t0, t1⟩ := seg
    have hhead := hseg (t0, t1) (List.mem_cons_self _ _)
    simp only at hhead
    have hsL : cs_to_samples rate L ≤ cs_to_samples rate t0 := cs_to_samples_mono rate _ _ hhead.1
    have hse : cs_to_samples rate t0 ≤ cs_to_samples rate t1 := cs_to_samples_mono rate _ _ hhead.2
    have hL0 : 0 ≤ cs_to_samples rate L := by
      have := cs_to_samples_mono rate 0 L hL
      rwa [cs_to_samples_zero] at this
    have hsil := silence_samples_nonneg rate
    rw [List.pairwise_cons] at hpair
    have hcount : (startsBeyond rate numSamples ((t0, t1) :: rest) : Int) =
        (if numSamples ≤ cs_to_samples rate t0 then 1 else 0) +
          startsBeyond rate numSamples rest := by
      unfold startsBeyond
      rw [List.countP_cons]
      by_cases hb : numSamples ≤ cs_to_samples rate t0
      · simp [hb]; omega
      · simp [hb]
    have hlen : i + 1 + (rest.length : Int) = numSegments := by
      simp only [List.length_cons, Nat.cast_add, Nat.cast_one] at hi
      omega
    have hrest := ih (i + 1)
    simp only [copyPass]
    cases rest with
    | nil =>
      have hlast : ¬ (i < numSegments - 1) := by
        simp only [List.length_nil, Nat.cast_zero] at hlen
        omega
      simp only [hlast, ↓reduceIte, copyPass]
      rw [hcount]
      simp only [startsBeyond, List.countP_nil, List.length_singleton, Nat.sub_self,
        Nat.cast_zero, zero_mul, add_zero]
      split_ifs <;> omega
    | cons seg2 rest2 =>
      have hnl : i < numSegments - 1 := by
        simp only [List.length_cons, Nat.cast_add, Nat.cast_one] at hlen
        omega
      simp only [hnl, ↓reduceIte]
      have hih := hrest
        ((if max 0 (min (min (cs_to_samples rate t1) numSamples +
            overlap_samples rate overlap_seconds) numSamples -
            min (cs_to_samples rate t0) (numSamples - 1)) > 0 then
          filtered.bind (fun dst => memcpyAt dst offset nativeSamples
            (min (cs_to_samples rate t0) (numSamples - 1))
            (max 0 (min (min (cs_to_samples rate t1) numSamples +
              overlap_samples rate overlap_seconds) numSamples -
              min (cs_to_samples rate t0) (numSamples - 1))))
          else filtered).bind (fun dst => memsetZeroAt dst
            (if max 0 (min (min (cs_to_samples rate t1) numSamples +
              overlap_samples rate overlap_seconds) numSamples -
              min (cs_to_samples rate t0) (numSamples - 1)) > 0 then
              offset + max 0 (min (min (cs_to_samples rate t1) numSamples +
                overlap_samples rate overlap_seconds) numSamples -
                min (cs_to_samples rate t0) (numSamples - 1)) else offset)
            (silence_samples rate)))
        ((if max 0 (min (min (cs_to_samples rate t1) numSamples +
            overlap_samples rate overlap_seconds) numSamples -
            min (cs_to_samples rate t0) (numSamples - 1)) > 0 then
            offset + max 0 (min (min (cs_to_samples rate t1) numSamples +
              overlap_samples rate overlap_seconds) numSamples -
              min (cs_to_samples rate t0) (numSamples - 1)) else offset) + silence_samples rate)
        t1 hlen (le_trans hL (le_trans hhead.1 hhead.2))
        (fun s hs => ⟨hpair.1 s hs, (hseg s (List.mem_cons_of_mem _ hs)).2⟩) hpair.2
      refine le_trans hih ?_
      rw [hcount]
      have hmul : (((seg2 :: rest2).length + 1 - 1 : Nat) : Int) *
          (silence_samples rate + overlap_samples rate overlap_seconds) =
          (((seg2 :: rest2).length - 1 : Nat) : Int) *
            (silence_samples rate + overlap_samples rate overlap_seconds) +
          (silence_samples rate + overlap_samples rate overlap_seconds) := by
        simp only [List.length_cons, Nat.add_sub_cancel, Nat.cast_add, Nat.cast_one]
        ring
      simp only [List.length_cons] at hmul ⊢
      rw [hmul]
      generalize ((rest2.length + 1 - 1 : Nat) : Int) *
        (silence_samples rate + overlap_samples rate overlap_seconds) = K
      generalize (startsBeyond rate numSamples (seg2 :: rest2) : Int) = B
      split_ifs <;> omega

/-! # The audio compactor: the content of the output -/

theorem splice_spec (dst B : List Sample) (o : Nat) (h : o + B.length ≤ dst.length) :
    (dst.take o ++ B ++ dst.drop (o + B.length)).length = dst.length ∧
    (dst.take o ++ B ++ dst.drop (o + B.length)).take (o + B.length) = dst.take o ++ B := by
  constructor
  · simp only [List.length_append, List.length_take, List.length_drop]
    omega
  · apply List.take_left'
    simp only [List.length_append, List.length_take]
    omega

theorem memcpyAt_ok (dst src : List Sample) (offset start len : Int) (h0 : 0 ≤ offset)
    (hl : 0 ≤ len) (hd : offset + len ≤ dst.length) (hs0 : 0 ≤ start)
    (hs : start + len ≤ src.length) :
    ∃ dst', memcpyAt dst offset src start len = some dst' ∧ dst'.length = dst.length ∧
      dst'.take (offset + len).toNat = dst.take offset.toNat ++ slice src start (start + len) := by
  have hB : ((src.drop start.toNat).take len.toNat).length = len.toNat := by
    simp only [List.length_take, List.length_drop]
    omega
  have hsum : (offset + len).toNat = offset.toNat + len.toNat := by omega
  have hsl : slice src start (start + len) = (src.drop start.toNat).take len.toNat := by
    unfold slice
    rw [show start + len - start = len by omega]
  have hsp := splice_spec dst ((src.drop start.toNat).take len.toNat) offset.toNat
    (by rw [hB]; omega)
  rw [hB, ← hsum] at hsp
  refine ⟨dst.take offset.toNat ++ (src.drop start.toNat).take len.toNat
      ++ dst.drop (offset + len).toNat, ?_, hsp.1, ?_⟩
  · unfold memcpyAt
    rw [if_pos ⟨h0, hl, hd, hs0, hs⟩]
  · rw [hsl]; exact hsp.2

theorem memsetZeroAt_ok (dst : List Sample) (offset n : Int) (h0 : 0 ≤ offset) (hn : 0 ≤ n)
    (hd : offset + n ≤ dst.length) :
    ∃ dst', memsetZeroAt dst offset n = some dst' ∧ dst'.length = dst.length ∧
      dst'.take (offset + n).toNat = dst.take offset.toNat ++ List.replicate n.toNat 0 := by
  have hB : (List.replicate n.toNat (0 : Sample)).length = n.toNat := List.length_replicate _ _
  have hsum : (offset + n).toNat = offset.toNat + n.toNat := by omega
  have hsp := splice_spec dst (List.replicate n.toNat 0) offset.toNat (by rw [hB]; omega)
  rw [hB, ← hsum] at hsp
  refine ⟨dst.take offset.toNat ++ List.replicate n.toNat 0 ++ dst.drop (offset + n).toNat,
    ?_, hsp.1, hsp.2⟩
  unfold memsetZeroAt
  rw [if_pos ⟨h0, hn, hd⟩]

theorem copyPass_offset_indep (rate : Nat) (nativeSamples : List Sample) (numSamples : Int)
    (overlap_seconds : ℚ) (numSegments : Int) (segs : List (Int × Int)) :
    ∀ (i : Int) (f g : Option (List Sample)) (offset : Int),
      (copyPass rate nativeSamples numSamples overlap_seconds numSegments i segs f offset).2 =
      (copyPass rate nativeSamples numSamples overlap_seconds numSegments i segs g offset).2 := by
  induction segs with
  | nil => intro i f g offset; rfl
  | cons seg rest ih =>
    intro i f g offset
    obtain ⟨t0, t1⟩ := seg
    simp only [copyPass]
    exact ih _ _ _ _

theorem copyPass_offset_ge (rate : Nat) (nativeSamples : List Sample) (numSamples : Int)
    (overlap_seconds : ℚ) (numSegments : Int) (segs : List (Int × Int)) :
    ∀ (i : Int) (f : Option (List Sample)) (offset : Int),
      offset ≤
        (copyPass rate nativeSamples numSamples overlap_seconds numSegments i segs f offset).2 := by
  induction segs with
  | nil => intro i f offset; exact le_refl _
  | cons seg rest ih =>
    intro i f offset
    obtain ⟨t0, t1⟩ := seg
    have hsil := silence_samples_nonneg rate
    simp only [copyPass]
    refine le_trans ?_ (ih _ _ _)
    split_ifs <;> omega

/-- The copy loop makes no access outside a buffer when the input holds `numSamples ≥ 1`
samples, no interval starts before sample 0, and the final write offset fits the output
buffer. -/
theorem copyPass_isSome (rate : Nat) (input : List Sample) (numSamples : Int)
    (overlap_seconds : ℚ) (numSegments : Int) (hin : (input.length : Int) = numSamples)
    (hN : 1 ≤ numSamples) (segs : List (Int × Int)) :
    ∀ (i : Int) (buf : List Sample) (offset : Int),
      (∀ seg ∈ segs, 0 ≤ cs_to_samples rate seg.1) → 0 ≤ offset →
      (copyPass rate input numSamples overlap_seconds numSegments i segs (some buf) offset).2 ≤
        buf.length →
      ∃ buf', (copyPass rate input numSamples overlap_seconds numSegments i segs (some buf)
          offset).1 = some buf' ∧ buf'.length = buf.length := by
  induction segs with
  | nil =>
    intro i buf offset _ _ _
    exact ⟨buf, rfl, rfl⟩
  | cons seg rest ih =>
    intro i buf offset hseg h0 hfit
    obtain ⟨t0, t1⟩ := seg
    have hs0 : 0 ≤ cs_to_samples rate t0 := hseg (t0, t1) (List.mem_cons_self _ _)
    have hsil := silence_samples_nonneg rate
    simp only [copyPass] at hfit ⊢
    generalize hend : (if i < numSegments - 1 then
        min (min (cs_to_samples rate t1) numSamples + overlap_samples rate overlap_seconds)
          numSamples
      else min (cs_to_samples rate t1) numSamples) = end1 at hfit ⊢
    have hend1 : end1 ≤ numSamples := by
      rw [← hend]; split_ifs <;> omega
    generalize hstart : min (cs_to_samples rate t0) (numSamples - 1) = start at hfit ⊢
    have hst0 : 0 ≤ start := by omega
    have hge := copyPass_offset_ge rate input numSamples overlap_seconds numSegments rest (i + 1)
    -- the copy
    have hcopy : ∃ buf1, (if max 0 (end1 - start) > 0 then
          (some buf).bind (fun dst => memcpyAt dst offset input start (max 0 (end1 - start)))
        else some buf) = some buf1 ∧ buf1.length = buf.length := by
      by_cases hpos : max 0 (end1 - start) > 0
      · rw [if_pos hpos]
        have hfit' := le_trans (hge _ _) hfit
        rw [if_pos hpos] at hfit'
        obtain ⟨b1, h1, h2, _⟩ := memcpyAt_ok buf input offset start (max 0 (end1 - start)) h0
          (by omega) (by split_ifs at hfit' <;> omega) hst0 (by omega)
        exact ⟨b1, by simpa using h1, h2⟩
      · rw [if_neg hpos]
        exact ⟨buf, rfl, rfl⟩
    obtain ⟨buf1, hb1, hl1⟩ := hcopy
    rw [hb1] at hfit ⊢
    generalize hoff1 : (if max 0 (end1 - start) > 0 then offset + max 0 (end1 - start)
      else offset) = offset1 at hfit ⊢
    have ho1 : 0 ≤ offset1 := by
      rw [← hoff1]; split_ifs <;> omega
    -- the silence
    have hset : ∃ buf2, (if i < numSegments - 1 then
          (some buf1).bind (fun dst => memsetZeroAt dst offset1 (silence_samples rate))
        else some buf1) = some buf2 ∧ buf2.length = buf.length := by
      by_cases hnl : i < numSegments - 1
      · rw [if_pos hnl]
        have hfit' := le_trans (hge _ _) hfit
        rw [if_pos hnl] at hfit'
        obtain ⟨b2, h1, h2, _⟩ := memsetZeroAt_ok buf1 offset1 (silence_samples rate) ho1 hsil
          (by rw [hl1]; omega)
        exact ⟨b2, by simpa using h1, by rw [h2, hl1]⟩
      · rw [if_neg hnl]
        exact ⟨buf1, rfl, hl1⟩
    obtain ⟨buf2, hb2, hl2⟩ := hset
    rw [hb2] at hfit ⊢
    obtain ⟨buf', hc, hl'⟩ := ih (i + 1) buf2
      (if i < numSegments - 1 then offset1 + silence_samples rate else offset1)
      (fun s hs => hseg s (List.mem_cons_of_mem _ hs)) (by split_ifs <;> omega)
      (by rw [hl2]; exact hfit)
    exact ⟨buf', hc, by rw [hl', hl2]⟩

/-- The compactor makes no access outside a buffer when the input holds `numSamples ≥ 1`
samples, no interval starts before sample 0, and the final write offset is within the
capacity computed by the sizing loop. -/
theorem compact_isSome (rate : Nat) (input : List Sample) (numSamples : Int)
    (overlap_seconds : ℚ) (segs : List (Int × Int)) (hin : (input.length : Int) = numSamples)
    (hN : 1 ≤ numSamples) (hseg : ∀ seg ∈ segs, 0 ≤ cs_to_samples rate seg.1)
    (hfit : (compact rate input numSamples overlap_seconds segs).2.1 ≤
      (compact rate input numSamples overlap_seconds segs).2.2) :
    ∃ filtered, (compact rate input numSamples overlap_seconds segs).1 = some filtered := by
  have hge := copyPass_offset_ge rate input numSamples overlap_seconds segs.length segs 0
    (some (List.replicate (sizingPass rate segs.length 0 segs 0).toNat 0)) 0
  have hfit' : (copyPass rate input numSamples overlap_seconds segs.length 0 segs
      (some (List.replicate (sizingPass rate segs.length 0 segs 0).toNat 0)) 0).2 ≤
      sizingPass rate segs.length 0 segs 0 := hfit
  obtain ⟨b, hb, _⟩ := copyPass_isSome rate input numSamples overlap_seconds segs.length hin hN
    segs 0 (List.replicate (sizingPass rate segs.length 0 segs 0).toNat 0) 0 hseg (le_refl 0)
    (by rw [List.length_replicate]; omega)
  exact ⟨b, hb⟩

/-! # The audio compactor: the bound on the output length -/

/-- The product of the `float` 0.01f (5368709 / 2^29) and the rate 16000 rounds to the
`float` 160, so that the overlap is 160 samples; the exact product is below 160. -/
theorem overlap_samples_float_product :
    overlap_samples WHISPER_SAMPLE_RATE (5368709 / 536870912) = 160 ∧
    truncToInt ((5368709 / 536870912 : ℚ) * (WHISPER_SAMPLE_RATE : ℚ)) = 159 := by
  constructor <;> with_unfolding_all decide

theorem fitsInt_iff (x : Int) : fitsInt x = true ↔ INT_MIN ≤ x ∧ x ≤ INT_MAX := by
  unfold fitsInt
  simp only [Bool.and_eq_true, decide_eq_true_eq]

/-- When the `int` computations of the copy loop are defined, the write offset it ends with
is an `int`. -/
theorem copyPass_offset_fits (rate : Nat) (nativeSamples : List Sample) (numSamples : Int)
    (overlap_seconds : ℚ) (numSegments : Int) (segs : List (Int × Int)) :
    ∀ (i : Int) (filtered : Option (List Sample)) (offset : Int),
      fitsInt offset = true →
      copyPassDefined rate numSamples overlap_seconds numSegments i segs offset = true →
      fitsInt (copyPass rate nativeSamples numSamples overlap_seconds numSegments i segs
        filtered offset).2 = true := by
  induction segs with
  | nil =>
    intro i filtered offset h0 _
    simpa only [copyPass] using h0
  | cons seg rest ih =>
    intro i filtered offset _ hdef
    obtain ⟨t0, t1⟩ := seg
    simp only [copyPassDefined, Bool.and_eq_true] at hdef
    simp only [copyPass]
    exact ih _ _ _ hdef.1.2 hdef.2

/-- An end time whose conversion leaves the range of an `int` makes the `int` computations
undefined: 13421773 centiseconds are 2147483680 samples. -/
theorem compactDefined_beyond_int :
    cs_to_samples WHISPER_SAMPLE_RATE 13421773 = 2147483680 ∧
    copyRangeDefined WHISPER_SAMPLE_RATE 1000 0 1 0 (1, 13421773) = false ∧
    compactDefined WHISPER_SAMPLE_RATE 1000 0 [(1, 13421773)] = false := by
  refine ⟨?_, ?_, ?_⟩ <;> with_unfolding_all decide

/-- C6 as stated fails: one sample, no overlap, two ordered disjoint intervals that lie
beyond the end of the buffer. Each interval is clamped to the last sample and contributes
one sample, so the output has 1602 samples, one more than the bound 1601 (every `int`
computed is in range and no access leaves a buffer on the way). -/
theorem compact_offset_exceeds_bound :
    SpeechIntervals [(100, 200), (300, 400)] ∧
    (0 : Int) ≤ overlap_samples WHISPER_SAMPLE_RATE 0 ∧
    compactDefined WHISPER_SAMPLE_RATE 1 0 [(100, 200), (300, 400)] = true ∧
    (compact WHISPER_SAMPLE_RATE [7] 1 0 [(100, 200), (300, 400)]).1.isSome = true ∧
    (compact WHISPER_SAMPLE_RATE [7] 1 0 [(100, 200), (300, 400)]).2.1 = 1602 ∧
    ¬ ((compact WHISPER_SAMPLE_RATE [7] 1 0 [(100, 200), (300, 400)]).2.1 ≤
      1 + (2 - 1) * silence_samples WHISPER_SAMPLE_RATE +
        2 * overlap_samples WHISPER_SAMPLE_RATE 0) := by
  refine ⟨?_, ?_, ?_, ?_, ?_, ?_⟩
  · unfold SpeechIntervals
    decide
  · with_unfolding_all decide
  · with_unfolding_all decide
  · obtain ⟨filtered, hf⟩ := compact_isSome WHISPER_SAMPLE_RATE [7] 1 0
      [(100, 200), (300, 400)] rfl (by decide) (by with_unfolding_all decide)
      (by with_unfolding_all decide)
    rw [hf]
    rfl
  · with_unfolding_all decide
  · with_unfolding_all decide

/-- C6, amended: for a buffer of `numSamples ≥ 1` samples, an overlap extension `≥ 0` and
`numSegments ≥ 1` ordered, non-overlapping intervals with `0 ≤ t0 ≤ t1`, on a run in which
every `int` computed by the two loops is in the range of an `int` (`compactDefined`), the
final write offset is an `int` and is at most `numSamples + (numSegments-1) * silence_samples +
numSegments * overlap_samples + b`, where `b` counts the intervals that start at or beyond
the end of the buffer; when every interval starts inside the buffer the bound is
`numSamples + (numSegments-1) * silence_samples + numSegments * overlap_samples`. -/
theorem compact_offset_le (rate : Nat) (nativeSamples : List Sample) (numSamples : Int)
    (overlap_seconds : ℚ) (segs : List (Int × Int)) (hN : 1 ≤ numSamples)
    (hov : 0 ≤ overlap_samples rate overlap_seconds) (hne : segs ≠ [])
    (hsp : SpeechIntervals segs)
    (hdef : compactDefined rate numSamples overlap_seconds segs = true) :
    fitsInt (compact rate nativeSamples numSamples overlap_seconds segs).2.1 = true ∧
    (compact rate nativeSamples numSamples overlap_seconds segs).2.1 ≤
      numSamples + ((segs.length : Int) - 1) * silence_samples rate +
        (segs.length : Int) * overlap_samples rate overlap_seconds +
        startsBeyond rate numSamples segs ∧
    ((∀ seg ∈ segs, cs_to_samples rate seg.1 < numSamples) →
      (compact rate nativeSamples numSamples overlap_seconds segs).2.1 ≤
        numSamples + ((segs.length : Int) - 1) * silence_samples rate +
          (segs.length : Int) * overlap_samples rate overlap_seconds) := by
  have hlen : 1 ≤ segs.length := by
    cases segs with
    | nil => exact absurd rfl hne
    | cons a l => simp
  have hcast : ((segs.length - 1 : Nat) : Int) = (segs.length : Int) - 1 := by omega
  have hfits : fitsInt (compact rate nativeSamples numSamples overlap_seconds segs).2.1 =
      true := by
    simp only [compactDefined, Bool.and_eq_true] at hdef
    exact copyPass_offset_fits rate nativeSamples numSamples overlap_seconds segs.length segs 0
      _ 0 (by decide) hdef.2
  have hmain := copyPass_offset_le rate nativeSamples numSamples overlap_seconds segs.length hov
    segs 0 (some (List.replicate (sizingPass rate segs.length 0 segs 0).toNat 0)) 0 0
    (by simp) (le_refl 0) hsp.1 hsp.2
  rw [cs_to_samples_zero, hcast] at hmain
  have hmax : max 0 (numSamples - 0) = numSamples := by omega
  rw [hmax] at hmain
  have hfirst : (compact rate nativeSamples numSamples overlap_seconds segs).2.1 ≤
      numSamples + ((segs.length : Int) - 1) * silence_samples rate +
        (segs.length : Int) * overlap_samples rate overlap_seconds +
        startsBeyond rate numSamples segs := by
    show (copyPass rate nativeSamples numSamples overlap_seconds segs.length 0 segs _ 0).2 ≤ _
    refine le_trans hmain ?_
    have hle : ((segs.length : Int) - 1) * overlap_samples rate overlap_seconds ≤
        (segs.length : Int) * overlap_samples rate overlap_seconds := by
      nlinarith
    have hring : ((segs.length : Int) - 1) *
        (silence_samples rate + overlap_samples rate overlap_seconds) =
        ((segs.length : Int) - 1) * silence_samples rate +
          ((segs.length : Int) - 1) * overlap_samples rate overlap_seconds := by ring
    rw [hring]
    omega
  refine ⟨hfits, hfirst, ?_⟩
  intro hin
  have hzero : startsBeyond rate numSamples segs = 0 := by
    unfold startsBeyond
    rw [List.countP_eq_zero]
    intro seg hs
    have := hin seg hs
    simp only [decide_eq_true_eq, not_le]
    exact this
  rw [hzero] at hfirst
  simpa using hfirst

/-- Witness of `compact_offset_le`: two intervals inside a buffer of 1000 samples, and an
interval that ends beyond the buffer. -/
theorem compact_offset_le_witness :
    (compact 100 (List.range 1000) 1000 0 [(0, 100), (300, 400)]).2.1 ≤
      1000 + ((2 : Int) - 1) * silence_samples 100 + (2 : Int) * overlap_samples 100 0 ∧
    (compact 100 (List.range 1000) 1000 0 [(900, 5000)]).2.1 ≤
      1000 + ((1 : Int) - 1) * silence_samples 100 + (1 : Int) * overlap_samples 100 0 := by
  have h := (compact_offset_le 100 (List.range 1000) 1000 0 [(0, 100), (300, 400)]
    (by decide) (by with_unfolding_all decide) (by simp)
    (by unfold SpeechIntervals; decide) (by with_unfolding_all decide)).2.2
      (by with_unfolding_all decide)
  have h2 := (compact_offset_le 100 (List.range 1000) 1000 0 [(900, 5000)]
    (by decide) (by with_unfolding_all decide) (by simp)
    (by unfold SpeechIntervals; decide) (by with_unfolding_all decide)).2.2
      (by with_unfolding_all decide)
  exact ⟨by simpa using h, by simpa using h2⟩

/-! # Witnesses for the registries -/

/-- Witness of `id_generators_contract`: the context table holds key 1 and the draws are
1, 2, 3, ...; the first draw collides, the second is returned. -/
theorem id_generators_contract_witness :
    (getContextId (fun n => (n : Int) + 1) demoWorld).1 = .ok 2 ∧
    (getContextId (fun n => (n : Int) + 1) demoWorld).2.drawn = 2 :=
  (id_generators_contract (fun n => (n : Int) + 1) demoWorld).1.1.2.1 1 (by decide) (by decide)
    (by intro j hj; interval_cases j; decide)

/-- Witness of `registry_lookup_iff_live`: after two inserts and the release of the first
handle, the second handle is live with the context stored for it and the first, freed, is
not; likewise for states, where handle 1 is freed and handle 2 allocated afterwards. -/
theorem registry_lookup_iff_live_witness :
    CtxLive (runCtxCalls (fun n => (n : Int) + 1) { demoWorld with contextMap := .empty }
      [.insertModel 10, .insertModel 20, .freeContext 1]).2 2 20 ∧
    ¬ CtxLive (runCtxCalls (fun n => (n : Int) + 1) { demoWorld with contextMap := .empty }
      [.insertModel 10, .insertModel 20, .freeContext 1]).2 1 10 ∧
    StateLive (runStateCalls (fun n => (n : Int) + 1) { demoWorld with stateMap := .empty }
      [.initState 1 30, .freeState 1, .initState 1 40]).2 2 40 ∧
    ¬ StateLive (runStateCalls (fun n => (n : Int) + 1) { demoWorld with stateMap := .empty }
      [.initState 1 30, .freeState 1, .initState 1 40]).2 1 30 := by
  refine ⟨?_, ?_, ?_, ?_⟩
  · exact (registry_lookup_iff_live (fun n => (n : Int) + 1) demoWorld
      [.insertModel 10, .insertModel 20, .freeContext 1] [] 2 20).1.1 rfl
  · intro hl
    have hfind := (registry_lookup_iff_live (fun n => (n : Int) + 1) demoWorld
      [.insertModel 10, .insertModel 20, .freeContext 1] [] 1 10).1.2 hl
    have hgone : (runCtxCalls (fun n => (n : Int) + 1) { demoWorld with contextMap := .empty }
        [.insertModel 10, .insertModel 20, .freeContext 1]).1.contextMap.at_ 1 =
        .error .out_of_range := rfl
    rw [hgone] at hfind
    cases hfind
  · exact (registry_lookup_iff_live (fun n => (n : Int) + 1) demoWorld []
      [.initState 1 30, .freeState 1, .initState 1 40] 2 40).2.1.1 rfl
  · intro hl
    have hfind := (registry_lookup_iff_live (fun n => (n : Int) + 1) demoWorld []
      [.initState 1 30, .freeState 1, .initState 1 40] 1 30).2.1.2 hl
    have hgone : (runStateCalls (fun n => (n : Int) + 1) { demoWorld with stateMap := .empty }
        [.initState 1 30, .freeState 1, .initState 1 40]).1.stateMap.at_ 1 =
        .error .out_of_range := rfl
    rw [hgone] at hfind
    cases hfind

/-! # Segment accessors: negative indices -/

/-- C11 (negative index): for every negative 32-bit index and every segment count `n ≥ 0`
each of the six accessors passes the bounds check `nSegments < index + 1`, raises nothing
and calls the native accessor with the negative index. -/
theorem segment_accessors_accept_negative (nat : Native) (w : World)
    (ctxRef stateRef index : Int) (ctx state : Ptr) (hc : w.contextMap.at_ ctxRef = .ok ctx)
    (hs : w.stateMap.at_ stateRef = .ok state)
    (hn : 0 ≤ nat.whisper_full_n_segments ctx)
    (hn' : 0 ≤ nat.whisper_full_n_segments_from_state state)
    (h0 : -2147483648 ≤ index) (h1 : index < 0) :
    fullGetSegmentTimestamp0 nat w ctxRef index =
      (.ok ⟨nat.whisper_full_get_segment_t0 ctx index, none⟩,
        w.emit (.whisper_full_get_segment_t0 ctx index)) ∧
    fullGetSegmentTimestamp1 nat w ctxRef index =
      (.ok ⟨nat.whisper_full_get_segment_t1 ctx index, none⟩,
        w.emit (.whisper_full_get_segment_t1 ctx index)) ∧
    fullGetSegmentText nat w ctxRef index =
      (.ok ⟨some (nat.whisper_full_get_segment_text ctx index), none⟩,
        w.emit (.whisper_full_get_segment_text ctx index)) ∧
    fullGetSegmentTimestamp0FromState nat w stateRef index =
      (.ok ⟨nat.whisper_full_get_segment_t0_from_state state index, none⟩,
        w.emit (.whisper_full_get_segment_t0_from_state state index)) ∧
    fullGetSegmentTimestamp1FromState nat w stateRef index =
      (.ok ⟨nat.whisper_full_get_segment_t1_from_state state index, none⟩,
        w.emit (.whisper_full_get_segment_t1_from_state state index)) ∧
    fullGetSegmentTextFromState nat w stateRef index =
      (.ok ⟨some (nat.whisper_full_get_segment_text_from_state state index), none⟩,
        w.emit (.whisper_full_get_segment_text_from_state state index)) := by
  have c1 : ¬ nat.whisper_full_n_segments ctx < index + 1 := by omega
  have c2 : ¬ nat.whisper_full_n_segments_from_state state < index + 1 := by omega
  refine ⟨?_, ?_, ?_, ?_, ?_, ?_⟩
  · simp only [fullGetSegmentTimestamp0, hc, c1, ↓reduceIte]
  · simp only [fullGetSegmentTimestamp1, hc, c1, ↓reduceIte]
  · simp only [fullGetSegmentText, hc, c1, ↓reduceIte]
  · simp only [fullGetSegmentTimestamp0FromState, hs, c2, ↓reduceIte]
  · simp only [fullGetSegmentTimestamp1FromState, hs, c2, ↓reduceIte]
  · simp only [fullGetSegmentTextFromState, hs, c2, ↓reduceIte]

/-- Witness of `segment_accessors_accept_negative`: three segments, index -1. -/
theorem segment_accessors_accept_negative_witness :
    (fullGetSegmentTimestamp0 (demoNative none 0 3) demoWorld 1 (-1)).1 = .ok ⟨-1, none⟩ ∧
    (fullGetSegmentTimestamp0 (demoNative none 0 3) demoWorld 1 (-1)).2.trace =
      [.whisper_full_get_segment_t0 10 (-1)] ∧
    (fullGetSegmentTextFromState (demoNative none 0 3) demoWorld 5 (-1)).2.trace =
      [.whisper_full_get_segment_text_from_state 77 (-1)] := by
  have h := segment_accessors_accept_negative (demoNative none 0 3) demoWorld 1 5 (-1) 10 77
    rfl rfl (by decide) (by decide) (by decide) (by decide)
  refine ⟨?_, ?_, ?_⟩
  · rw [h.1]; rfl
  · rw [h.1]; rfl
  · rw [h.2.2.2.2.2]; rfl

/-- An index inside `0 ≤ index < segmentCount` reaches the native accessor, and an index
with `segmentCount ≤ index` is answered with the exception: the check is right from 0
upward. -/
theorem segment_accessors_accept_in_range (nat : Native) (w : World) (ctxRef index : Int)
    (ctx : Ptr) (hc : w.contextMap.at_ ctxRef = .ok ctx) (_h0 : 0 ≤ index)
    (h1 : index < nat.whisper_full_n_segments ctx) :
    fullGetSegmentTimestamp0 nat w ctxRef index =
      (.ok ⟨nat.whisper_full_get_segment_t0 ctx index, none⟩,
        w.emit (.whisper_full_get_segment_t0 ctx index)) := by
  have c1 : ¬ nat.whisper_full_n_segments ctx < index + 1 := by omega
  simp only [fullGetSegmentTimestamp0, hc, c1, ↓reduceIte]

/-! # Token accessors -/

/-- C12: the four token accessors make no bounds check. Once their handles resolve, for
every segment index and token index, in range or not, they raise nothing and call the
native token accessors with the indices as given. -/
theorem token_accessors_unchecked (tnat : TokenNative) (w : World)
    (ctxRef stateRef segment token : Int) (ctx state : Ptr)
    (hc : w.contextMap.at_ ctxRef = .ok ctx) (hs : w.stateMap.at_ stateRef = .ok state) :
    fullNTokens tnat w ctxRef segment =
      (.ok ⟨tnat.whisper_full_n_tokens ctx segment, none⟩,
        w.emit (.whisper_full_n_tokens ctx segment)) ∧
    fullNTokensFromState tnat w stateRef segment =
      (.ok ⟨tnat.whisper_full_n_tokens_from_state state segment, none⟩,
        w.emit (.whisper_full_n_tokens_from_state state segment)) ∧
    getTokenData tnat w ctxRef segment token =
      (.ok ⟨createTokenData (tnat.whisper_full_get_token_text ctx segment token)
          (tnat.whisper_full_get_token_data ctx segment token), none⟩,
        (w.emit (.whisper_full_get_token_data ctx segment token)).emit
          (.whisper_full_get_token_text ctx segment token)) ∧
    getTokenDataFromState tnat w ctxRef stateRef segment token =
      (.ok ⟨createTokenData (tnat.whisper_full_get_token_text_from_state ctx state segment token)
          (tnat.whisper_full_get_token_data_from_state state segment token), none⟩,
        (w.emit (.whisper_full_get_token_data_from_state state segment token)).emit
          (.whisper_full_get_token_text_from_state ctx state segment token)) := by
  refine ⟨?_, ?_, ?_, ?_⟩
  · simp only [fullNTokens, hc]
  · simp only [fullNTokensFromState, hs]
  · simp only [getTokenData, hc]
  · simp only [getTokenDataFromState, hc, hs]

/-- Witness of `token_accessors_unchecked`: with three segments, segment index 5 and token
index -1 reach the native accessors. -/
theorem token_accessors_unchecked_witness :
    (demoNative none 0 3).whisper_full_n_segments 10 = 3 ∧
    (fullNTokens demoTokenNative demoWorld 1 5).1 = .ok ⟨4, none⟩ ∧
    (fullNTokens demoTokenNative demoWorld 1 5).2.trace = [.whisper_full_n_tokens 10 5] ∧
    (getTokenDataFromState demoTokenNative demoWorld 1 5 5 (-1)).2.trace =
      [.whisper_full_get_token_data_from_state 77 5 (-1),
        .whisper_full_get_token_text_from_state 10 77 5 (-1)] := by
  have h := token_accessors_unchecked demoTokenNative demoWorld 1 5 5 (-1) 10 77 rfl rfl
  refine ⟨rfl, ?_, ?_, ?_⟩
  · rw [h.1]; rfl
  · rw [h.1]; rfl
  · rw [h.2.2.2]; rfl

/-! # Opening a context -/

theorem probe_some_draw {V : Type} (rand : Nat → Int) (m : StdMap V) (fuel drawn : Nat)
    (id : Int) (h : (probe rand m fuel drawn).1 = some id) :
    ∃ k, k < fuel ∧ id = rand (drawn + k) := by
  induction fuel generalizing drawn with
  | zero => simp [probe] at h
  | succ n ih =>
    simp only [probe] at h
    split at h
    · simp at h
      exact ⟨0, by omega, by rw [← h]; rfl⟩
    · obtain ⟨k, hk, hid⟩ := ih _ h
      exact ⟨k + 1, by omega, by rw [hid]; congr 1; omega⟩

theorem StdMap.at_eq_of_find?_eq {V : Type} (m m' : StdMap V) (k k' : Int)
    (h : m.find? k = m'.find? k') : m.at_ k = m'.at_ k' := by
  unfold StdMap.at_; rw [h]

/-- What `insertModel` does on a world that has the context table and the draw count of
`w0`: the outcomes of `OpenOutcome` for a non-null pointer. -/
theorem insertModel_outcome (rand : Nat → Int) (hrand : ∀ k, 0 ≤ rand k) (w0 w : World)
    (hcm : w.contextMap = w0.contextMap) (hd : w.drawn = w0.drawn) (ctx : Ptr)
    (hctx : ctx ≠ 0) : OpenOutcome rand w0 ctx (insertModel rand w ctx) := by
  cases hp : (probe rand w0.contextMap 1000 w0.drawn).1 with
  | none =>
    have hins : insertModel rand w ctx =
        (.error (.runtime_error "Wrapper error: Unable to get config id"),
          { w with drawn := (probe rand w0.contextMap 1000 w0.drawn).2 }) := by
      unfold insertModel
      rw [getContextId_eq, hcm, hd, hp]
    have hall := (probe_none_iff rand w0.contextMap 1000 w0.drawn).1 hp
    have h1 : (insertModel rand w ctx).1 =
        .error (.runtime_error "Wrapper error: Unable to get config id") := by rw [hins]
    have h2 : (insertModel rand w ctx).2.contextMap = w0.contextMap := by rw [hins]; exact hcm
    refine ⟨fun h => absurd h hctx, fun _ _ => ⟨h1, h2⟩, ?_, ⟨?_, fun h => absurd h hctx⟩, ?_⟩
    · rintro _ ⟨k, hk, hfree⟩
      exact absurd (hall k hk) hfree
    · intro h
      rw [h1] at h
      cases h
    · intro h
      rw [h2]; exact h
  | some id =>
    have hins : insertModel rand w ctx =
        (.ok id, { w with drawn := (probe rand w0.contextMap 1000 w0.drawn).2
                          contextMap := w0.contextMap.insert id ctx }) := by
      unfold insertModel
      rw [getContextId_eq, hcm, hd, hp]
    have hfree := probe_some rand w0.contextMap 1000 w0.drawn id hp
    have hnone : w0.contextMap.find? id = none := (StdMap.find?_eq_none_iff _ _).2 hfree
    obtain ⟨k, _, hid⟩ := probe_some_draw rand w0.contextMap 1000 w0.drawn id hp
    have hid0 : 0 ≤ id := hid ▸ hrand _
    have h1 : (insertModel rand w ctx).1 = .ok id := by rw [hins]
    have h2 : (insertModel rand w ctx).2.contextMap = w0.contextMap.insert id ctx := by
      rw [hins]
    refine ⟨fun h => absurd h hctx, ?_, ?_, ⟨?_, fun h => absurd h hctx⟩, ?_⟩
    · intro _ hall
      have := (probe_none_iff rand w0.contextMap 1000 w0.drawn).2 hall
      rw [hp] at this
      cases this
    · intro _ _
      refine ⟨id, h1, hid0, hfree, ?_, ?_⟩
      · rw [h2, StdMap.at_ok_iff, StdMap.find?_insert _ _ _ hnone]
        simp
      · intro h' hne
        rw [h2]
        apply StdMap.at_eq_of_find?_eq
        rw [StdMap.find?_insert _ _ _ hnone]
        simp [Ne.symm hne]
    · intro h
      rw [h1] at h
      simp only [Except.ok.injEq] at h
      omega
    · intro hm
      rw [h2]
      rw [← StdMap.find?_eq_none_iff] at hm ⊢
      rw [StdMap.find?_insert _ _ _ hnone]
      have : id ≠ -1 := by omega
      simp [this, hm]

/-- The outcome of a call that returns -1 without touching the context table, for a null
pointer. -/
theorem openOutcome_null (rand : Nat → Int) (w0 w : World)
    (hcm : w.contextMap = w0.contextMap) : OpenOutcome rand w0 0 (.ok (-1), w) := by
  refine ⟨fun _ => ⟨rfl, hcm⟩, fun h => absurd rfl h, fun h => absurd rfl h,
    ⟨fun _ => rfl, fun _ => rfl⟩, ?_⟩
  intro h
  show (-1 : Int) ∉ w.contextMap.keys
  rw [hcm]; exact h

theorem runCtxCalls_minus_one (rand : Nat → Int) (hrand : ∀ k, 0 ≤ rand k)
    (calls : List CtxCall) (w : World) (h : w.contextMap.find? (-1) = none) :
    (runCtxCalls rand w calls).1.contextMap.find? (-1) = none := by
  induction calls generalizing w with
  | nil => exact h
  | cons c rest ih =>
    cases c with
    | insertModel ctx =>
      simp only [runCtxCalls]
      apply ih
      cases hf : (insertModel rand w ctx).2.contextMap.find? (-1) with
      | none => rfl
      | some v =>
        rcases (insertModel_find rand w ctx (-1) v).1 hf with ⟨hok, _⟩ | hold
        · exfalso
          unfold insertModel at hok
          rw [getContextId_eq] at hok
          cases hp : (probe rand w.contextMap 1000 w.drawn).1 with
          | none => rw [hp] at hok; cases hok
          | some id =>
            rw [hp] at hok
            simp only [Except.ok.injEq] at hok
            obtain ⟨k, _, hid⟩ := probe_some_draw rand w.contextMap 1000 w.drawn id hp
            have := hrand (w.drawn + k)
            omega
        · rw [h] at hold; cases hold
    | freeContext ctxRef =>
      simp only [runCtxCalls]
      apply ih
      cases hf : (freeContext w ctxRef).2.contextMap.find? (-1) with
      | none => rfl
      | some v =>
        have := ((freeContext_find w ctxRef (-1) v).1 hf).1
        rw [h] at this; cases this

/-- C13 as stated fails: every draw is 7 and 7 is a live handle; the native initializer
returns the non-null pointer 42, yet `init` returns neither -1 nor a handle: the exhaustion
error of `getContextId` escapes. -/
theorem init_exhausted :
    (demoInitNative 42).whisper_init_from_file_with_params "model.bin"
      (newWhisperContextParams demoContextDefaults false) ≠ 0 ∧
    (init (demoInitNative 42) demoContextDefaults (fun _ => 7) demoWorld7 "model.bin" false).1 =
      .error (.runtime_error "Wrapper error: Unable to get config id") ∧
    (init (demoInitNative 42) demoContextDefaults (fun _ => 7) demoWorld7 "model.bin"
      false).2.contextMap = demoWorld7.contextMap := by
  have h := (insertModel_outcome (fun _ => 7) (fun _ => by norm_num) demoWorld7
    (((demoWorld7.emit (.GetStringUTFChars "modelPath")).emit
      (.whisper_init_from_file_with_params "model.bin")).emit
      (.ReleaseStringUTFChars "modelPath")) rfl rfl 42 (by decide)).2.1 (by decide)
    (fun k _ => by simp [demoWorld7, StdMap.keys])
  have hinit : init (demoInitNative 42) demoContextDefaults (fun _ => 7) demoWorld7 "model.bin"
      false = insertModel (fun _ => 7)
        (((demoWorld7.emit (.GetStringUTFChars "modelPath")).emit
          (.whisper_init_from_file_with_params "model.bin")).emit
          (.ReleaseStringUTFChars "modelPath")) 42 := by
    have h42 : ¬ ((42 : Ptr) = 0) := by decide
    simp only [init, demoInitNative, h42, ↓reduceIte]
  rw [hinit]
  exact ⟨by decide, h.1, h.2⟩

/-- C13, amended: with a random source of non-negative integers, `init`, `initNoState` and
`initFromInputStream` return -1 with the context table unchanged exactly when the native
initializer returns null or the stream delivers no byte (then no initializer is called and
the world is untouched); when the initializer succeeds and the first 1000 draws are all live
handles the exhaustion error escapes with the table unchanged; in every other case they
return a handle `≥ 0` that was not live and now resolves to the new context. -1 never
becomes a live context handle. -/
theorem open_context_outcomes (inat : InitNative) (defaults : ContextParams)
    (rand : Nat → Int) (w : World) (modelPath : String) (reads : List (List Nat))
    (useGPU initState : Bool) (hrand : ∀ k, 0 ≤ rand k) :
    OpenOutcome rand w
      (inat.whisper_init_from_file_with_params modelPath
        (newWhisperContextParams defaults useGPU))
      (init inat defaults rand w modelPath useGPU) ∧
    OpenOutcome rand w
      (inat.whisper_init_from_file_with_params_no_state modelPath
        (newWhisperContextParams defaults useGPU))
      (initNoState inat defaults rand w modelPath useGPU) ∧
    (readStream reads = [] →
      initFromInputStream inat defaults rand w reads useGPU initState = (.ok (-1), w)) ∧
    (readStream reads ≠ [] →
      OpenOutcome rand w
        (if initState then
          inat.whisper_init_with_params (readStream reads)
            (newWhisperContextParams defaults useGPU)
        else
          inat.whisper_init_with_params_no_state (readStream reads)
            (newWhisperContextParams defaults useGPU))
        (initFromInputStream inat defaults rand w reads useGPU initState)) ∧
    (∀ calls, (runCtxCalls rand { w with contextMap := .empty } calls).1.contextMap.at_ (-1) =
      .error .out_of_range) := by
  refine ⟨?_, ?_, ?_, ?_, ?_⟩
  · unfold init
    simp only
    split
    · rename_i h0
      rw [h0]
      refine openOutcome_null rand w _ ?_
      rfl
    · rename_i h0
      refine insertModel_outcome rand hrand w _ ?_ ?_ _ h0 <;> rfl
  · unfold initNoState
    simp only
    split
    · rename_i h0
      rw [h0]
      refine openOutcome_null rand w _ ?_
      rfl
    · rename_i h0
      refine insertModel_outcome rand hrand w _ ?_ ?_ _ h0 <;> rfl
  · intro hempty
    unfold initFromInputStream
    simp [hempty]
  · intro hne
    have hemp : (readStream reads).isEmpty = false := by
      cases hr : readStream reads with
      | nil => exact absurd hr hne
      | cons a l => rfl
    unfold initFromInputStream
    simp only [hemp, Bool.false_eq_true, ↓reduceIte]
    cases initState with
    | true =>
      simp only [↓reduceIte]
      split
      · rename_i h0
        refine insertModel_outcome rand hrand w _ ?_ ?_ _ h0 <;> rfl
      · rename_i h0
        rw [not_not] at h0
        rw [h0]
        refine openOutcome_null rand w _ ?_
        rfl
    | false =>
      simp only [Bool.false_eq_true, ↓reduceIte]
      split
      · rename_i h0
        refine insertModel_outcome rand hrand w _ ?_ ?_ _ h0 <;> rfl
      · rename_i h0
        rw [not_not] at h0
        rw [h0]
        refine openOutcome_null rand w _ ?_
        rfl
  · intro calls
    rw [StdMap.at_error_iff]
    exact ⟨runCtxCalls_minus_one rand hrand calls _ (StdMap.find?_empty _), rfl⟩

/-- Witness of `open_context_outcomes`: draws 1, 2, 3, ... on the table with the live handle
1; `init` returns the fresh handle 2 for the new context 42. -/
theorem open_context_outcomes_witness :
    (init (demoInitNative 42) demoContextDefaults (fun n => (n : Int) + 1) demoWorld
      "model.bin" false).1 = .ok 2 ∧
    (init (demoInitNative 42) demoContextDefaults (fun n => (n : Int) + 1) demoWorld
      "model.bin" false).2.contextMap.at_ 2 = .ok 42 := by
  have h := (open_context_outcomes (demoInitNative 42) demoContextDefaults
    (fun n => (n : Int) + 1) demoWorld "model.bin" [] false false (fun k => by positivity)).1
  obtain ⟨h', hok, _, _, hat, _⟩ := h.2.2.1 (by decide) ⟨1, by decide, by decide⟩
  have h2 : (init (demoInitNative 42) demoContextDefaults (fun n => (n : Int) + 1) demoWorld
      "model.bin" false).1 = .ok 2 := rfl
  rw [h2] at hok
  cases hok
  exact ⟨h2, hat⟩

/-! # Release of what a call acquired -/

theorem count_paramEvents_release (jParams : JParams) (field : String) :
    (paramEvents jParams).count (.ReleaseStringUTFChars field) = 0 := by
  rw [List.count_eq_zero]
  intro h
  obtain ⟨f, hf⟩ := mem_paramEvents _ _ h
  cases hf

theorem count_releaseEvents_get (jParams : JParams) (field : String) :
    (releaseEvents jParams).count (.GetStringUTFChars field) = 0 := by
  rw [List.count_eq_zero]
  intro h
  obtain ⟨f, hf⟩ := mem_releaseEvents _ _ h
  cases hf

theorem count_release_eq_get (jParams : JParams) (field : String) :
    (releaseEvents jParams).count (.ReleaseStringUTFChars field) =
      (paramEvents jParams).count (.GetStringUTFChars field) := by
  unfold releaseEvents paramEvents
  cases jParams.language <;> cases jParams.initialPrompt <;> cases jParams.vad_model_path <;>
    simp [List.count_cons, List.count_nil]

theorem count_paramEvents_float (jParams : JParams) :
    (paramEvents jParams).count .GetFloatArrayElements = 0 ∧
    (paramEvents jParams).count .ReleaseFloatArrayElements = 0 := by
  constructor <;>
  · rw [List.count_eq_zero]
    intro h
    obtain ⟨f, hf⟩ := mem_paramEvents _ _ h
    cases hf

theorem count_releaseEvents_float (jParams : JParams) :
    (releaseEvents jParams).count .GetFloatArrayElements = 0 ∧
    (releaseEvents jParams).count .ReleaseFloatArrayElements = 0 := by
  constructor <;>
  · rw [List.count_eq_zero]
    intro h
    obtain ⟨f, hf⟩ := mem_releaseEvents _ _ h
    cases hf

/-- On the path where every handle resolves, `full` and `fullWithState` release each string
and the sample buffer exactly once. -/
theorem full_releases_when_resolved (nat : Native) (defaults : FullParams) (w : World)
    (ctxRef stateRef : Int) (jParams : JParams) (samples : List Sample) (n : Int)
    (ctx : Ptr) (p : FullParams) (hc : w.contextMap.at_ ctxRef = .ok ctx)
    (ha : attachGrammar w jParams (newWhisperFullParams defaults w jParams).1 = .ok p) :
    ReleasedExactlyOnce (newEvents w (full nat defaults w ctxRef jParams samples n).2) ∧
    (∀ state, w.stateMap.at_ stateRef = .ok state →
      ReleasedExactlyOnce
        (newEvents w (fullWithState nat defaults w ctxRef stateRef jParams samples n).2)) := by
  have hf := count_paramEvents_float jParams
  have hr := count_releaseEvents_float jParams
  constructor
  · rw [full_resolved nat defaults w ctxRef jParams samples n ctx p hc ha,
      newEvents_append _ _ _ rfl]
    constructor
    · intro field
      simp only [List.count_append, count_paramEvents_release, count_releaseEvents_get,
        count_release_eq_get, List.count_cons, List.count_nil]
      simp
    · simp only [List.count_append, hf.1, hf.2, hr.1, hr.2, List.count_cons, List.count_nil]
      simp
  · intro state hs
    rw [fullWithState_resolved nat defaults w ctxRef stateRef jParams samples n ctx state p hc
      hs ha, newEvents_append _ _ _ rfl]
    constructor
    · intro field
      simp only [List.count_append, count_paramEvents_release, count_releaseEvents_get,
        count_release_eq_get, List.count_cons, List.count_nil]
      simp
    · simp only [List.count_append, hf.1, hf.2, hr.1, hr.2, List.count_cons, List.count_nil]
      simp

/-- On no path does `vadState` call `ReleaseStringUTFChars`: `freeWhisperFullParams` is
never reached, while the strings of `newWhisperFullParams` were acquired. -/
theorem vadState_releases_no_string (nat : Native) (defaults : FullParams) (rate : Nat)
    (w : World) (ctxRef stateRef : Int) (jParams : JParams) (samples : List Sample) (n : Int)
    (field : String) :
    (newEvents w (vadState nat defaults rate w ctxRef stateRef jParams samples n).2).count
      (.ReleaseStringUTFChars field) = 0 ∧
    (newEvents w (vadState nat defaults rate w ctxRef stateRef jParams samples n).2).count
      (.GetStringUTFChars field) = (paramEvents jParams).count (.GetStringUTFChars field) := by
  cases hc : w.contextMap.at_ ctxRef with
  | error e =>
    rw [(vadState_unresolved nat defaults rate w ctxRef stateRef jParams samples n
      (Or.inl ⟨e, hc⟩)).2]
    exact ⟨count_paramEvents_release _ _, rfl⟩
  | ok ctx =>
    cases hs : w.stateMap.at_ stateRef with
    | error e =>
      rw [(vadState_unresolved nat defaults rate w ctxRef stateRef jParams samples n
        (Or.inr ⟨e, hs⟩)).2]
      exact ⟨count_paramEvents_release _ _, rfl⟩
    | ok state =>
      have hr := vadState_resolved nat defaults rate w ctxRef stateRef jParams samples n
        ctx state hc hs
      simp only at hr
      obtain ⟨h1, h2, h3⟩ := hr
      cases hseg : nat.whisper_vad_segments_from_samples
        (nat.whisper_vad_init_from_file_with_params
          (newWhisperFullParams defaults w jParams).1.vad_model_path)
        (newWhisperFullParams defaults w jParams).1 samples n with
      | none =>
        rw [(h1 hseg).2]
        simp [List.count_append, count_paramEvents_release, List.count_cons]
      | some segs =>
        cases segs with
        | nil =>
          rw [(h2 hseg).2]
          simp [List.count_append, count_paramEvents_release, List.count_cons]
        | cons a rest =>
          have h3' := h3 _ hseg (by simp)
          simp only at h3'
          rw [h3'.2]
          simp [List.count_append, count_paramEvents_release, List.count_cons]

/-- C14 (failing inputs): a `vadState` call that decodes with success returns with the
strings `language` and `vad_model_path` acquired and never released; a `full` call whose
context handle does not resolve ends with the strings and the sample buffer acquired and
none of them released. -/
theorem transcription_calls_leak :
    (demoVadSuccess.1 = .ok ⟨some "hello", none⟩ ∧
      (newEvents demoWorld demoVadSuccess.2).count (.GetStringUTFChars "language") = 1 ∧
      (newEvents demoWorld demoVadSuccess.2).count (.ReleaseStringUTFChars "language") = 0 ∧
      (newEvents demoWorld demoVadSuccess.2).count (.GetStringUTFChars "vad_model_path") = 1 ∧
      (newEvents demoWorld demoVadSuccess.2).count (.ReleaseStringUTFChars "vad_model_path")
        = 0 ∧
      ¬ ReleasedExactlyOnce (newEvents demoWorld demoVadSuccess.2)) ∧
    ((full (demoNative none 0 0) demoDefaults demoWorld 99 (demoParams none) [1, 2, 3] 3).1 =
        .error .out_of_range ∧
      newEvents demoWorld
        (full (demoNative none 0 0) demoDefaults demoWorld 99 (demoParams none) [1, 2, 3] 3).2 =
        [.GetStringUTFChars "language", .GetStringUTFChars "vad_model_path",
          .GetFloatArrayElements] ∧
      ¬ ReleasedExactlyOnce (newEvents demoWorld
        (full (demoNative none 0 0) demoDefaults demoWorld 99 (demoParams none) [1, 2, 3]
          3).2)) := by
  have hv := vadState_releases_no_string (demoNative (some [(0, 1)]) 0 0) demoDefaults 16000
    demoWorld 1 5 (demoParams none) [1, 2, 3] 3
  have hfull : newEvents demoWorld
      (full (demoNative none 0 0) demoDefaults demoWorld 99 (demoParams none) [1, 2, 3] 3).2 =
      [.GetStringUTFChars "language", .GetStringUTFChars "vad_model_path",
        .GetFloatArrayElements] := rfl
  refine ⟨⟨rfl, ?_, (hv "language").1, ?_, (hv "vad_model_path").1, ?_⟩, rfl, hfull, ?_⟩
  · exact (hv "language").2.trans (by decide)
  · exact (hv "vad_model_path").2.trans (by decide)
  · intro h
    have h1 : (newEvents demoWorld demoVadSuccess.2).count (.ReleaseStringUTFChars "language") =
        (newEvents demoWorld demoVadSuccess.2).count (.GetStringUTFChars "language") :=
      h.1 "language"
    have h0 : (newEvents demoWorld demoVadSuccess.2).count (.ReleaseStringUTFChars "language")
        = 0 := (hv "language").1
    have h2 : (newEvents demoWorld demoVadSuccess.2).count (.GetStringUTFChars "language") = 1 :=
      (hv "language").2.trans (by decide)
    rw [h0, h2] at h1
    cases h1
  · intro h
    have h2 := h.2
    rw [hfull] at h2
    revert h2
    decide

/-! # The audio compactor: the copy loop against the capacity -/

theorem copyPass_cons (rate : Nat) (nativeSamples : List Sample) (numSamples : Int)
    (overlap_seconds : ℚ) (numSegments i : Int) (seg : Int × Int) (rest : List (Int × Int))
    (filtered : Option (List Sample)) (offset : Int) :
    copyPass rate nativeSamples numSamples overlap_seconds numSegments i (seg :: rest) filtered
        offset =
      copyPass rate nativeSamples numSamples overlap_seconds numSegments (i + 1) rest
        (if i < numSegments - 1 then
          (if (copyRange rate numSamples overlap_seconds numSegments i seg).2 > 0 then
            filtered.bind (fun dst => memcpyAt dst offset nativeSamples
              (copyRange rate numSamples overlap_seconds numSegments i seg).1
              (copyRange rate numSamples overlap_seconds numSegments i seg).2)
          else filtered).bind (fun dst => memsetZeroAt dst
            (if (copyRange rate numSamples overlap_seconds numSegments i seg).2 > 0 then
              offset + (copyRange rate numSamples overlap_seconds numSegments i seg).2
            else offset) (silence_samples rate))
        else
          (if (copyRange rate numSamples overlap_seconds numSegments i seg).2 > 0 then
            filtered.bind (fun dst => memcpyAt dst offset nativeSamples
              (copyRange rate numSamples overlap_seconds numSegments i seg).1
              (copyRange rate numSamples overlap_seconds numSegments i seg).2)
          else filtered))
        (if i < numSegments - 1 then
          (if (copyRange rate numSamples overlap_seconds numSegments i seg).2 > 0 then
            offset + (copyRange rate numSamples overlap_seconds numSegments i seg).2
          else offset) + silence_samples rate
        else
          (if (copyRange rate numSamples overlap_seconds numSegments i seg).2 > 0 then
            offset + (copyRange rate numSamples overlap_seconds numSegments i seg).2
          else offset)) := by
  obtain ⟨t0, t1⟩ := seg
  rfl

theorem memcpyAt_some (dst src : List Sample) (offset start len : Int) (r : List Sample)
    (h : memcpyAt dst offset src start len = some r) :
    (0 ≤ offset ∧ 0 ≤ len ∧ offset + len ≤ dst.length ∧ 0 ≤ start ∧ start + len ≤ src.length) ∧
      r.length = dst.length := by
  unfold memcpyAt at h
  split at h
  · rename_i hc
    obtain ⟨r', h1, h2, _⟩ := memcpyAt_ok dst src offset start len hc.1 hc.2.1 hc.2.2.1
      hc.2.2.2.1 hc.2.2.2.2
    unfold memcpyAt at h1
    rw [if_pos hc] at h1
    rw [← Option.some.inj (h.symm.trans h1)] at h2
    exact ⟨hc, h2⟩
  · cases h

theorem memsetZeroAt_some (dst : List Sample) (offset n : Int) (r : List Sample)
    (h : memsetZeroAt dst offset n = some r) :
    (0 ≤ offset ∧ 0 ≤ n ∧ offset + n ≤ dst.length) ∧ r.length = dst.length := by
  unfold memsetZeroAt at h
  split at h
  · rename_i hc
    obtain ⟨r', h1, h2, _⟩ := memsetZeroAt_ok dst offset n hc.1 hc.2.1 hc.2.2
    unfold memsetZeroAt at h1
    rw [if_pos hc] at h1
    rw [← Option.some.inj (h.symm.trans h1)] at h2
    exact ⟨hc, h2⟩
  · cases h

theorem copyPass_none (rate : Nat) (nativeSamples : List Sample) (numSamples : Int)
    (overlap_seconds : ℚ) (numSegments : Int) (segs : List (Int × Int)) :
    ∀ (i offset : Int),
      (copyPass rate nativeSamples numSamples overlap_seconds numSegments i segs none offset).1 =
        none := by
  induction segs with
  | nil => intro i offset; rfl
  | cons seg rest ih =>
    intro i offset
    rw [copyPass_cons]
    have hn : (if i < numSegments - 1 then
          (if (copyRange rate numSamples overlap_seconds numSegments i seg).2 > 0 then
            (none : Option (List Sample)).bind (fun dst => memcpyAt dst offset nativeSamples
              (copyRange rate numSamples overlap_seconds numSegments i seg).1
              (copyRange rate numSamples overlap_seconds numSegments i seg).2)
          else none).bind (fun dst => memsetZeroAt dst
            (if (copyRange rate numSamples overlap_seconds numSegments i seg).2 > 0 then
              offset + (copyRange rate numSamples overlap_seconds numSegments i seg).2
            else offset) (silence_samples rate))
        else
          (if (copyRange rate numSamples overlap_seconds numSegments i seg).2 > 0 then
            (none : Option (List Sample)).bind (fun dst => memcpyAt dst offset nativeSamples
              (copyRange rate numSamples overlap_seconds numSegments i seg).1
              (copyRange rate numSamples overlap_seconds numSegments i seg).2)
          else none)) = none := by
      split_ifs <;> rfl
    rw [hn]
    exact ih _ _

/-- When the copy loop ends with the buffer intact (no access left a buffer), the final
write offset is within the buffer. -/
theorem copyPass_some_le (rate : Nat) (nativeSamples : List Sample) (numSamples : Int)
    (overlap_seconds : ℚ) (numSegments : Int) (segs : List (Int × Int)) :
    ∀ (i : Int) (buf : List Sample) (offset : Int) (buf' : List Sample),
      offset ≤ buf.length →
      (copyPass rate nativeSamples numSamples overlap_seconds numSegments i segs (some buf)
        offset).1 = some buf' →
      (copyPass rate nativeSamples numSamples overlap_seconds numSegments i segs (some buf)
        offset).2 ≤ buf.length := by
  induction segs with
  | nil =>
    intro i buf offset buf' h0 _
    exact h0
  | cons seg rest ih =>
    intro i buf offset buf' h0 hsome
    rw [copyPass_cons] at hsome ⊢
    generalize hlen : (copyRange rate numSamples overlap_seconds numSegments i seg).2 = len
      at hsome ⊢
    generalize hstart : (copyRange rate numSamples overlap_seconds numSegments i seg).1 = start
      at hsome ⊢
    simp only [Option.some_bind] at hsome ⊢
    -- the copy
    cases h1 : (if len > 0 then memcpyAt buf offset nativeSamples start len else some buf) with
    | none =>
      try rw [h1] at hsome
      have : (if i < numSegments - 1 then
          (none : Option (List Sample)).bind (fun dst => memsetZeroAt dst
            (if len > 0 then offset + len else offset) (silence_samples rate))
          else none) = none := by split_ifs <;> rfl
      rw [this, copyPass_none] at hsome
      cases hsome
    | some buf1 =>
      try rw [h1] at hsome
      try rw [h1]
      have hb1 : buf1.length = buf.length ∧
          (if len > 0 then offset + len else offset) ≤ buf.length := by
        by_cases hpos : len > 0
        · rw [if_pos hpos] at h1 ⊢
          have := memcpyAt_some _ _ _ _ _ _ h1
          exact ⟨this.2, this.1.2.2.1⟩
        · rw [if_neg hpos] at h1 ⊢
          cases h1
          exact ⟨rfl, h0⟩
      generalize (if len > 0 then offset + len else offset) = offset1 at hsome hb1 ⊢
      simp only [Option.some_bind] at hsome ⊢
      cases h2 : (if i < numSegments - 1 then memsetZeroAt buf1 offset1 (silence_samples rate)
          else some buf1) with
      | none =>
        try rw [h2] at hsome
        rw [copyPass_none] at hsome
        cases hsome
      | some buf2 =>
        try rw [h2] at hsome
        try rw [h2]
        have hb2 : buf2.length = buf.length ∧
            (if i < numSegments - 1 then offset1 + silence_samples rate else offset1) ≤
              buf.length := by
          by_cases hnl : i < numSegments - 1
          · rw [if_pos hnl] at h2 ⊢
            have := memsetZeroAt_some _ _ _ _ h2
            exact ⟨this.2.trans hb1.1, by rw [← hb1.1]; exact this.1.2.2⟩
          · rw [if_neg hnl] at h2 ⊢
            cases h2
            exact hb1
        have := ih (i + 1) buf2 _ buf' (by rw [hb2.1]; exact hb2.2) hsome
        rw [hb2.1] at this
        exact this

/-- When the write offset of the compactor ends beyond the capacity computed by the sizing
loop, some access has left a buffer. -/
theorem compact_none_of_overflow (rate : Nat) (input : List Sample) (numSamples : Int)
    (overlap_seconds : ℚ) (segs : List (Int × Int))
    (h : ((compact rate input numSamples overlap_seconds segs).2.2.toNat : Int) <
      (compact rate input numSamples overlap_seconds segs).2.1) :
    (compact rate input numSamples overlap_seconds segs).1 = none := by
  cases hc : (compact rate input numSamples overlap_seconds segs).1 with
  | none => rfl
  | some buf' =>
    exfalso
    have hle := copyPass_some_le rate input numSamples overlap_seconds segs.length segs 0
      (List.replicate (sizingPass rate segs.length 0 segs 0).toNat 0) 0 buf'
      (by simp) hc
    rw [List.length_replicate] at hle
    have hlt : ((sizingPass rate segs.length 0 segs 0).toNat : Int) <
        (copyPass rate input numSamples overlap_seconds segs.length 0 segs
          (some (List.replicate (sizingPass rate segs.length 0 segs 0).toNat 0)) 0).2 := h
    omega

/-- C15 (failing inputs): with an overlap of half a second (8000 samples, more than the
silence gap of 1600) and the intervals (0, 100), (200, 300) in a buffer of 48000 samples, the
sizing loop allots 35200 samples and the copy loop ends at offset 41600, having written past
the buffer; with no overlap, the interval (100, 100) beyond a buffer of one sample is
allotted 0 samples and the copy loop writes one. -/
theorem compact_overflows_capacity :
    (overlap_samples WHISPER_SAMPLE_RATE (1 / 2) = 8000 ∧
      (compact WHISPER_SAMPLE_RATE (List.replicate 48000 0) 48000 (1 / 2)
        [(0, 100), (200, 300)]).2.2 = 35200 ∧
      (compact WHISPER_SAMPLE_RATE (List.replicate 48000 0) 48000 (1 / 2)
        [(0, 100), (200, 300)]).2.1 = 41600 ∧
      (compact WHISPER_SAMPLE_RATE (List.replicate 48000 0) 48000 (1 / 2)
        [(0, 100), (200, 300)]).1 = none) ∧
    ((compact WHISPER_SAMPLE_RATE [7] 1 0 [(100, 100)]).2.2 = 0 ∧
      (compact WHISPER_SAMPLE_RATE [7] 1 0 [(100, 100)]).2.1 = 1 ∧
      (compact WHISPER_SAMPLE_RATE [7] 1 0 [(100, 100)]).1 = none) := by
  have a1 : (compact WHISPER_SAMPLE_RATE (List.replicate 48000 0) 48000 (1 / 2)
      [(0, 100), (200, 300)]).2.2 = 35200 := by with_unfolding_all decide
  have a2 : (compact WHISPER_SAMPLE_RATE (List.replicate 48000 0) 48000 (1 / 2)
      [(0, 100), (200, 300)]).2.1 = 41600 := by with_unfolding_all decide
  have b1 : (compact WHISPER_SAMPLE_RATE [7] 1 0 [(100, 100)]).2.2 = 0 := by
    with_unfolding_all decide
  have b2 : (compact WHISPER_SAMPLE_RATE [7] 1 0 [(100, 100)]).2.1 = 1 := by
    with_unfolding_all decide
  refine ⟨⟨by with_unfolding_all decide, a1, a2, ?_⟩, b1, b2, ?_⟩
  · apply compact_none_of_overflow
    rw [a1, a2]
    decide
  · apply compact_none_of_overflow
    rw [b1, b2]
    decide

/-- On the two inputs above every `int` the loops compute is in the range of an `int`: the
writes beyond the capacity do not come from an overflow of `int` arithmetic. -/
theorem compactDefined_overflow_inputs :
    compactDefined WHISPER_SAMPLE_RATE 48000 (1 / 2) [(0, 100), (200, 300)] = true ∧
    compactDefined WHISPER_SAMPLE_RATE 1 0 [(100, 100)] = true := by
  constructor <;> with_unfolding_all decide

/-! # The audio compactor: the range read from the input -/

/-- For an interval whose converted start is not negative, the range the copy loop reads
lies inside the input. -/
theorem copyRange_inside_of_start (rate : Nat) (numSamples : Int) (overlap_seconds : ℚ)
    (numSegments i : Int) (seg : Int × Int) (hN : 1 ≤ numSamples)
    (hs : 0 ≤ cs_to_samples rate seg.1) :
    0 ≤ (copyRange rate numSamples overlap_seconds numSegments i seg).1 ∧
    (copyRange rate numSamples overlap_seconds numSegments i seg).1 ≤ numSamples - 1 ∧
    (copyRange rate numSamples overlap_seconds numSegments i seg).1 +
      (copyRange rate numSamples overlap_seconds numSegments i seg).2 ≤ numSamples := by
  unfold copyRange
  simp only
  split_ifs <;> omega

/-- When the range the copy loop reads for an interval is not empty and leaves the input
buffer, the access is outside the buffer. -/
theorem copyPass_none_of_read_outside (rate : Nat) (nativeSamples : List Sample)
    (numSamples : Int) (overlap_seconds : ℚ) (numSegments i : Int) (seg : Int × Int)
    (rest : List (Int × Int)) (buf : List Sample) (offset : Int)
    (hlen : (copyRange rate numSamples overlap_seconds numSegments i seg).2 > 0)
    (hout : (copyRange rate numSamples overlap_seconds numSegments i seg).1 < 0 ∨
      (nativeSamples.length : Int) <
        (copyRange rate numSamples overlap_seconds numSegments i seg).1 +
          (copyRange rate numSamples overlap_seconds numSegments i seg).2) :
    (copyPass rate nativeSamples numSamples overlap_seconds numSegments i (seg :: rest)
      (some buf) offset).1 = none := by
  rw [copyPass_cons]
  have hcopy : memcpyAt buf offset nativeSamples
      (copyRange rate numSamples overlap_seconds numSegments i seg).1
      (copyRange rate numSamples overlap_seconds numSegments i seg).2 = none := by
    unfold memcpyAt
    rw [if_neg]
    rintro ⟨_, _, _, h4, h5⟩
    rcases hout with h | h <;> omega
  simp only [if_pos hlen, Option.some_bind, hcopy]
  have hn : (if i < numSegments - 1 then
      (none : Option (List Sample)).bind (fun dst => memsetZeroAt dst
        (offset + (copyRange rate numSamples overlap_seconds numSegments i seg).2)
        (silence_samples rate))
      else none) = none := by split_ifs <;> rfl
  rw [hn]
  exact copyPass_none _ _ _ _ _ _ _ _

/-- The `int` computations of an iteration of the copy loop are defined for every interval
with `0 ≤ t0 ≤ t1` whose end converts to an `int`, when the buffer length plus the overlap is
an `int`: the proviso of `copyRangeDefined` leaves out only times beyond about 13.4 million
centiseconds and overlaps close to the largest `int`. -/
theorem copyRangeDefined_of_bounds (rate : Nat) (numSamples : Int) (overlap_seconds : ℚ)
    (numSegments i : Int) (seg : Int × Int) (hN : 1 ≤ numSamples) (ht0 : 0 ≤ seg.1)
    (ht : seg.1 ≤ seg.2) (hend : cs_to_samples rate seg.2 ≤ INT_MAX)
    (hov0 : 0 ≤ overlap_samples rate overlap_seconds)
    (hov : numSamples + overlap_samples rate overlap_seconds ≤ INT_MAX)
    (hn : 1 ≤ numSegments) (hnmax : numSegments ≤ INT_MAX) :
    copyRangeDefined rate numSamples overlap_seconds numSegments i seg = true := by
  have hs : 0 ≤ cs_to_samples rate seg.1 := by
    have := cs_to_samples_mono rate 0 seg.1 ht0
    rwa [cs_to_samples_zero] at this
  have hse := cs_to_samples_mono rate seg.1 seg.2 ht
  unfold INT_MAX at hend hov hnmax
  simp only [copyRangeDefined, Bool.and_eq_true, fitsInt_iff]
  unfold INT_MIN INT_MAX
  by_cases hi : i < numSegments - 1
  · simp only [hi, ↓reduceIte, fitsInt_iff]
    unfold INT_MIN INT_MAX
    omega
  · simp only [hi, ↓reduceIte, and_true]
    omega

/-- C16 as stated fails: the interval (-1, 1) centiseconds in a buffer of 10 samples, with
no overlap (every `int` computed is in range). The start is clamped from above only: the
copy loop reads the range that starts at sample -159 and has 169 samples, which begins
before the input buffer. -/
theorem copyRange_negative_start :
    (1 : Int) ≤ 10 ∧ 0 ≤ overlap_samples WHISPER_SAMPLE_RATE 0 ∧
    copyRangeDefined WHISPER_SAMPLE_RATE 10 0 1 0 (-1, 1) = true ∧
    copyRange WHISPER_SAMPLE_RATE 10 0 1 0 (-1, 1) = (-159, 169) ∧
    ¬ (0 ≤ (copyRange WHISPER_SAMPLE_RATE 10 0 1 0 (-1, 1)).1) ∧
    (compact WHISPER_SAMPLE_RATE [1, 2, 3, 4, 5, 6, 7, 8, 9, 10] 10 0 [(-1, 1)]).1 = none := by
  have hr : copyRange WHISPER_SAMPLE_RATE 10 0 1 0 (-1, 1) = (-159, 169) := by
    with_unfolding_all decide
  refine ⟨by decide, ?_, ?_, hr, ?_, ?_⟩
  · with_unfolding_all decide
  · with_unfolding_all decide
  · rw [hr]; decide
  · exact copyPass_none_of_read_outside WHISPER_SAMPLE_RATE _ 10 0 1 0 (-1, 1) [] _ 0
      (by rw [hr]; decide) (Or.inl (by rw [hr]; decide))

/-- C16, amended: for every buffer of `numSamples ≥ 1` samples, every overlap and every
interval `(t0, t1)` with `t0 ≥ 0`, whatever `t1` (negative, before `t0`, or beyond the end
of the buffer), at every position of the loop at which the `int` computations of the range
are defined (the converted times, the overlap, `end + overlap_samples` and `end - start` are
in the range of an `int`: `copyRangeDefined`), the range `[start, start + len)` read from the
input satisfies `0 ≤ start ≤ numSamples - 1` and `start + len ≤ numSamples`. -/
theorem copyRange_inside (rate : Nat) (numSamples : Int) (overlap_seconds : ℚ)
    (numSegments i : Int) (seg : Int × Int) (hN : 1 ≤ numSamples) (ht : 0 ≤ seg.1)
    (hdef : copyRangeDefined rate numSamples overlap_seconds numSegments i seg = true) :
    0 ≤ (copyRange rate numSamples overlap_seconds numSegments i seg).1 ∧
    (copyRange rate numSamples overlap_seconds numSegments i seg).1 ≤ numSamples - 1 ∧
    (copyRange rate numSamples overlap_seconds numSegments i seg).1 +
      (copyRange rate numSamples overlap_seconds numSegments i seg).2 ≤ numSamples ∧
    fitsInt (copyRange rate numSamples overlap_seconds numSegments i seg).1 = true ∧
    fitsInt (copyRange rate numSamples overlap_seconds numSegments i seg).2 = true := by
  have hs : 0 ≤ cs_to_samples rate seg.1 := by
    have := cs_to_samples_mono rate 0 seg.1 ht
    rwa [cs_to_samples_zero] at this
  have hin := copyRange_inside_of_start rate numSamples overlap_seconds numSegments i seg hN hs
  simp only [copyRangeDefined, Bool.and_eq_true, fitsInt_iff] at hdef
  obtain ⟨⟨⟨⟨⟨⟨_, h1⟩, _⟩, _⟩, _⟩, _⟩, h2⟩ := hdef
  refine ⟨hin.1, hin.2.1, hin.2.2, ?_, ?_⟩
  · rw [fitsInt_iff]
    unfold INT_MIN INT_MAX at h1 ⊢
    omega
  · rw [fitsInt_iff]
    unfold INT_MIN INT_MAX at h1 h2 ⊢
    unfold copyRange at hin ⊢
    simp only at hin ⊢
    omega

/-- Witness of `copyRange_inside`: in a buffer of 10 samples, the interval (0, 1), whose end
lies beyond the buffer, and the interval (0, -1), whose end is negative. -/
theorem copyRange_inside_witness :
    (0 ≤ (copyRange WHISPER_SAMPLE_RATE 10 0 1 0 (0, 1)).1 ∧
      (copyRange WHISPER_SAMPLE_RATE 10 0 1 0 (0, 1)).1 ≤ 10 - 1 ∧
      (copyRange WHISPER_SAMPLE_RATE 10 0 1 0 (0, 1)).1 +
        (copyRange WHISPER_SAMPLE_RATE 10 0 1 0 (0, 1)).2 ≤ 10) ∧
    (0 ≤ (copyRange WHISPER_SAMPLE_RATE 10 0 1 0 (0, -1)).1 ∧
      (copyRange WHISPER_SAMPLE_RATE 10 0 1 0 (0, -1)).1 +
        (copyRange WHISPER_SAMPLE_RATE 10 0 1 0 (0, -1)).2 ≤ 10) := by
  have h := copyRange_inside WHISPER_SAMPLE_RATE 10 0 1 0 (0, 1) (by decide) (by decide)
    (by with_unfolding_all decide)
  have h2 := copyRange_inside WHISPER_SAMPLE_RATE 10 0 1 0 (0, -1) (by decide) (by decide)
    (by with_unfolding_all decide)
  exact ⟨⟨h.1, h.2.1, h.2.2.1⟩, h2.1, h2.2.2.1⟩

/-! # `cs_to_samples` against the rounded conversion -/

theorem cs_to_samples_rate_eq (cs : Int) :
    ((cs : ℚ) / 100) * ((WHISPER_SAMPLE_RATE : Nat) : ℚ) = ((160 * cs : Int) : ℚ) := by
  unfold WHISPER_SAMPLE_RATE
  push_cast
  ring

/-- C17 as stated fails: for -1 centisecond the exact value is -160 samples, which fits in
an `int`, and `cs_to_samples` gives -159. -/
theorem cs_to_samples_negative :
    specSamples WHISPER_SAMPLE_RATE (-1) = -160 ∧ 160 * (-1 : Int) = -160 ∧
    (-2147483648 : Int) ≤ -160 ∧ cs_to_samples WHISPER_SAMPLE_RATE (-1) = -159 ∧
    ¬ (cs_to_samples WHISPER_SAMPLE_RATE (-1) = specSamples WHISPER_SAMPLE_RATE (-1)) := by
  have h1 : specSamples WHISPER_SAMPLE_RATE (-1) = -160 := by
    unfold specSamples
    rw [cs_to_samples_rate_eq, round_intCast]
    rfl
  have h2 : cs_to_samples WHISPER_SAMPLE_RATE (-1) = -159 := by with_unfolding_all decide
  refine ⟨h1, by decide, by decide, h2, ?_⟩
  rw [h1, h2]
  decide

/-- C17, amended: at the sample rate 16000, for every centisecond value `cs ≥ 0` the
function `cs_to_samples` returns the rounded conversion `round(cs / 100 * 16000)`, which is
`160 * cs`; for `cs < 0` the rounded conversion is still `160 * cs`, and `cs_to_samples`,
which truncates `160 * cs + 0.5` toward zero, returns `160 * cs + 1`. -/
theorem cs_to_samples_rounds (cs : Int) :
    specSamples WHISPER_SAMPLE_RATE cs = 160 * cs ∧
    (0 ≤ cs → cs_to_samples WHISPER_SAMPLE_RATE cs = specSamples WHISPER_SAMPLE_RATE cs ∧
      cs_to_samples WHISPER_SAMPLE_RATE cs = 160 * cs) ∧
    (cs < 0 → cs_to_samples WHISPER_SAMPLE_RATE cs = 160 * cs + 1) := by
  have hspec : specSamples WHISPER_SAMPLE_RATE cs = 160 * cs := by
    unfold specSamples
    rw [cs_to_samples_rate_eq, round_intCast]
  refine ⟨hspec, ?_, ?_⟩
  · intro h0
    have hcs : cs_to_samples WHISPER_SAMPLE_RATE cs = 160 * cs := by
      unfold cs_to_samples truncToInt
      rw [cs_to_samples_rate_eq]
      have hq : (0 : ℚ) ≤ ((160 * cs : Int) : ℚ) + 1 / 2 := by
        have : (0 : ℚ) ≤ ((160 * cs : Int) : ℚ) := by exact_mod_cast (by omega : 0 ≤ 160 * cs)
        linarith
      rw [if_pos hq, Int.floor_eq_iff]
      constructor <;> linarith
    exact ⟨hcs.trans hspec.symm, hcs⟩
  · intro hneg
    unfold cs_to_samples truncToInt
    rw [cs_to_samples_rate_eq]
    have hq : ¬ ((0 : ℚ) ≤ ((160 * cs : Int) : ℚ) + 1 / 2) := by
      have : ((160 * cs : Int) : ℚ) ≤ -160 := by exact_mod_cast (by omega : 160 * cs ≤ -160)
      linarith
    rw [if_neg hq, Int.ceil_eq_iff]
    constructor
    · push_cast; linarith
    · push_cast; linarith

/-- Witness of `cs_to_samples_rounds`: 5 centiseconds are 800 samples. -/
theorem cs_to_samples_rounds_witness :
    cs_to_samples WHISPER_SAMPLE_RATE 5 = 800 ∧ specSamples WHISPER_SAMPLE_RATE 5 = 800 := by
  have h := (cs_to_samples_rounds 5).2.1 (by decide)
  exact ⟨h.2, h.1 ▸ h.2⟩

end WhisperJNI
